import Mathlib

/-!
# sqlhooks: the hook dispatch layer around a database driver

A shallow embedding of `sqlhooks.go`.

* Go interface values that the wrapper probes with a type assertion or a type
  switch (`driver.ExecerContext`, `driver.Execer`, `HookErrors`, ...) are
  records whose optional methods are `Option` fields: the assertion succeeds
  exactly when the field is `some`.
* Hooks and driver primitives are external code with side effects.  Every call
  the wrapper makes to them is appended to a `Trace`, and each callback receives
  the trace of the calls made before it, so its answer may depend on the whole
  history of the operation.
* A Go `error` is `Option Error` (`none` is `nil`); a nilable result handle is
  `Option Result` / `Option Rows`.
* The only run-time panic the wrapper itself can raise, an index out of range
  in the statement-level legacy conversion, is the outer `none` of the
  statement-level operations.
-/

set_option linter.dupNamespace false
set_option linter.unusedVariables false

namespace Sqlhooks

/-! ## Data model -/

/-- Operation context (`context.Context`), an opaque token. -/
abbrev Context := Nat

/-- A non-nil Go `error`, identified by its message. -/
abbrev Error := String

/-- Handle of a `driver.Result`. -/
abbrev Result := Nat

/-- Handle of a `driver.Rows`. -/
abbrev Rows := Nat

/-- Handle of a `driver.Tx`. -/
abbrev Tx := Nat

/-- A `driver.Value`; `nil` is the zero value that `make` fills a slice with. -/
inductive Value
  | nil
  | int (i : Int)
  | bool (b : Bool)
  | str (s : String)
  deriving DecidableEq, Repr

/-- The `driver.NamedValue` record: optional name, ordinal position, value. -/
structure NamedValue where
  Name : String
  Ordinal : Int
  Value : Value
  deriving DecidableEq, Repr

/-- An `interface{}` element of the hook-facing argument list: `nil` (the zero
value `make` fills with) or a boxed `driver.NamedValue`. -/
inductive Interface
  | nil
  | namedValue (n : NamedValue)
  deriving DecidableEq, Repr

/-- The `driver.TxOptions` record. -/
structure TxOptions where
  Isolation : Int
  ReadOnly : Bool
  deriving DecidableEq, Repr

/-- One call made by the wrapper to external code (a hook or the driver). -/
inductive Event
  | Before (ctx : Context) (query : String) (args : List Interface)
  | After (ctx : Context) (query : String) (args : List Interface)
  | OnError (ctx : Context) (err : Error) (query : String) (args : List Interface)
  | DriverOpen (name : String)
  | ConnPrepare (query : String)
  | ConnPrepareContext (ctx : Context) (query : String)
  | ConnClose
  | ConnBegin
  | ConnBeginTx (ctx : Context) (opts : TxOptions)
  | ConnExecContext (ctx : Context) (query : String) (args : List NamedValue)
  | ConnExec (query : String) (args : List Value)
  | ConnQueryContext (ctx : Context) (query : String) (args : List NamedValue)
  | ConnQuery (query : String) (args : List Value)
  | StmtClose
  | StmtNumInput
  | StmtExecContext (ctx : Context) (args : List NamedValue)
  | StmtExec (args : List Value)
  | StmtQueryContext (ctx : Context) (args : List NamedValue)
  | StmtQuery (args : List Value)
  deriving DecidableEq, Repr

/-- The calls made so far, oldest first. -/
abbrev Trace := List Event

/-- The `Hooks` interface (`Before`, `After`) together with the optional
`HookErrors` capability: `OnError` is `some` exactly when the dynamic type of
the hooks value also implements `HookErrors`. -/
structure Hooks where
  Before : Trace → Context → String → List Interface → Context × Option Error
  After : Trace → Context → String → List Interface → Context × Option Error
  OnError : Option (Trace → Context → Error → String → List Interface → Option Error)

/-- An underlying `driver.Stmt` with its optional context-aware capabilities. -/
structure DriverStmt where
  Close : Trace → Option Error
  NumInput : Trace → Int
  Exec : Trace → List Value → Option Result × Option Error
  Query : Trace → List Value → Option Rows × Option Error
  StmtExecContext : Option (Trace → Context → List NamedValue → Option Result × Option Error)
  StmtQueryContext : Option (Trace → Context → List NamedValue → Option Rows × Option Error)

/-- What a driver call that hands out a handle returns (`Open`, `Prepare`,
`PrepareContext`): a handle and no error, or an error together with whatever
handle, possibly nil, came with it.  A driver returning a nil handle and a nil
error breaks the `database/sql/driver` contract and is not an input here. -/
inductive Opened (α : Type)
  | ok (h : α)
  | failed (h : Option α) (err : Error)

/-- An underlying `driver.Conn` with its optional capabilities. -/
structure DriverConn where
  Prepare : Trace → String → Opened DriverStmt
  Close : Trace → Option Error
  Begin : Trace → Option Tx × Option Error
  ConnBeginTx : Option (Trace → Context → TxOptions → Option Tx × Option Error)
  ConnPrepareContext : Option (Trace → Context → String → Opened DriverStmt)
  ExecerContext : Option (Trace → Context → String → List NamedValue → Option Result × Option Error)
  Execer : Option (Trace → String → List Value → Option Result × Option Error)
  QueryerContext : Option (Trace → Context → String → List NamedValue → Option Rows × Option Error)
  Queryer : Option (Trace → String → List Value → Option Rows × Option Error)

/-- An underlying `driver.Driver`. -/
structure DriverDriver where
  Open : Trace → String → Opened DriverConn

/-- The wrapper `Driver` of the source: `struct { driver.Driver; Hooks }`. -/
structure Driver where
  Driver : DriverDriver
  Hooks : Hooks

/-- The wrapper `Conn` of the source: `struct { driver.Conn; Hooks }`. -/
structure Conn where
  Conn : DriverConn
  Hooks : Hooks

/-- The wrapper `ExecerContext` of the source: `struct{ *Conn }`. -/
structure ExecerContext where
  Conn : Conn

/-- The wrapper `QueryerContext` of the source: `struct{ *Conn }`. -/
structure QueryerContext where
  Conn : Conn

/-- The wrapper `ExecerQueryerContext` of the source. -/
structure ExecerQueryerContext where
  Conn : Conn
  ExecerContext : ExecerContext
  QueryerContext : QueryerContext

/-- The wrapper `Stmt` of the source: `struct { driver.Stmt; Hooks; query string }`. -/
structure Stmt where
  Stmt : DriverStmt
  Hooks : Hooks
  query : String

/-- A `driver.Stmt` interface value as the wrapper returns it: nil, an
underlying statement handed through as it is, or a `*Stmt` wrapper. -/
inductive StmtHandle
  | nil
  | underlying (s : DriverStmt)
  | wrapper (s : Stmt)

/-- A `driver.Conn` interface value as `Driver.Open` returns it: nil, the
underlying connection handed through, or one of the four wrapper variants. -/
inductive ConnHandle
  | nil
  | underlying (c : DriverConn)
  | conn (c : Conn)
  | execerContext (c : ExecerContext)
  | queryerContext (c : QueryerContext)
  | execerQueryerContext (c : ExecerQueryerContext)

/-! ## Error values -/

def errNamedParameter : Error := "[sql]: driver does not support the use of Named Parameter"

def errIsolationLevel : Error := "[sql] driver does not support non-default isolation level"

def errExecContext : Error := "[sql-hook] ExecContext has created, but something went wrong"

def errQueryContext : Error := "[sql-hook] QueryContext has created, but something went to wrong"

/-! ## Argument conversion -/

/-- Loop of `namedValueToValue`: `for i, n := range named`, writing `args[i]`. -/
def namedValueToValue.loop (args : List Value) :
    Nat → List NamedValue → Option (List Value) × Option Error
  | _, [] => (some args, none)
  | i, n :: rest =>
    if n.Name.length > 0 then (none, some errNamedParameter)
    else namedValueToValue.loop (args.set i n.Value) (i + 1) rest

/-- The source's `namedValueToValue`: the legacy value array, or the
named-parameter error at the first argument that carries a name. -/
def namedValueToValue (named : List NamedValue) : Option (List Value) × Option Error :=
  namedValueToValue.loop (List.replicate named.length Value.nil) 0 named

/-- Loop of `namedValueToInterface`: `for i, n := range named`, writing `itf[i]`. -/
def namedValueToInterface.loop (itf : List Interface) :
    Nat → List NamedValue → List Interface
  | _, [] => itf
  | i, n :: rest => namedValueToInterface.loop (itf.set i (Interface.namedValue n)) (i + 1) rest

/-- The source's `namedValueToInterface`: the hook-facing argument list. -/
def namedValueToInterface (named : List NamedValue) : List Interface :=
  namedValueToInterface.loop (List.replicate named.length Interface.nil) 0 named

/-- The loop `for _, arg := range args { values[arg.Ordinal-1] = arg.Value }` of
`Stmt.execContext` and `Stmt.queryContext`; `none` is the index-out-of-range
panic. -/
def ordinalLoop (values : List Value) : List NamedValue → Option (List Value)
  | [] => some values
  | arg :: rest =>
    if 0 ≤ arg.Ordinal - 1 ∧ arg.Ordinal - 1 < values.length then
      ordinalLoop (values.set (arg.Ordinal - 1).toNat arg.Value) rest
    else none

/-! ## Capability probing and error escalation -/

/-- The source's `isExecer`: the type switch over `driver.ExecerContext`, `driver.Execer`. -/
def isExecer (conn : DriverConn) : Bool :=
  match conn.ExecerContext, conn.Execer with
  | some _, _ => true
  | none, some _ => true
  | none, none => false

/-- The source's `isQueryer`: the type switch over `driver.QueryerContext`, `driver.Queryer`. -/
def isQueryer (conn : DriverConn) : Bool :=
  match conn.QueryerContext, conn.Queryer with
  | some _, _ => true
  | none, some _ => true
  | none, none => false

/-- The source's `handlerError`.  Without the `HookErrors` capability the error is
returned as it is.  With it, `OnError` is called; the `err` bound by the `if`
statement shadows the parameter only inside the `if`, so a non-nil answer is
returned and after a nil answer the final `return err` yields the parameter,
the original error. -/
def handlerError (tr : Trace) (ctx : Context) (hooks : Hooks) (err : Error) (query : String)
    (args : List Interface) : Option Error × Trace :=
  match hooks.OnError with
  | none => (some err, tr)
  | some h =>
    match h tr ctx err query args with
    | some err1 => (some err1, tr ++ [Event.OnError ctx err query args])
    | none => (some err, tr ++ [Event.OnError ctx err query args])

/-! ## Connection wrapper -/

/-- The handle part of a driver answer, as a `driver.Stmt` interface value. -/
def StmtHandle.ofDriver : Option DriverStmt → StmtHandle
  | none => StmtHandle.nil
  | some s => StmtHandle.underlying s

/-- The handle part of a driver answer, as a `driver.Conn` interface value. -/
def ConnHandle.ofDriver : Option DriverConn → ConnHandle
  | none => ConnHandle.nil
  | some c => ConnHandle.underlying c

/-- The source's `Conn.Prepare`: `return conn.Conn.Prepare(query)`, the answer of
the underlying connection handed through as it is. -/
def Conn.Prepare (conn : Sqlhooks.Conn) (tr : Trace) (query : String) : Opened DriverStmt × Trace :=
  (conn.Conn.Prepare tr query, tr ++ [Event.ConnPrepare query])

/-- The pair `(driver.Stmt, error)` that a caller of `Conn.Prepare` receives. -/
def Opened.toHandle : Opened DriverStmt → StmtHandle × Option Error
  | Opened.ok s => (StmtHandle.underlying s, none)
  | Opened.failed s err => (StmtHandle.ofDriver s, some err)

/-- The source's `Conn.Close`. -/
def Conn.Close (conn : Sqlhooks.Conn) (tr : Trace) : Option Error × Trace :=
  (conn.Conn.Close tr, tr ++ [Event.ConnClose])

/-- The source's `Conn.Begin`. -/
def Conn.Begin (conn : Sqlhooks.Conn) (tr : Trace) : (Option Tx × Option Error) × Trace :=
  (conn.Conn.Begin tr, tr ++ [Event.ConnBegin])

/-- The source's `Conn.BeginTx`. -/
def Conn.BeginTx (conn : Sqlhooks.Conn) (tr : Trace) (ctx : Context) (opts : TxOptions) :
    (Option Tx × Option Error) × Trace :=
  match conn.Conn.ConnBeginTx with
  | some BeginTx => (BeginTx tr ctx opts, tr ++ [Event.ConnBeginTx ctx opts])
  | none => ((none, some errIsolationLevel), tr)

/-- The source's `Conn.PrepareContext`: the context-aware prepare of the
underlying connection when it has one, else the wrapper's own `Prepare`; an
error is handed through, a statement is wrapped with the hooks and the query. -/
def Conn.PrepareContext (conn : Sqlhooks.Conn) (tr : Trace) (ctx : Context) (query : String) :
    (StmtHandle × Option Error) × Trace :=
  let p : Opened DriverStmt × Trace :=
    match conn.Conn.ConnPrepareContext with
    | some PrepareContext =>
      (PrepareContext tr ctx query, tr ++ [Event.ConnPrepareContext ctx query])
    | none => conn.Prepare tr query
  match p.1 with
  | Opened.failed stmt err => ((StmtHandle.ofDriver stmt, some err), p.2)
  | Opened.ok stmt => ((StmtHandle.wrapper ⟨stmt, conn.Hooks, query⟩, none), p.2)

/-- The source's `Conn.execContext`: the type switch over the underlying connection. -/
def Conn.execContext (conn : Sqlhooks.Conn) (tr : Trace) (ctx : Context) (query : String)
    (args : List NamedValue) : (Option Result × Option Error) × Trace :=
  match conn.Conn.ExecerContext, conn.Conn.Execer with
  | some ExecContext, _ =>
    (ExecContext tr ctx query args, tr ++ [Event.ConnExecContext ctx query args])
  | none, some Exec =>
    match namedValueToValue args with
    | (_, some err) => ((none, some err), tr)
    | (cArgs, none) =>
      (Exec tr query (cArgs.getD []), tr ++ [Event.ConnExec query (cArgs.getD [])])
  | none, none => ((none, some errExecContext), tr)

/-- The source's `Conn.ExecContext`. -/
def Conn.ExecContext (conn : Sqlhooks.Conn) (tr : Trace) (ctx : Context) (query : String)
    (args : List NamedValue) : (Option Result × Option Error) × Trace :=
  let cArgs := namedValueToInterface args
  let b := conn.Hooks.Before tr ctx query cArgs
  let tr1 := tr ++ [Event.Before ctx query cArgs]
  match b.2 with
  | some err => ((none, some err), tr1)
  | none =>
    let d := conn.execContext tr1 b.1 query args
    match d.1.2 with
    | some err =>
      let h := handlerError d.2 b.1 conn.Hooks err query cArgs
      ((d.1.1, h.1), h.2)
    | none =>
      let a := conn.Hooks.After d.2 b.1 query cArgs
      let tr3 := d.2 ++ [Event.After b.1 query cArgs]
      match a.2 with
      | some err => ((none, some err), tr3)
      | none => ((d.1.1, none), tr3)

/-! ## Direct-execute and direct-query variants -/

/-- The source's `ExecerContext.execContext`. -/
def ExecerContext.execContext (ec : ExecerContext) (tr : Trace) (ctx : Context)
    (query : String) (args : List NamedValue) : (Option Result × Option Error) × Trace :=
  match ec.Conn.Conn.ExecerContext, ec.Conn.Conn.Execer with
  | some ExecContext, _ =>
    (ExecContext tr ctx query args, tr ++ [Event.ConnExecContext ctx query args])
  | none, some Exec =>
    match namedValueToValue args with
    | (_, some err) => ((none, some err), tr)
    | (cArgs, none) =>
      (Exec tr query (cArgs.getD []), tr ++ [Event.ConnExec query (cArgs.getD [])])
  | none, none => ((none, some errExecContext), tr)

/-- The source's `ExecerContext.ExecContext`. -/
def ExecerContext.ExecContext (ec : ExecerContext) (tr : Trace) (ctx : Context)
    (query : String) (args : List NamedValue) : (Option Result × Option Error) × Trace :=
  let cArgs := namedValueToInterface args
  let b := ec.Conn.Hooks.Before tr ctx query cArgs
  let tr1 := tr ++ [Event.Before ctx query cArgs]
  match b.2 with
  | some err => ((none, some err), tr1)
  | none =>
    let d := ec.execContext tr1 b.1 query args
    match d.1.2 with
    | some err =>
      let h := handlerError d.2 b.1 ec.Conn.Hooks err query cArgs
      ((d.1.1, h.1), h.2)
    | none =>
      let a := ec.Conn.Hooks.After d.2 b.1 query cArgs
      let tr3 := d.2 ++ [Event.After b.1 query cArgs]
      match a.2 with
      | some err => ((none, some err), tr3)
      | none => ((d.1.1, none), tr3)

/-- The source's `QueryerContext.queryContext`. -/
def QueryerContext.queryContext (qc : QueryerContext) (tr : Trace) (ctx : Context)
    (query : String) (args : List NamedValue) : (Option Rows × Option Error) × Trace :=
  match qc.Conn.Conn.QueryerContext, qc.Conn.Conn.Queryer with
  | some QueryContext, _ =>
    (QueryContext tr ctx query args, tr ++ [Event.ConnQueryContext ctx query args])
  | none, some Query =>
    match namedValueToValue args with
    | (_, some err) => ((none, some err), tr)
    | (cArgs, none) =>
      (Query tr query (cArgs.getD []), tr ++ [Event.ConnQuery query (cArgs.getD [])])
  | none, none => ((none, some errQueryContext), tr)

/-- The source's `QueryerContext.QueryContext`. -/
def QueryerContext.QueryContext (qc : QueryerContext) (tr : Trace) (ctx : Context)
    (query : String) (args : List NamedValue) : (Option Rows × Option Error) × Trace :=
  let cArgs := namedValueToInterface args
  let b := qc.Conn.Hooks.Before tr ctx query cArgs
  let tr1 := tr ++ [Event.Before ctx query cArgs]
  match b.2 with
  | some err => ((none, some err), tr1)
  | none =>
    let d := qc.queryContext tr1 b.1 query args
    match d.1.2 with
    | some err =>
      let h := handlerError d.2 b.1 qc.Conn.Hooks err query cArgs
      ((d.1.1, h.1), h.2)
    | none =>
      let a := qc.Conn.Hooks.After d.2 b.1 query cArgs
      let tr3 := d.2 ++ [Event.After b.1 query cArgs]
      match a.2 with
      | some err => ((none, some err), tr3)
      | none => ((d.1.1, none), tr3)

/-! ## Statement wrapper -/

/-- The source's `Stmt.Close`. -/
def Stmt.Close (stmt : Sqlhooks.Stmt) (tr : Trace) : Option Error × Trace :=
  (stmt.Stmt.Close tr, tr ++ [Event.StmtClose])

/-- The source's `Stmt.NumInput`. -/
def Stmt.NumInput (stmt : Sqlhooks.Stmt) (tr : Trace) : Int × Trace :=
  (stmt.Stmt.NumInput tr, tr ++ [Event.StmtNumInput])

/-- The source's `Stmt.Exec`. -/
def Stmt.Exec (stmt : Sqlhooks.Stmt) (tr : Trace) (args : List Value) :
    (Option Result × Option Error) × Trace :=
  (stmt.Stmt.Exec tr args, tr ++ [Event.StmtExec args])

/-- The source's `Stmt.Query`. -/
def Stmt.Query (stmt : Sqlhooks.Stmt) (tr : Trace) (args : List Value) :
    (Option Rows × Option Error) × Trace :=
  (stmt.Stmt.Query tr args, tr ++ [Event.StmtQuery args])

/-- The source's `Stmt.execContext`; the outer `none` is the index panic of the
legacy conversion. -/
def Stmt.execContext (stmt : Sqlhooks.Stmt) (tr : Trace) (ctx : Context)
    (args : List NamedValue) : Option (Option Result × Option Error) × Trace :=
  match stmt.Stmt.StmtExecContext with
  | some ExecContext =>
    (some (ExecContext tr ctx args), tr ++ [Event.StmtExecContext ctx args])
  | none =>
    match ordinalLoop (List.replicate args.length Value.nil) args with
    | none => (none, tr)
    | some values => (some (stmt.Exec tr values).1, (stmt.Exec tr values).2)

/-- The source's `Stmt.ExecContext`; a panic of `execContext` unwinds through it. -/
def Stmt.ExecContext (stmt : Sqlhooks.Stmt) (tr : Trace) (ctx : Context)
    (args : List NamedValue) : Option (Option Result × Option Error) × Trace :=
  let cArgs := namedValueToInterface args
  let b := stmt.Hooks.Before tr ctx stmt.query cArgs
  let tr1 := tr ++ [Event.Before ctx stmt.query cArgs]
  match b.2 with
  | some err => (some (none, some err), tr1)
  | none =>
    let d := stmt.execContext tr1 b.1 args
    match d.1 with
    | none => (none, d.2)
    | some (results, some err) =>
      let h := handlerError d.2 b.1 stmt.Hooks err stmt.query cArgs
      (some (results, h.1), h.2)
    | some (results, none) =>
      let a := stmt.Hooks.After d.2 b.1 stmt.query cArgs
      let tr3 := d.2 ++ [Event.After b.1 stmt.query cArgs]
      match a.2 with
      | some err => (some (none, some err), tr3)
      | none => (some (results, none), tr3)

/-- The source's `Stmt.queryContext`; the outer `none` is the index panic of the
legacy conversion. -/
def Stmt.queryContext (stmt : Sqlhooks.Stmt) (tr : Trace) (ctx : Context)
    (args : List NamedValue) : Option (Option Rows × Option Error) × Trace :=
  match stmt.Stmt.StmtQueryContext with
  | some QueryContext =>
    (some (QueryContext tr ctx args), tr ++ [Event.StmtQueryContext ctx args])
  | none =>
    match ordinalLoop (List.replicate args.length Value.nil) args with
    | none => (none, tr)
    | some values => (some (stmt.Query tr values).1, (stmt.Query tr values).2)

/-- The source's `Stmt.QueryContext`; a panic of `queryContext` unwinds through it. -/
def Stmt.QueryContext (stmt : Sqlhooks.Stmt) (tr : Trace) (ctx : Context)
    (args : List NamedValue) : Option (Option Rows × Option Error) × Trace :=
  let cArgs := namedValueToInterface args
  let b := stmt.Hooks.Before tr ctx stmt.query cArgs
  let tr1 := tr ++ [Event.Before ctx stmt.query cArgs]
  match b.2 with
  | some err => (some (none, some err), tr1)
  | none =>
    let d := stmt.queryContext tr1 b.1 args
    match d.1 with
    | none => (none, d.2)
    | some (rows, some err) =>
      let h := handlerError d.2 b.1 stmt.Hooks err stmt.query cArgs
      (some (rows, h.1), h.2)
    | some (rows, none) =>
      let a := stmt.Hooks.After d.2 b.1 stmt.query cArgs
      let tr3 := d.2 ++ [Event.After b.1 stmt.query cArgs]
      match a.2 with
      | some err => (some (none, some err), tr3)
      | none => (some (rows, none), tr3)

/-! ## Driver wrapper -/

/-- The source's `Wrap`. -/
def Wrap (drv : DriverDriver) (hooks : Hooks) : Driver :=
  ⟨drv, hooks⟩

/-- The source's `Driver.Open`. -/
def Driver.Open (drv : Sqlhooks.Driver) (tr : Trace) (name : String) :
    (ConnHandle × Option Error) × Trace :=
  match drv.Driver.Open tr name with
  | Opened.failed conn err => ((ConnHandle.ofDriver conn, some err), tr ++ [Event.DriverOpen name])
  | Opened.ok conn =>
    let wrapped : Conn := ⟨conn, drv.Hooks⟩
    let iE := isExecer conn
    let iQ := isQueryer conn
    if iE && iQ then
      ((ConnHandle.execerQueryerContext ⟨wrapped, ⟨wrapped⟩, ⟨wrapped⟩⟩, none),
        tr ++ [Event.DriverOpen name])
    else if iE then
      ((ConnHandle.execerContext ⟨wrapped⟩, none), tr ++ [Event.DriverOpen name])
    else if iQ then
      ((ConnHandle.queryerContext ⟨wrapped⟩, none), tr ++ [Event.DriverOpen name])
    else
      ((ConnHandle.conn wrapped, none), tr ++ [Event.DriverOpen name])

/-! ## Method sets of the wrapper types

Which capabilities a wrapper exposes to its host is decided by a type assertion
on the wrapper, hence by the method set of its type: the methods declared on it
and those promoted from its embedded fields by Go's selector rule (the method
at the shallowest embedding depth, provided it is the only one at that depth).
-/

/-- The types of the source that declare or embed methods, and the three
interfaces they embed. -/
inductive GoType
  | Driver
  | Conn
  | ExecerContext
  | QueryerContext
  | ExecerQueryerContext
  | Stmt
  | driverDriver
  | driverConn
  | driverStmt
  | Hooks
  deriving DecidableEq, Repr

/-- The methods declared on each type in the source (for an interface: the
methods it lists). -/
def GoType.declared : GoType → List String
  | GoType.Driver => ["Open"]
  | GoType.Conn =>
    ["Prepare", "Close", "Begin", "BeginTx", "PrepareContext", "ExecContext", "execContext"]
  | GoType.ExecerContext => ["execContext", "ExecContext"]
  | GoType.QueryerContext => ["queryContext", "QueryContext"]
  | GoType.ExecerQueryerContext => []
  | GoType.Stmt =>
    ["Close", "NumInput", "Exec", "Query", "execContext", "ExecContext", "queryContext",
      "QueryContext"]
  | GoType.driverDriver => ["Open"]
  | GoType.driverConn => ["Prepare", "Close", "Begin"]
  | GoType.driverStmt => ["Close", "NumInput", "Exec", "Query"]
  | GoType.Hooks => ["Before", "After"]

/-- The embedded fields of each struct type in the source, in declaration order. -/
def GoType.embedded : GoType → List GoType
  | GoType.Driver => [GoType.driverDriver, GoType.Hooks]
  | GoType.Conn => [GoType.driverConn, GoType.Hooks]
  | GoType.ExecerContext => [GoType.Conn]
  | GoType.QueryerContext => [GoType.Conn]
  | GoType.ExecerQueryerContext =>
    [GoType.Conn, GoType.ExecerContext, GoType.QueryerContext]
  | GoType.Stmt => [GoType.driverStmt, GoType.Hooks]
  | GoType.driverDriver => []
  | GoType.driverConn => []
  | GoType.driverStmt => []
  | GoType.Hooks => []

/-- The types reached through exactly `d` embeddings, one entry per path. -/
def GoType.atDepth : Nat → GoType → List GoType
  | 0, t => [t]
  | d + 1, t => (t.embedded.map (GoType.atDepth d)).flatten

/-- How many declarations of method `m` sit at embedding depth `d` of `t`. -/
def GoType.countAt (t : GoType) (m : String) (d : Nat) : Nat :=
  ((t.atDepth d).map (fun u => u.declared.count m)).sum

/-- Go's selector rule for `x.m` with `x` of type `*t`: `m` is in the method set
when, at the shallowest depth that declares an `m`, exactly one declaration
does.  The embeddings of the source are at most three deep. -/
def GoType.hasMethod (t : GoType) (m : String) : Bool :=
  match (List.range 4).find? (fun d => 0 < t.countAt m d) with
  | none => false
  | some d => t.countAt m d == 1

/-- The wrapper type behind a handle, when it is one. -/
def ConnHandle.goType : ConnHandle → Option GoType
  | ConnHandle.nil => none
  | ConnHandle.underlying _ => none
  | ConnHandle.conn _ => some GoType.Conn
  | ConnHandle.execerContext _ => some GoType.ExecerContext
  | ConnHandle.queryerContext _ => some GoType.QueryerContext
  | ConnHandle.execerQueryerContext _ => some GoType.ExecerQueryerContext

/-- The handle satisfies `driver.ExecerContext` or `driver.Execer`: the host may
execute on it directly. -/
def ConnHandle.exposesExec : ConnHandle → Bool
  | ConnHandle.nil => false
  | ConnHandle.underlying c => isExecer c
  | ConnHandle.conn _ =>
    GoType.Conn.hasMethod "ExecContext" || GoType.Conn.hasMethod "Exec"
  | ConnHandle.execerContext _ =>
    GoType.ExecerContext.hasMethod "ExecContext" || GoType.ExecerContext.hasMethod "Exec"
  | ConnHandle.queryerContext _ =>
    GoType.QueryerContext.hasMethod "ExecContext" || GoType.QueryerContext.hasMethod "Exec"
  | ConnHandle.execerQueryerContext _ =>
    GoType.ExecerQueryerContext.hasMethod "ExecContext" ||
      GoType.ExecerQueryerContext.hasMethod "Exec"

/-- The handle satisfies `driver.QueryerContext` or `driver.Queryer`: the host
may query on it directly. -/
def ConnHandle.exposesQuery : ConnHandle → Bool
  | ConnHandle.nil => false
  | ConnHandle.underlying c => isQueryer c
  | ConnHandle.conn _ =>
    GoType.Conn.hasMethod "QueryContext" || GoType.Conn.hasMethod "Query"
  | ConnHandle.execerContext _ =>
    GoType.ExecerContext.hasMethod "QueryContext" || GoType.ExecerContext.hasMethod "Query"
  | ConnHandle.queryerContext _ =>
    GoType.QueryerContext.hasMethod "QueryContext" || GoType.QueryerContext.hasMethod "Query"
  | ConnHandle.execerQueryerContext _ =>
    GoType.ExecerQueryerContext.hasMethod "QueryContext" ||
      GoType.ExecerQueryerContext.hasMethod "Query"

/-! ## Classification of trace events -/

/-- The event is a call of a driver primitive. -/
def Event.isDriverCall : Event → Bool
  | Event.Before _ _ _ => false
  | Event.After _ _ _ => false
  | Event.OnError _ _ _ _ => false
  | _ => true

/-- The event is a call of `Before`. -/
def Event.isBefore : Event → Bool
  | Event.Before _ _ _ => true
  | _ => false

/-- The event is a call of `After`. -/
def Event.isAfter : Event → Bool
  | Event.After _ _ _ => true
  | _ => false

/-- The event is a call of `OnError`. -/
def Event.isOnError : Event → Bool
  | Event.OnError _ _ _ _ => true
  | _ => false

/-- The context an event was called with, for the calls that take one. -/
def Event.context : Event → Option Context
  | Event.Before ctx _ _ => some ctx
  | Event.After ctx _ _ => some ctx
  | Event.OnError ctx _ _ _ => some ctx
  | Event.ConnPrepareContext ctx _ => some ctx
  | Event.ConnBeginTx ctx _ => some ctx
  | Event.ConnExecContext ctx _ _ => some ctx
  | Event.ConnQueryContext ctx _ _ => some ctx
  | Event.StmtExecContext ctx _ => some ctx
  | Event.StmtQueryContext ctx _ => some ctx
  | _ => none

/-- The query text an event reports to a hook, for the hook calls. -/
def Event.hookQuery : Event → Option String
  | Event.Before _ query _ => some query
  | Event.After _ query _ => some query
  | Event.OnError _ _ query _ => some query
  | _ => none

/-! ## Concrete hooks, connections and statements -/

/-- Hooks that let everything through; `Before` derives a new context. -/
def okHooks : Hooks :=
  { Before := fun _ ctx _ _ => (ctx + 1, none)
    After := fun _ ctx _ _ => (ctx, none)
    OnError := none }

/-- Hooks whose `Before` vetoes. -/
def vetoHooks : Hooks :=
  { Before := fun _ ctx _ _ => (ctx, some "veto")
    After := fun _ ctx _ _ => (ctx, none)
    OnError := none }

/-- Hooks whose `After` rejects. -/
def afterErrHooks : Hooks :=
  { Before := fun _ ctx _ _ => (ctx + 1, none)
    After := fun _ ctx _ _ => (ctx, some "over budget")
    OnError := none }

/-- Hooks with an `OnError` that answers nil. -/
def suppressHooks : Hooks :=
  { Before := fun _ ctx _ _ => (ctx + 1, none)
    After := fun _ ctx _ _ => (ctx, none)
    OnError := some (fun _ _ _ _ _ => none) }

/-- Hooks with an `OnError` that wraps the error. -/
def wrapHooks : Hooks :=
  { Before := fun _ ctx _ _ => (ctx + 1, none)
    After := fun _ ctx _ _ => (ctx, none)
    OnError := some (fun _ _ err _ _ => some ("wrapped: " ++ err)) }

/-- A statement with the context-aware primitives. -/
def ctxStmt : DriverStmt :=
  { Close := fun _ => none
    NumInput := fun _ => -1
    Exec := fun _ _ => (some 1, none)
    Query := fun _ _ => (some 2, none)
    StmtExecContext := some (fun _ _ _ => (some 3, none))
    StmtQueryContext := some (fun _ _ _ => (some 4, none)) }

/-- A statement with the legacy primitives only. -/
def legacyStmt : DriverStmt :=
  { Close := fun _ => none
    NumInput := fun _ => -1
    Exec := fun _ _ => (some 1, none)
    Query := fun _ _ => (some 2, none)
    StmtExecContext := none
    StmtQueryContext := none }

/-- A statement whose primitives fail with a result in hand. -/
def failStmt : DriverStmt :=
  { Close := fun _ => none
    NumInput := fun _ => -1
    Exec := fun _ _ => (some 1, some "boom")
    Query := fun _ _ => (some 2, some "boom")
    StmtExecContext := some (fun _ _ _ => (some 3, some "boom"))
    StmtQueryContext := some (fun _ _ _ => (some 4, some "boom")) }

/-- A connection with neither direct execute nor direct query. -/
def bareConn : DriverConn :=
  { Prepare := fun _ _ => Opened.ok legacyStmt
    Close := fun _ => none
    Begin := fun _ => (some 0, none)
    ConnBeginTx := none
    ConnPrepareContext := none
    ExecerContext := none
    Execer := none
    QueryerContext := none
    Queryer := none }

/-- A connection with the context-aware primitives. -/
def ctxConn : DriverConn :=
  { bareConn with
    ExecerContext := some (fun _ _ _ _ => (some 7, none))
    QueryerContext := some (fun _ _ _ _ => (some 8, none)) }

/-- A connection with the legacy direct primitives only. -/
def legacyConn : DriverConn :=
  { bareConn with
    Execer := some (fun _ _ _ => (some 5, none))
    Queryer := some (fun _ _ _ => (some 6, none)) }

/-- A connection whose direct primitives fail with a result in hand. -/
def failConn : DriverConn :=
  { bareConn with
    ExecerContext := some (fun _ _ _ _ => (some 7, some "boom"))
    QueryerContext := some (fun _ _ _ _ => (some 8, some "boom")) }

/-- A connection that can only query directly. -/
def queryOnlyConn : DriverConn :=
  { bareConn with QueryerContext := some (fun _ _ _ _ => (some 8, none)) }

/-- A connection whose prepare fails. -/
def noPrepareConn : DriverConn :=
  { bareConn with Prepare := fun _ _ => Opened.failed none "bad sql" }

/-- A driver that opens the given connection. -/
def driverOf (c : DriverConn) : DriverDriver :=
  { Open := fun _ _ => Opened.ok c }

/-- Two positional arguments, `1` and `"a"`. -/
def twoArgs : List NamedValue :=
  [⟨"", 1, Value.int 1⟩, ⟨"", 2, Value.str "a"⟩]

/-- One positional and one named argument. -/
def namedArgs : List NamedValue :=
  [⟨"", 1, Value.int 1⟩, ⟨"id", 2, Value.int 9⟩]

/-! ## Reading the converted arguments -/

/-- The value an element of the hook-facing argument list carries. -/
def Interface.value : Interface → Value
  | Interface.nil => Value.nil
  | Interface.namedValue n => n.Value

/-- The native argument list rebuilt from a value sequence: no names, ordinals
`1..n` in order. -/
def rebuild (values : List Value) : List NamedValue :=
  values.enum.map (fun p => ⟨"", (p.1 : Int) + 1, p.2⟩)

/-- The argument list an event hands to a hook, for the hook calls. -/
def Event.hookArgs : Event → Option (List Interface)
  | Event.Before _ _ args => some args
  | Event.After _ _ args => some args
  | Event.OnError _ _ _ args => some args
  | _ => none

/-- Two positional arguments given in reverse ordinal order. -/
def swappedArgs : List NamedValue :=
  [⟨"", 2, Value.int 10⟩, ⟨"", 1, Value.int 20⟩]

/-- Two arguments with the same ordinal. -/
def dupArgs : List NamedValue :=
  [⟨"", 1, Value.int 10⟩, ⟨"", 1, Value.int 20⟩]

/-- A connection with context-aware transactions. -/
def txConn : DriverConn :=
  { bareConn with ConnBeginTx := some (fun _ ctx _ => (some (ctx + 40), none)) }

/-- The last argument of the list whose ordinal is `j + 1`, if any. -/
def lastAt (args : List NamedValue) (j : Nat) : Option NamedValue :=
  args.reverse.find? (fun a => decide (a.Ordinal = (j : Int) + 1))

/-- An argument with ordinal zero. -/
def zeroOrdinalArgs : List NamedValue :=
  [⟨"", 0, Value.int 1⟩]

/-- An argument whose ordinal exceeds the number of arguments. -/
def highOrdinalArgs : List NamedValue :=
  [⟨"", 2, Value.int 1⟩]

/-! ## The dispatch protocol as the specification words it -/

/-- The four steps of the hook dispatch protocol around an underlying step
`step`: call `Before` and stop on its error; run the step with the context
`Before` returned; on failure return the step's result with what error
escalation yields; on success call `After`, whose error replaces the result. -/
def hookDispatch (hooks : Hooks)
    (step : Trace → Context → (Option Result × Option Error) × Trace)
    (tr : Trace) (ctx : Context) (query : String) (cArgs : List Interface) :
    (Option Result × Option Error) × Trace :=
  match hooks.Before tr ctx query cArgs with
  | (_, some err) => ((none, some err), tr ++ [Event.Before ctx query cArgs])
  | (ctx1, none) =>
    match step (tr ++ [Event.Before ctx query cArgs]) ctx1 with
    | ((result, some err), tr2) =>
      ((result, (handlerError tr2 ctx1 hooks err query cArgs).1),
        (handlerError tr2 ctx1 hooks err query cArgs).2)
    | ((result, none), tr2) =>
      match hooks.After tr2 ctx1 query cArgs with
      | (_, some err) => ((none, some err), tr2 ++ [Event.After ctx1 query cArgs])
      | (_, none) => ((result, none), tr2 ++ [Event.After ctx1 query cArgs])

/-- The choice of the execute primitive: the context-aware `ExecContext` first,
else the legacy `Exec` on the denormalized arguments, else an error. -/
def chooseExec (c : DriverConn) (query : String) (args : List NamedValue) (tr : Trace)
    (ctx : Context) : (Option Result × Option Error) × Trace :=
  match c.ExecerContext with
  | some ExecContext =>
    (ExecContext tr ctx query args, tr ++ [Event.ConnExecContext ctx query args])
  | none =>
    match c.Execer with
    | some Exec =>
      match namedValueToValue args with
      | (_, some err) => ((none, some err), tr)
      | (values, none) =>
        (Exec tr query (values.getD []), tr ++ [Event.ConnExec query (values.getD [])])
    | none => ((none, some errExecContext), tr)

/-! ## The calls that close an operation -/

/-- The hook calls that follow the underlying step of one operation, by how the
step ended: `After` when it reported no error, `OnError` (for hooks that have
it) when it reported the error `err`, nothing when it panicked (`none`). -/
def closingCalls (hooks : Hooks) (ctx : Context) (query : String) (cArgs : List Interface) :
    Option (Option Error) → List Event
  | none => []
  | some none => [Event.After ctx query cArgs]
  | some (some err) =>
    match hooks.OnError with
    | some _ => [Event.OnError ctx err query cArgs]
    | none => []

/-! ## Helper lemmas: what the dispatch step adds to the trace -/

theorem conn_execContext_trace (conn : Conn) (tr : Trace) (ctx : Context) (query : String)
    (args : List NamedValue) :
    ∃ evs : List Event, evs.length ≤ 1 ∧
      (∀ ev ∈ evs, ev.isDriverCall = true ∧ (ev.context = none ∨ ev.context = some ctx)) ∧
      (conn.execContext tr ctx query args).2 = tr ++ evs ∧
      (evs = [] → (conn.execContext tr ctx query args).1.2 ≠ none) := by
  unfold Conn.execContext
  split
  · exact ⟨[Event.ConnExecContext ctx query args], by simp, by simp [Event.isDriverCall, Event.context], rfl, by simp⟩
  · split
    · exact ⟨[], by simp, by simp, by simp, by simp⟩
    · exact ⟨[Event.ConnExec query _], by simp, by simp [Event.isDriverCall, Event.context], rfl, by simp⟩
  · exact ⟨[], by simp, by simp, by simp, by simp⟩

theorem ec_execContext_eq (ec : ExecerContext) (tr : Trace) (ctx : Context) (query : String)
    (args : List NamedValue) :
    ec.execContext tr ctx query args = ec.Conn.execContext tr ctx query args := rfl

theorem qc_queryContext_trace (qc : QueryerContext) (tr : Trace) (ctx : Context)
    (query : String) (args : List NamedValue) :
    ∃ evs : List Event, evs.length ≤ 1 ∧
      (∀ ev ∈ evs, ev.isDriverCall = true ∧ (ev.context = none ∨ ev.context = some ctx)) ∧
      (qc.queryContext tr ctx query args).2 = tr ++ evs ∧
      (evs = [] → (qc.queryContext tr ctx query args).1.2 ≠ none) := by
  unfold QueryerContext.queryContext
  split
  · exact ⟨[Event.ConnQueryContext ctx query args], by simp, by simp [Event.isDriverCall, Event.context], rfl, by simp⟩
  · split
    · exact ⟨[], by simp, by simp, by simp, by simp⟩
    · exact ⟨[Event.ConnQuery query _], by simp, by simp [Event.isDriverCall, Event.context], rfl, by simp⟩
  · exact ⟨[], by simp, by simp, by simp, by simp⟩

theorem stmt_execContext_trace (stmt : Stmt) (tr : Trace) (ctx : Context)
    (args : List NamedValue) :
    ∃ evs : List Event, evs.length ≤ 1 ∧
      (∀ ev ∈ evs, ev.isDriverCall = true ∧ (ev.context = none ∨ ev.context = some ctx)) ∧
      (stmt.execContext tr ctx args).2 = tr ++ evs ∧
      (evs = [] → (stmt.execContext tr ctx args).1 = none) := by
  unfold Stmt.execContext
  split
  · exact ⟨[Event.StmtExecContext ctx args], by simp, by simp [Event.isDriverCall, Event.context], rfl, by simp⟩
  · split
    · exact ⟨[], by simp, by simp, by simp, by simp⟩
    · exact ⟨[Event.StmtExec _], by simp, by simp [Event.isDriverCall, Event.context], rfl, by simp⟩

theorem stmt_queryContext_trace (stmt : Stmt) (tr : Trace) (ctx : Context)
    (args : List NamedValue) :
    ∃ evs : List Event, evs.length ≤ 1 ∧
      (∀ ev ∈ evs, ev.isDriverCall = true ∧ (ev.context = none ∨ ev.context = some ctx)) ∧
      (stmt.queryContext tr ctx args).2 = tr ++ evs ∧
      (evs = [] → (stmt.queryContext tr ctx args).1 = none) := by
  unfold Stmt.queryContext
  split
  · exact ⟨[Event.StmtQueryContext ctx args], by simp, by simp [Event.isDriverCall, Event.context], rfl, by simp⟩
  · split
    · exact ⟨[], by simp, by simp, by simp, by simp⟩
    · exact ⟨[Event.StmtQuery _], by simp, by simp [Event.isDriverCall, Event.context], rfl, by simp⟩

/-! ## Helper lemmas: the trace of an operation that `Before` lets through -/

theorem conn_ExecContext_shape (conn : Conn) (tr : Trace) (ctx : Context) (query : String)
    (args : List NamedValue) (ctx1 : Context)
    (hB : conn.Hooks.Before tr ctx query (namedValueToInterface args) = (ctx1, none)) :
    (Conn.ExecContext conn tr ctx query args).2 =
      (Conn.execContext conn (tr ++ [Event.Before ctx query (namedValueToInterface args)]) ctx1 query args).2 ++
        closingCalls conn.Hooks ctx1 query (namedValueToInterface args)
          (some (Conn.execContext conn (tr ++ [Event.Before ctx query (namedValueToInterface args)]) ctx1 query args).1.2) := by
  simp only [Conn.ExecContext, hB]
  generalize Conn.execContext conn (tr ++ [Event.Before ctx query (namedValueToInterface args)]) ctx1 query args = d
  rcases d with ⟨⟨r, _ | e⟩, tr2⟩
  all_goals simp only [closingCalls, handlerError, Option.map]
  all_goals repeat' split
  all_goals simp_all

theorem ec_ExecContext_shape (ec : ExecerContext) (tr : Trace) (ctx : Context) (query : String)
    (args : List NamedValue) (ctx1 : Context)
    (hB : ec.Conn.Hooks.Before tr ctx query (namedValueToInterface args) = (ctx1, none)) :
    (ExecerContext.ExecContext ec tr ctx query args).2 =
      (ExecerContext.execContext ec (tr ++ [Event.Before ctx query (namedValueToInterface args)]) ctx1 query args).2 ++
        closingCalls ec.Conn.Hooks ctx1 query (namedValueToInterface args)
          (some (ExecerContext.execContext ec (tr ++ [Event.Before ctx query (namedValueToInterface args)]) ctx1 query args).1.2) := by
  simp only [ExecerContext.ExecContext, hB]
  generalize ExecerContext.execContext ec (tr ++ [Event.Before ctx query (namedValueToInterface args)]) ctx1 query args = d
  rcases d with ⟨⟨r, _ | e⟩, tr2⟩
  all_goals simp only [closingCalls, handlerError, Option.map]
  all_goals repeat' split
  all_goals simp_all

theorem qc_QueryContext_shape (qc : QueryerContext) (tr : Trace) (ctx : Context) (query : String)
    (args : List NamedValue) (ctx1 : Context)
    (hB : qc.Conn.Hooks.Before tr ctx query (namedValueToInterface args) = (ctx1, none)) :
    (QueryerContext.QueryContext qc tr ctx query args).2 =
      (QueryerContext.queryContext qc (tr ++ [Event.Before ctx query (namedValueToInterface args)]) ctx1 query args).2 ++
        closingCalls qc.Conn.Hooks ctx1 query (namedValueToInterface args)
          (some (QueryerContext.queryContext qc (tr ++ [Event.Before ctx query (namedValueToInterface args)]) ctx1 query args).1.2) := by
  simp only [QueryerContext.QueryContext, hB]
  generalize QueryerContext.queryContext qc (tr ++ [Event.Before ctx query (namedValueToInterface args)]) ctx1 query args = d
  rcases d with ⟨⟨r, _ | e⟩, tr2⟩
  all_goals simp only [closingCalls, handlerError, Option.map]
  all_goals repeat' split
  all_goals simp_all

theorem stmt_ExecContext_shape (stmt : Stmt) (tr : Trace) (ctx : Context)
    (args : List NamedValue) (ctx1 : Context)
    (hB : stmt.Hooks.Before tr ctx stmt.query (namedValueToInterface args) = (ctx1, none)) :
    (Stmt.ExecContext stmt tr ctx args).2 =
      (Stmt.execContext stmt (tr ++ [Event.Before ctx stmt.query (namedValueToInterface args)]) ctx1 args).2 ++
        closingCalls stmt.Hooks ctx1 stmt.query (namedValueToInterface args)
          ((Stmt.execContext stmt (tr ++ [Event.Before ctx stmt.query (namedValueToInterface args)]) ctx1 args).1.map Prod.snd) := by
  simp only [Stmt.ExecContext, hB]
  generalize Stmt.execContext stmt (tr ++ [Event.Before ctx stmt.query (namedValueToInterface args)]) ctx1 args = d
  rcases d with ⟨_ | ⟨r, _ | e⟩, tr2⟩
  all_goals simp only [closingCalls, handlerError, Option.map]
  all_goals repeat' split
  all_goals simp_all

theorem stmt_QueryContext_shape (stmt : Stmt) (tr : Trace) (ctx : Context)
    (args : List NamedValue) (ctx1 : Context)
    (hB : stmt.Hooks.Before tr ctx stmt.query (namedValueToInterface args) = (ctx1, none)) :
    (Stmt.QueryContext stmt tr ctx args).2 =
      (Stmt.queryContext stmt (tr ++ [Event.Before ctx stmt.query (namedValueToInterface args)]) ctx1 args).2 ++
        closingCalls stmt.Hooks ctx1 stmt.query (namedValueToInterface args)
          ((Stmt.queryContext stmt (tr ++ [Event.Before ctx stmt.query (namedValueToInterface args)]) ctx1 args).1.map Prod.snd) := by
  simp only [Stmt.QueryContext, hB]
  generalize Stmt.queryContext stmt (tr ++ [Event.Before ctx stmt.query (namedValueToInterface args)]) ctx1 args = d
  rcases d with ⟨_ | ⟨r, _ | e⟩, tr2⟩
  all_goals simp only [closingCalls, handlerError, Option.map]
  all_goals repeat' split
  all_goals simp_all

theorem closingCalls_context (hooks : Hooks) (ctx : Context) (query : String)
    (cArgs : List Interface) (o : Option (Option Error)) :
    ∀ ev ∈ closingCalls hooks ctx query cArgs o, ev.context = some ctx := by
  intro ev h
  rcases o with _ | _ | e
  · simp [closingCalls] at h
  · simp [closingCalls] at h
    subst h
    rfl
  · cases hE : hooks.OnError <;> simp [closingCalls, hE] at h
    subst h
    rfl

theorem conn_execContext_aware (conn : Conn) (tr : Trace) (ctx : Context) (query : String)
    (args : List NamedValue) (h : conn.Conn.ExecerContext.isSome = true) :
    (conn.execContext tr ctx query args).2 = tr ++ [Event.ConnExecContext ctx query args] := by
  unfold Conn.execContext
  split
  · rfl
  · simp_all
  · simp_all

theorem qc_queryContext_aware (qc : QueryerContext) (tr : Trace) (ctx : Context)
    (query : String) (args : List NamedValue) (h : qc.Conn.Conn.QueryerContext.isSome = true) :
    (qc.queryContext tr ctx query args).2 = tr ++ [Event.ConnQueryContext ctx query args] := by
  unfold QueryerContext.queryContext
  split
  · rfl
  · simp_all
  · simp_all

theorem stmt_execContext_aware (stmt : Stmt) (tr : Trace) (ctx : Context)
    (args : List NamedValue) (h : stmt.Stmt.StmtExecContext.isSome = true) :
    (stmt.execContext tr ctx args).2 = tr ++ [Event.StmtExecContext ctx args] := by
  unfold Stmt.execContext
  split
  · rfl
  · simp_all

theorem stmt_queryContext_aware (stmt : Stmt) (tr : Trace) (ctx : Context)
    (args : List NamedValue) (h : stmt.Stmt.StmtQueryContext.isSome = true) :
    (stmt.queryContext tr ctx args).2 = tr ++ [Event.StmtQueryContext ctx args] := by
  unfold Stmt.queryContext
  split
  · rfl
  · simp_all

theorem closingCalls_query (hooks : Hooks) (ctx : Context) (query : String)
    (cArgs : List Interface) (o : Option (Option Error)) :
    ∀ ev ∈ closingCalls hooks ctx query cArgs o, ev.hookQuery = some query := by
  intro ev h
  rcases o with _ | _ | e
  · simp [closingCalls] at h
  · simp [closingCalls] at h
    subst h
    rfl
  · cases hE : hooks.OnError <;> simp [closingCalls, hE] at h
    subst h
    rfl

theorem hookQuery_of_driverCall (ev : Event) (h : ev.isDriverCall = true) :
    ev.hookQuery = none := by
  cases ev <;> simp_all [Event.isDriverCall, Event.hookQuery]

theorem stmt_ExecContext_queries (stmt : Stmt) (tr : Trace) (ctx : Context)
    (args : List NamedValue) :
    ∃ rest : List Event,
      (stmt.ExecContext tr ctx args).2 =
        tr ++ Event.Before ctx stmt.query (namedValueToInterface args) :: rest ∧
      ∀ ev ∈ rest, ev.hookQuery = none ∨ ev.hookQuery = some stmt.query := by
  rcases hB : stmt.Hooks.Before tr ctx stmt.query (namedValueToInterface args) with ⟨c, _ | e⟩
  · obtain ⟨evs, _, hev, htr, _⟩ := stmt_execContext_trace stmt
      (tr ++ [Event.Before ctx stmt.query (namedValueToInterface args)]) c args
    refine ⟨evs ++ closingCalls stmt.Hooks c stmt.query (namedValueToInterface args)
      ((stmt.execContext (tr ++ [Event.Before ctx stmt.query (namedValueToInterface args)])
        c args).1.map Prod.snd), ?_, ?_⟩
    · rw [stmt_ExecContext_shape stmt tr ctx args c hB, htr]
      simp
    · intro ev hmem
      rcases List.mem_append.1 hmem with h | h
      · exact Or.inl (hookQuery_of_driverCall ev (hev ev h).1)
      · exact Or.inr (closingCalls_query _ _ _ _ _ ev h)
  · exact ⟨[], by simp only [Stmt.ExecContext, hB], by simp⟩

theorem stmt_QueryContext_queries (stmt : Stmt) (tr : Trace) (ctx : Context)
    (args : List NamedValue) :
    ∃ rest : List Event,
      (stmt.QueryContext tr ctx args).2 =
        tr ++ Event.Before ctx stmt.query (namedValueToInterface args) :: rest ∧
      ∀ ev ∈ rest, ev.hookQuery = none ∨ ev.hookQuery = some stmt.query := by
  rcases hB : stmt.Hooks.Before tr ctx stmt.query (namedValueToInterface args) with ⟨c, _ | e⟩
  · obtain ⟨evs, _, hev, htr, _⟩ := stmt_queryContext_trace stmt
      (tr ++ [Event.Before ctx stmt.query (namedValueToInterface args)]) c args
    refine ⟨evs ++ closingCalls stmt.Hooks c stmt.query (namedValueToInterface args)
      ((stmt.queryContext (tr ++ [Event.Before ctx stmt.query (namedValueToInterface args)])
        c args).1.map Prod.snd), ?_, ?_⟩
    · rw [stmt_QueryContext_shape stmt tr ctx args c hB, htr]
      simp
    · intro ev hmem
      rcases List.mem_append.1 hmem with h | h
      · exact Or.inl (hookQuery_of_driverCall ev (hev ev h).1)
      · exact Or.inr (closingCalls_query _ _ _ _ _ ev h)
  · exact ⟨[], by simp only [Stmt.QueryContext, hB], by simp⟩

theorem name_length_pos (name : String) (h : name ≠ "") : name.length > 0 := by
  rcases name with ⟨cs⟩
  cases cs with
  | nil => exact absurd rfl h
  | cons c cs => simp [String.length]

theorem namedValueToValue_loop_named (named : List NamedValue)
    (h : ∃ n ∈ named, n.Name ≠ "") (acc : List Value) (i : Nat) :
    namedValueToValue.loop acc i named = (none, some errNamedParameter) := by
  induction named generalizing acc i with
  | nil => simp at h
  | cons a rest ih =>
    unfold namedValueToValue.loop
    by_cases ha : a.Name.length > 0
    · simp [ha]
    · rw [if_neg ha]
      apply ih
      obtain ⟨n, hn, hne⟩ := h
      rcases List.mem_cons.1 hn with rfl | hmem
      · exact absurd (name_length_pos _ hne) ha
      · exact ⟨n, hmem, hne⟩

theorem namedValueToValue_named (named : List NamedValue) (h : ∃ n ∈ named, n.Name ≠ "") :
    namedValueToValue named = (none, some errNamedParameter) :=
  namedValueToValue_loop_named named h _ _

theorem conn_execContext_named_legacy (conn : Conn) (tr : Trace) (ctx : Context)
    (query : String) (args : List NamedValue) (hN : ∃ n ∈ args, n.Name ≠ "")
    (hC : conn.Conn.ExecerContext = none) (hL : conn.Conn.Execer.isSome = true) :
    conn.execContext tr ctx query args = ((none, some errNamedParameter), tr) := by
  unfold Conn.execContext
  split
  · simp_all
  · simp [namedValueToValue_named args hN]
  · simp_all

theorem qc_queryContext_named_legacy (qc : QueryerContext) (tr : Trace) (ctx : Context)
    (query : String) (args : List NamedValue) (hN : ∃ n ∈ args, n.Name ≠ "")
    (hC : qc.Conn.Conn.QueryerContext = none) (hL : qc.Conn.Conn.Queryer.isSome = true) :
    qc.queryContext tr ctx query args = ((none, some errNamedParameter), tr) := by
  unfold QueryerContext.queryContext
  split
  · simp_all
  · simp [namedValueToValue_named args hN]
  · simp_all

/-! ## Argument conversion: closed forms -/

theorem name_length_zero (name : String) (h : name = "") : ¬ name.length > 0 := by
  subst h
  decide

theorem set_at_length (pre : List α) (x v : α) (tl : List α) :
    (pre ++ x :: tl).set pre.length v = pre ++ v :: tl := by
  induction pre with
  | nil => rfl
  | cons a pre ih => simp [List.set, ih]

theorem namedValueToValue_loop_unnamed (named : List NamedValue)
    (h : ∀ n ∈ named, n.Name = "") (pre : List Value) :
    namedValueToValue.loop (pre ++ List.replicate named.length Value.nil) pre.length named =
      (some (pre ++ named.map (fun n => n.Value)), none) := by
  induction named generalizing pre with
  | nil => simp [namedValueToValue.loop]
  | cons a rest ih =>
    unfold namedValueToValue.loop
    rw [if_neg (name_length_zero _ (h a (List.mem_cons_self a rest)))]
    have hset : (pre ++ List.replicate (a :: rest).length Value.nil).set pre.length a.Value =
        (pre ++ [a.Value]) ++ List.replicate rest.length Value.nil := by
      simp only [List.length_cons, List.replicate_succ, set_at_length, List.append_assoc,
        List.singleton_append]
    rw [hset]
    have := ih (fun n hn => h n (List.mem_cons_of_mem a hn)) (pre ++ [a.Value])
    simp only [List.length_append, List.length_singleton] at this
    rw [this]
    simp

theorem namedValueToValue_unnamed (named : List NamedValue) (h : ∀ n ∈ named, n.Name = "") :
    namedValueToValue named = (some (named.map (fun n => n.Value)), none) := by
  have := namedValueToValue_loop_unnamed named h []
  simpa [namedValueToValue] using this

theorem namedValueToInterface_loop_eq (named : List NamedValue) (pre : List Interface) :
    namedValueToInterface.loop (pre ++ List.replicate named.length Interface.nil) pre.length
        named =
      pre ++ named.map Interface.namedValue := by
  induction named generalizing pre with
  | nil => simp [namedValueToInterface.loop]
  | cons a rest ih =>
    unfold namedValueToInterface.loop
    have hset : (pre ++ List.replicate (a :: rest).length Interface.nil).set pre.length
        (Interface.namedValue a) =
        (pre ++ [Interface.namedValue a]) ++ List.replicate rest.length Interface.nil := by
      simp only [List.length_cons, List.replicate_succ, set_at_length, List.append_assoc,
        List.singleton_append]
    rw [hset]
    have := ih (pre ++ [Interface.namedValue a])
    simp only [List.length_append, List.length_singleton] at this
    rw [this]
    simp

theorem namedValueToInterface_eq_map (named : List NamedValue) :
    namedValueToInterface named = named.map Interface.namedValue := by
  have := namedValueToInterface_loop_eq named []
  simpa [namedValueToInterface] using this

theorem ordinalLoop_isSome_iff (args : List NamedValue) (acc : List Value) :
    ordinalLoop acc args ≠ none ↔
      ∀ a ∈ args, 1 ≤ a.Ordinal ∧ a.Ordinal ≤ (acc.length : Int) := by
  induction args generalizing acc with
  | nil => simp [ordinalLoop]
  | cons a rest ih =>
    unfold ordinalLoop
    by_cases hr : 0 ≤ a.Ordinal - 1 ∧ a.Ordinal - 1 < (acc.length : Int)
    · rw [if_pos hr, ih]
      simp only [List.length_set, List.mem_cons, forall_eq_or_imp]
      constructor
      · intro h
        exact ⟨⟨by omega, by omega⟩, h⟩
      · intro h
        exact h.2
    · rw [if_neg hr]
      simp only [ne_eq, not_true_eq_false, List.mem_cons, forall_eq_or_imp, false_iff, not_and]
      intro h
      exact absurd ⟨by omega, by omega⟩ hr

/-! ## Helper lemmas: the underlying step is the driver's answer -/

theorem conn_execContext_of_ctx (conn : Conn) (tr : Trace) (ctx : Context) (query : String)
    (args : List NamedValue)
    (f : Trace → Context → String → List NamedValue → Option Result × Option Error)
    (hf : conn.Conn.ExecerContext = some f) :
    conn.execContext tr ctx query args =
      (f tr ctx query args, tr ++ [Event.ConnExecContext ctx query args]) := by
  simp only [Conn.execContext, hf]

theorem conn_execContext_of_legacy (conn : Conn) (tr : Trace) (ctx : Context)
    (query : String) (args : List NamedValue)
    (g : Trace → String → List Value → Option Result × Option Error)
    (hc : conn.Conn.ExecerContext = none) (hg : conn.Conn.Execer = some g)
    (hU : ∀ n ∈ args, n.Name = "") :
    conn.execContext tr ctx query args =
      (g tr query (args.map (fun n => n.Value)),
        tr ++ [Event.ConnExec query (args.map (fun n => n.Value))]) := by
  simp only [Conn.execContext, hc, hg, namedValueToValue_unnamed args hU, Option.getD_some]

theorem qc_queryContext_of_ctx (qc : QueryerContext) (tr : Trace) (ctx : Context)
    (query : String) (args : List NamedValue)
    (f : Trace → Context → String → List NamedValue → Option Rows × Option Error)
    (hf : qc.Conn.Conn.QueryerContext = some f) :
    qc.queryContext tr ctx query args =
      (f tr ctx query args, tr ++ [Event.ConnQueryContext ctx query args]) := by
  simp only [QueryerContext.queryContext, hf]

theorem qc_queryContext_of_legacy (qc : QueryerContext) (tr : Trace) (ctx : Context)
    (query : String) (args : List NamedValue)
    (g : Trace → String → List Value → Option Rows × Option Error)
    (hc : qc.Conn.Conn.QueryerContext = none) (hg : qc.Conn.Conn.Queryer = some g)
    (hU : ∀ n ∈ args, n.Name = "") :
    qc.queryContext tr ctx query args =
      (g tr query (args.map (fun n => n.Value)),
        tr ++ [Event.ConnQuery query (args.map (fun n => n.Value))]) := by
  simp only [QueryerContext.queryContext, hc, hg, namedValueToValue_unnamed args hU,
    Option.getD_some]

theorem stmt_execContext_of_ctx (stmt : Stmt) (tr : Trace) (ctx : Context)
    (args : List NamedValue)
    (f : Trace → Context → List NamedValue → Option Result × Option Error)
    (hf : stmt.Stmt.StmtExecContext = some f) :
    stmt.execContext tr ctx args =
      (some (f tr ctx args), tr ++ [Event.StmtExecContext ctx args]) := by
  simp only [Stmt.execContext, hf]

theorem stmt_execContext_of_legacy (stmt : Stmt) (tr : Trace) (ctx : Context)
    (args : List NamedValue) (values : List Value)
    (hc : stmt.Stmt.StmtExecContext = none)
    (hv : ordinalLoop (List.replicate args.length Value.nil) args = some values) :
    stmt.execContext tr ctx args =
      (some (stmt.Stmt.Exec tr values), tr ++ [Event.StmtExec values]) := by
  simp only [Stmt.execContext, hc, hv, Stmt.Exec]

theorem stmt_queryContext_of_ctx (stmt : Stmt) (tr : Trace) (ctx : Context)
    (args : List NamedValue)
    (f : Trace → Context → List NamedValue → Option Rows × Option Error)
    (hf : stmt.Stmt.StmtQueryContext = some f) :
    stmt.queryContext tr ctx args =
      (some (f tr ctx args), tr ++ [Event.StmtQueryContext ctx args]) := by
  simp only [Stmt.queryContext, hf]

theorem stmt_queryContext_of_legacy (stmt : Stmt) (tr : Trace) (ctx : Context)
    (args : List NamedValue) (values : List Value)
    (hc : stmt.Stmt.StmtQueryContext = none)
    (hv : ordinalLoop (List.replicate args.length Value.nil) args = some values) :
    stmt.queryContext tr ctx args =
      (some (stmt.Stmt.Query tr values), tr ++ [Event.StmtQuery values]) := by
  simp only [Stmt.queryContext, hc, hv, Stmt.Query]

/-! ## The dispatch protocol -/

/-- C1: in each of the five instrumented operations, when `Before` answers a
non-nil error the operation returns a nil result and exactly that error, and the
only call it has made is the one to `Before`: no driver primitive, no `After`,
no `OnError`. -/
theorem before_veto_aborts (hooks : Hooks) (dconn : DriverConn) (dstmt : DriverStmt)
    (tr : Trace) (ctx : Context) (query : String) (args : List NamedValue) (err : Error)
    (hB : (hooks.Before tr ctx query (namedValueToInterface args)).2 = some err) :
    Conn.ExecContext ⟨dconn, hooks⟩ tr ctx query args =
        ((none, some err), tr ++ [Event.Before ctx query (namedValueToInterface args)]) ∧
      ExecerContext.ExecContext ⟨⟨dconn, hooks⟩⟩ tr ctx query args =
        ((none, some err), tr ++ [Event.Before ctx query (namedValueToInterface args)]) ∧
      QueryerContext.QueryContext ⟨⟨dconn, hooks⟩⟩ tr ctx query args =
        ((none, some err), tr ++ [Event.Before ctx query (namedValueToInterface args)]) ∧
      Stmt.ExecContext ⟨dstmt, hooks, query⟩ tr ctx args =
        (some (none, some err), tr ++ [Event.Before ctx query (namedValueToInterface args)]) ∧
      Stmt.QueryContext ⟨dstmt, hooks, query⟩ tr ctx args =
        (some (none, some err), tr ++ [Event.Before ctx query (namedValueToInterface args)]) := by
  refine ⟨?_, ?_, ?_, ?_, ?_⟩
  · simp only [Conn.ExecContext, hB]
  · simp only [ExecerContext.ExecContext, hB]
  · simp only [QueryerContext.QueryContext, hB]
  · simp only [Stmt.ExecContext, hB]
  · simp only [Stmt.QueryContext, hB]

theorem before_veto_aborts_witness :
    (vetoHooks.Before [] 0 "SELECT 1" (namedValueToInterface twoArgs)).2 = some "veto" ∧
      Conn.ExecContext ⟨ctxConn, vetoHooks⟩ [] 0 "SELECT 1" twoArgs =
        ((none, some "veto"), [Event.Before 0 "SELECT 1" (namedValueToInterface twoArgs)]) ∧
      Stmt.QueryContext ⟨ctxStmt, vetoHooks, "SELECT 1"⟩ [] 0 twoArgs =
        (some (none, some "veto"),
          [Event.Before 0 "SELECT 1" (namedValueToInterface twoArgs)]) :=
  ⟨rfl, (before_veto_aborts vetoHooks ctxConn ctxStmt [] 0 "SELECT 1" twoArgs "veto" rfl).1,
    (before_veto_aborts vetoHooks ctxConn ctxStmt [] 0 "SELECT 1" twoArgs "veto" rfl).2.2.2.2⟩

/-- C2: in each of the five instrumented operations, on the context-aware and on
the legacy path alike, when `Before` lets the operation through and the driver
primitive answers result `r` and no error, the answer of `After` decides what
the caller receives: an error `e` gives a nil result and `e` (the driver's `r`
is dropped), no error gives `(r, nil)`; the calls made are `Before`, the
primitive, `After`. -/
theorem after_decides_result (hooks : Hooks) (dconn : DriverConn) (dstmt : DriverStmt)
    (tr : Trace) (ctx : Context) (query : String) (args : List NamedValue) (ctx1 : Context)
    (hB : hooks.Before tr ctx query (namedValueToInterface args) = (ctx1, none)) :
    (∀ f (r : Option Result), dconn.ExecerContext = some f →
        f (tr ++ [Event.Before ctx query (namedValueToInterface args)]) ctx1 query args = (r, none) →
        Conn.ExecContext ⟨dconn, hooks⟩ tr ctx query args =
          ((match (hooks.After (tr ++ [Event.Before ctx query (namedValueToInterface args),
                Event.ConnExecContext ctx1 query args]) ctx1 query (namedValueToInterface args)).2 with
            | some e => (none, some e)
            | none => (r, none)),
            tr ++ [Event.Before ctx query (namedValueToInterface args),
              Event.ConnExecContext ctx1 query args,
              Event.After ctx1 query (namedValueToInterface args)])) ∧
      (∀ g (r : Option Result), dconn.ExecerContext = none →
          dconn.Execer = some g →
          (∀ n ∈ args, n.Name = "") →
        g (tr ++ [Event.Before ctx query (namedValueToInterface args)]) query (args.map (fun n => n.Value)) = (r, none) →
        Conn.ExecContext ⟨dconn, hooks⟩ tr ctx query args =
          ((match (hooks.After (tr ++ [Event.Before ctx query (namedValueToInterface args),
                Event.ConnExec query (args.map (fun n => n.Value))]) ctx1 query (namedValueToInterface args)).2 with
            | some e => (none, some e)
            | none => (r, none)),
            tr ++ [Event.Before ctx query (namedValueToInterface args),
              Event.ConnExec query (args.map (fun n => n.Value)),
              Event.After ctx1 query (namedValueToInterface args)])) ∧
      (∀ f (r : Option Result), dconn.ExecerContext = some f →
        f (tr ++ [Event.Before ctx query (namedValueToInterface args)]) ctx1 query args = (r, none) →
        ExecerContext.ExecContext ⟨⟨dconn, hooks⟩⟩ tr ctx query args =
          ((match (hooks.After (tr ++ [Event.Before ctx query (namedValueToInterface args),
                Event.ConnExecContext ctx1 query args]) ctx1 query (namedValueToInterface args)).2 with
            | some e => (none, some e)
            | none => (r, none)),
            tr ++ [Event.Before ctx query (namedValueToInterface args),
              Event.ConnExecContext ctx1 query args,
              Event.After ctx1 query (namedValueToInterface args)])) ∧
      (∀ g (r : Option Result), dconn.ExecerContext = none →
          dconn.Execer = some g →
          (∀ n ∈ args, n.Name = "") →
        g (tr ++ [Event.Before ctx query (namedValueToInterface args)]) query (args.map (fun n => n.Value)) = (r, none) →
        ExecerContext.ExecContext ⟨⟨dconn, hooks⟩⟩ tr ctx query args =
          ((match (hooks.After (tr ++ [Event.Before ctx query (namedValueToInterface args),
                Event.ConnExec query (args.map (fun n => n.Value))]) ctx1 query (namedValueToInterface args)).2 with
            | some e => (none, some e)
            | none => (r, none)),
            tr ++ [Event.Before ctx query (namedValueToInterface args),
              Event.ConnExec query (args.map (fun n => n.Value)),
              Event.After ctx1 query (namedValueToInterface args)])) ∧
      (∀ f (r : Option Rows), dconn.QueryerContext = some f →
        f (tr ++ [Event.Before ctx query (namedValueToInterface args)]) ctx1 query args = (r, none) →
        QueryerContext.QueryContext ⟨⟨dconn, hooks⟩⟩ tr ctx query args =
          ((match (hooks.After (tr ++ [Event.Before ctx query (namedValueToInterface args),
                Event.ConnQueryContext ctx1 query args]) ctx1 query (namedValueToInterface args)).2 with
            | some e => (none, some e)
            | none => (r, none)),
            tr ++ [Event.Before ctx query (namedValueToInterface args),
              Event.ConnQueryContext ctx1 query args,
              Event.After ctx1 query (namedValueToInterface args)])) ∧
      (∀ g (r : Option Rows), dconn.QueryerContext = none →
          dconn.Queryer = some g →
          (∀ n ∈ args, n.Name = "") →
        g (tr ++ [Event.Before ctx query (namedValueToInterface args)]) query (args.map (fun n => n.Value)) = (r, none) →
        QueryerContext.QueryContext ⟨⟨dconn, hooks⟩⟩ tr ctx query args =
          ((match (hooks.After (tr ++ [Event.Before ctx query (namedValueToInterface args),
                Event.ConnQuery query (args.map (fun n => n.Value))]) ctx1 query (namedValueToInterface args)).2 with
            | some e => (none, some e)
            | none => (r, none)),
            tr ++ [Event.Before ctx query (namedValueToInterface args),
              Event.ConnQuery query (args.map (fun n => n.Value)),
              Event.After ctx1 query (namedValueToInterface args)])) ∧
      (∀ f (r : Option Result), dstmt.StmtExecContext = some f →
        f (tr ++ [Event.Before ctx query (namedValueToInterface args)]) ctx1 args = (r, none) →
        Stmt.ExecContext ⟨dstmt, hooks, query⟩ tr ctx args =
          (some (match (hooks.After (tr ++ [Event.Before ctx query (namedValueToInterface args),
                Event.StmtExecContext ctx1 args]) ctx1 query (namedValueToInterface args)).2 with
            | some e => (none, some e)
            | none => (r, none)),
            tr ++ [Event.Before ctx query (namedValueToInterface args),
              Event.StmtExecContext ctx1 args,
              Event.After ctx1 query (namedValueToInterface args)])) ∧
      (∀ values (r : Option Result), dstmt.StmtExecContext = none →
          ordinalLoop (List.replicate args.length Value.nil) args = some values →
        dstmt.Exec (tr ++ [Event.Before ctx query (namedValueToInterface args)]) values = (r, none) →
        Stmt.ExecContext ⟨dstmt, hooks, query⟩ tr ctx args =
          (some (match (hooks.After (tr ++ [Event.Before ctx query (namedValueToInterface args),
                Event.StmtExec values]) ctx1 query (namedValueToInterface args)).2 with
            | some e => (none, some e)
            | none => (r, none)),
            tr ++ [Event.Before ctx query (namedValueToInterface args),
              Event.StmtExec values,
              Event.After ctx1 query (namedValueToInterface args)])) ∧
      (∀ f (r : Option Rows), dstmt.StmtQueryContext = some f →
        f (tr ++ [Event.Before ctx query (namedValueToInterface args)]) ctx1 args = (r, none) →
        Stmt.QueryContext ⟨dstmt, hooks, query⟩ tr ctx args =
          (some (match (hooks.After (tr ++ [Event.Before ctx query (namedValueToInterface args),
                Event.StmtQueryContext ctx1 args]) ctx1 query (namedValueToInterface args)).2 with
            | some e => (none, some e)
            | none => (r, none)),
            tr ++ [Event.Before ctx query (namedValueToInterface args),
              Event.StmtQueryContext ctx1 args,
              Event.After ctx1 query (namedValueToInterface args)])) ∧
      (∀ values (r : Option Rows), dstmt.StmtQueryContext = none →
          ordinalLoop (List.replicate args.length Value.nil) args = some values →
        dstmt.Query (tr ++ [Event.Before ctx query (namedValueToInterface args)]) values = (r, none) →
        Stmt.QueryContext ⟨dstmt, hooks, query⟩ tr ctx args =
          (some (match (hooks.After (tr ++ [Event.Before ctx query (namedValueToInterface args),
                Event.StmtQuery values]) ctx1 query (namedValueToInterface args)).2 with
            | some e => (none, some e)
            | none => (r, none)),
            tr ++ [Event.Before ctx query (namedValueToInterface args),
              Event.StmtQuery values,
              Event.After ctx1 query (namedValueToInterface args)])) := by
  refine ⟨?_, ?_, ?_, ?_, ?_, ?_, ?_, ?_, ?_, ?_⟩
  · intro f r hf hdrv
    have hstep := conn_execContext_of_ctx ⟨dconn, hooks⟩ (tr ++ [Event.Before ctx query (namedValueToInterface args)]) ctx1 query args f hf
    rw [hdrv] at hstep
    simp only [Conn.ExecContext, hB, hstep, List.append_assoc, List.singleton_append]
    cases (hooks.After (tr ++ [Event.Before ctx query (namedValueToInterface args),
      Event.ConnExecContext ctx1 query args]) ctx1 query (namedValueToInterface args)).2 <;> rfl
  · intro g r hc hg hU hdrv
    have hstep := conn_execContext_of_legacy ⟨dconn, hooks⟩ (tr ++ [Event.Before ctx query (namedValueToInterface args)]) ctx1 query args g hc hg hU
    rw [hdrv] at hstep
    simp only [Conn.ExecContext, hB, hstep, List.append_assoc, List.singleton_append]
    cases (hooks.After (tr ++ [Event.Before ctx query (namedValueToInterface args),
      Event.ConnExec query (args.map (fun n => n.Value))]) ctx1 query (namedValueToInterface args)).2 <;> rfl
  · intro f r hf hdrv
    have hstep := conn_execContext_of_ctx ⟨dconn, hooks⟩ (tr ++ [Event.Before ctx query (namedValueToInterface args)]) ctx1 query args f hf
    rw [hdrv] at hstep
    simp only [ExecerContext.ExecContext, ec_execContext_eq, hB, hstep, List.append_assoc, List.singleton_append]
    cases (hooks.After (tr ++ [Event.Before ctx query (namedValueToInterface args),
      Event.ConnExecContext ctx1 query args]) ctx1 query (namedValueToInterface args)).2 <;> rfl
  · intro g r hc hg hU hdrv
    have hstep := conn_execContext_of_legacy ⟨dconn, hooks⟩ (tr ++ [Event.Before ctx query (namedValueToInterface args)]) ctx1 query args g hc hg hU
    rw [hdrv] at hstep
    simp only [ExecerContext.ExecContext, ec_execContext_eq, hB, hstep, List.append_assoc, List.singleton_append]
    cases (hooks.After (tr ++ [Event.Before ctx query (namedValueToInterface args),
      Event.ConnExec query (args.map (fun n => n.Value))]) ctx1 query (namedValueToInterface args)).2 <;> rfl
  · intro f r hf hdrv
    have hstep := qc_queryContext_of_ctx ⟨⟨dconn, hooks⟩⟩ (tr ++ [Event.Before ctx query (namedValueToInterface args)]) ctx1 query args f hf
    rw [hdrv] at hstep
    simp only [QueryerContext.QueryContext, hB, hstep, List.append_assoc, List.singleton_append]
    cases (hooks.After (tr ++ [Event.Before ctx query (namedValueToInterface args),
      Event.ConnQueryContext ctx1 query args]) ctx1 query (namedValueToInterface args)).2 <;> rfl
  · intro g r hc hg hU hdrv
    have hstep := qc_queryContext_of_legacy ⟨⟨dconn, hooks⟩⟩ (tr ++ [Event.Before ctx query (namedValueToInterface args)]) ctx1 query args g hc hg hU
    rw [hdrv] at hstep
    simp only [QueryerContext.QueryContext, hB, hstep, List.append_assoc, List.singleton_append]
    cases (hooks.After (tr ++ [Event.Before ctx query (namedValueToInterface args),
      Event.ConnQuery query (args.map (fun n => n.Value))]) ctx1 query (namedValueToInterface args)).2 <;> rfl
  · intro f r hf hdrv
    have hstep := stmt_execContext_of_ctx ⟨dstmt, hooks, query⟩ (tr ++ [Event.Before ctx query (namedValueToInterface args)]) ctx1 args f hf
    rw [hdrv] at hstep
    simp only [Stmt.ExecContext, hB, hstep, List.append_assoc, List.singleton_append]
    cases (hooks.After (tr ++ [Event.Before ctx query (namedValueToInterface args),
      Event.StmtExecContext ctx1 args]) ctx1 query (namedValueToInterface args)).2 <;> rfl
  · intro values r hc hv hdrv
    have hstep := stmt_execContext_of_legacy ⟨dstmt, hooks, query⟩ (tr ++ [Event.Before ctx query (namedValueToInterface args)]) ctx1 args values hc hv
    rw [hdrv] at hstep
    simp only [Stmt.ExecContext, hB, hstep, List.append_assoc, List.singleton_append]
    cases (hooks.After (tr ++ [Event.Before ctx query (namedValueToInterface args),
      Event.StmtExec values]) ctx1 query (namedValueToInterface args)).2 <;> rfl
  · intro f r hf hdrv
    have hstep := stmt_queryContext_of_ctx ⟨dstmt, hooks, query⟩ (tr ++ [Event.Before ctx query (namedValueToInterface args)]) ctx1 args f hf
    rw [hdrv] at hstep
    simp only [Stmt.QueryContext, hB, hstep, List.append_assoc, List.singleton_append]
    cases (hooks.After (tr ++ [Event.Before ctx query (namedValueToInterface args),
      Event.StmtQueryContext ctx1 args]) ctx1 query (namedValueToInterface args)).2 <;> rfl
  · intro values r hc hv hdrv
    have hstep := stmt_queryContext_of_legacy ⟨dstmt, hooks, query⟩ (tr ++ [Event.Before ctx query (namedValueToInterface args)]) ctx1 args values hc hv
    rw [hdrv] at hstep
    simp only [Stmt.QueryContext, hB, hstep, List.append_assoc, List.singleton_append]
    cases (hooks.After (tr ++ [Event.Before ctx query (namedValueToInterface args),
      Event.StmtQuery values]) ctx1 query (namedValueToInterface args)).2 <;> rfl

theorem after_decides_result_witness :
    ExecerContext.ExecContext ⟨⟨ctxConn, afterErrHooks⟩⟩ [] 0 "SELECT 1" twoArgs =
        ((none, some "over budget"),
          [] ++ [Event.Before 0 "SELECT 1" (namedValueToInterface twoArgs),
            Event.ConnExecContext 1 "SELECT 1" twoArgs,
            Event.After 1 "SELECT 1" (namedValueToInterface twoArgs)]) ∧
      Stmt.QueryContext ⟨legacyStmt, okHooks, "SELECT 1"⟩ [] 0 twoArgs =
        (some (some 2, none),
          [] ++ [Event.Before 0 "SELECT 1" (namedValueToInterface twoArgs),
            Event.StmtQuery [Value.int 1, Value.str "a"],
            Event.After 1 "SELECT 1" (namedValueToInterface twoArgs)]) :=
  ⟨(after_decides_result afterErrHooks ctxConn ctxStmt [] 0 "SELECT 1" twoArgs 1 rfl).2.2.1
      _ (some 7) rfl rfl,
    (after_decides_result okHooks ctxConn legacyStmt [] 0 "SELECT 1" twoArgs 1 rfl).2.2.2.2.2.2.2.2.2
      [Value.int 1, Value.str "a"] (some 2) rfl rfl rfl⟩

/-! ## Error escalation -/

/-- C3, as the code has it: when the hooks have the `OnError` capability,
`handlerError` calls it once and returns its answer when that answer is a
non-nil error; when `OnError` answers nil, `handlerError` returns the original
error, so the error it returns is never nil.  The same holds for what the
caller of each of the five operations receives: when the driver primitive
(context-aware or legacy) answers `(r, e)`, and more generally whenever the
underlying step fails with `e`, the operation returns `r` with `OnError`'s
answer, or with `e` itself when that answer is nil; the error reported is never
nil. -/
theorem handlerError_with_onError (hooks : Hooks)
    (onError : Trace → Context → Error → String → List Interface → Option Error)
    (hE : hooks.OnError = some onError)
    (t : Trace) (c : Context) (err : Error) (q : String) (cArgs : List Interface)
    (dconn : DriverConn) (dstmt : DriverStmt)
    (tr : Trace) (ctx : Context) (query : String) (args : List NamedValue) (ctx1 : Context)
    (hB : hooks.Before tr ctx query (namedValueToInterface args) = (ctx1, none)) :
    (∀ e1, onError t c err q cArgs = some e1 →
        handlerError t c hooks err q cArgs =
          (some e1, t ++ [Event.OnError c err q cArgs])) ∧
      (onError t c err q cArgs = none →
        handlerError t c hooks err q cArgs =
          (some err, t ++ [Event.OnError c err q cArgs])) ∧
      (handlerError t c hooks err q cArgs).1 ≠ none ∧
      (∀ f (r : Option Result) (e : Error), dconn.ExecerContext = some f →
        f (tr ++ [Event.Before ctx query (namedValueToInterface args)]) ctx1 query args = (r, some e) →
        Conn.ExecContext ⟨dconn, hooks⟩ tr ctx query args =
          ((r, some ((onError (tr ++ [Event.Before ctx query (namedValueToInterface args),
              Event.ConnExecContext ctx1 query args]) ctx1 e query (namedValueToInterface args)).getD e)),
            tr ++ [Event.Before ctx query (namedValueToInterface args),
              Event.ConnExecContext ctx1 query args,
              Event.OnError ctx1 e query (namedValueToInterface args)])) ∧
      (∀ g (r : Option Result) (e : Error), dconn.ExecerContext = none →
          dconn.Execer = some g →
          (∀ n ∈ args, n.Name = "") →
        g (tr ++ [Event.Before ctx query (namedValueToInterface args)]) query (args.map (fun n => n.Value)) = (r, some e) →
        Conn.ExecContext ⟨dconn, hooks⟩ tr ctx query args =
          ((r, some ((onError (tr ++ [Event.Before ctx query (namedValueToInterface args),
              Event.ConnExec query (args.map (fun n => n.Value))]) ctx1 e query (namedValueToInterface args)).getD e)),
            tr ++ [Event.Before ctx query (namedValueToInterface args),
              Event.ConnExec query (args.map (fun n => n.Value)),
              Event.OnError ctx1 e query (namedValueToInterface args)])) ∧
      (∀ f (r : Option Result) (e : Error), dconn.ExecerContext = some f →
        f (tr ++ [Event.Before ctx query (namedValueToInterface args)]) ctx1 query args = (r, some e) →
        ExecerContext.ExecContext ⟨⟨dconn, hooks⟩⟩ tr ctx query args =
          ((r, some ((onError (tr ++ [Event.Before ctx query (namedValueToInterface args),
              Event.ConnExecContext ctx1 query args]) ctx1 e query (namedValueToInterface args)).getD e)),
            tr ++ [Event.Before ctx query (namedValueToInterface args),
              Event.ConnExecContext ctx1 query args,
              Event.OnError ctx1 e query (namedValueToInterface args)])) ∧
      (∀ g (r : Option Result) (e : Error), dconn.ExecerContext = none →
          dconn.Execer = some g →
          (∀ n ∈ args, n.Name = "") →
        g (tr ++ [Event.Before ctx query (namedValueToInterface args)]) query (args.map (fun n => n.Value)) = (r, some e) →
        ExecerContext.ExecContext ⟨⟨dconn, hooks⟩⟩ tr ctx query args =
          ((r, some ((onError (tr ++ [Event.Before ctx query (namedValueToInterface args),
              Event.ConnExec query (args.map (fun n => n.Value))]) ctx1 e query (namedValueToInterface args)).getD e)),
            tr ++ [Event.Before ctx query (namedValueToInterface args),
              Event.ConnExec query (args.map (fun n => n.Value)),
              Event.OnError ctx1 e query (namedValueToInterface args)])) ∧
      (∀ f (r : Option Rows) (e : Error), dconn.QueryerContext = some f →
        f (tr ++ [Event.Before ctx query (namedValueToInterface args)]) ctx1 query args = (r, some e) →
        QueryerContext.QueryContext ⟨⟨dconn, hooks⟩⟩ tr ctx query args =
          ((r, some ((onError (tr ++ [Event.Before ctx query (namedValueToInterface args),
              Event.ConnQueryContext ctx1 query args]) ctx1 e query (namedValueToInterface args)).getD e)),
            tr ++ [Event.Before ctx query (namedValueToInterface args),
              Event.ConnQueryContext ctx1 query args,
              Event.OnError ctx1 e query (namedValueToInterface args)])) ∧
      (∀ g (r : Option Rows) (e : Error), dconn.QueryerContext = none →
          dconn.Queryer = some g →
          (∀ n ∈ args, n.Name = "") →
        g (tr ++ [Event.Before ctx query (namedValueToInterface args)]) query (args.map (fun n => n.Value)) = (r, some e) →
        QueryerContext.QueryContext ⟨⟨dconn, hooks⟩⟩ tr ctx query args =
          ((r, some ((onError (tr ++ [Event.Before ctx query (namedValueToInterface args),
              Event.ConnQuery query (args.map (fun n => n.Value))]) ctx1 e query (namedValueToInterface args)).getD e)),
            tr ++ [Event.Before ctx query (namedValueToInterface args),
              Event.ConnQuery query (args.map (fun n => n.Value)),
              Event.OnError ctx1 e query (namedValueToInterface args)])) ∧
      (∀ f (r : Option Result) (e : Error), dstmt.StmtExecContext = some f →
        f (tr ++ [Event.Before ctx query (namedValueToInterface args)]) ctx1 args = (r, some e) →
        Stmt.ExecContext ⟨dstmt, hooks, query⟩ tr ctx args =
          (some (r, some ((onError (tr ++ [Event.Before ctx query (namedValueToInterface args),
              Event.StmtExecContext ctx1 args]) ctx1 e query (namedValueToInterface args)).getD e)),
            tr ++ [Event.Before ctx query (namedValueToInterface args),
              Event.StmtExecContext ctx1 args,
              Event.OnError ctx1 e query (namedValueToInterface args)])) ∧
      (∀ values (r : Option Result) (e : Error), dstmt.StmtExecContext = none →
          ordinalLoop (List.replicate args.length Value.nil) args = some values →
        dstmt.Exec (tr ++ [Event.Before ctx query (namedValueToInterface args)]) values = (r, some e) →
        Stmt.ExecContext ⟨dstmt, hooks, query⟩ tr ctx args =
          (some (r, some ((onError (tr ++ [Event.Before ctx query (namedValueToInterface args),
              Event.StmtExec values]) ctx1 e query (namedValueToInterface args)).getD e)),
            tr ++ [Event.Before ctx query (namedValueToInterface args),
              Event.StmtExec values,
              Event.OnError ctx1 e query (namedValueToInterface args)])) ∧
      (∀ f (r : Option Rows) (e : Error), dstmt.StmtQueryContext = some f →
        f (tr ++ [Event.Before ctx query (namedValueToInterface args)]) ctx1 args = (r, some e) →
        Stmt.QueryContext ⟨dstmt, hooks, query⟩ tr ctx args =
          (some (r, some ((onError (tr ++ [Event.Before ctx query (namedValueToInterface args),
              Event.StmtQueryContext ctx1 args]) ctx1 e query (namedValueToInterface args)).getD e)),
            tr ++ [Event.Before ctx query (namedValueToInterface args),
              Event.StmtQueryContext ctx1 args,
              Event.OnError ctx1 e query (namedValueToInterface args)])) ∧
      (∀ values (r : Option Rows) (e : Error), dstmt.StmtQueryContext = none →
          ordinalLoop (List.replicate args.length Value.nil) args = some values →
        dstmt.Query (tr ++ [Event.Before ctx query (namedValueToInterface args)]) values = (r, some e) →
        Stmt.QueryContext ⟨dstmt, hooks, query⟩ tr ctx args =
          (some (r, some ((onError (tr ++ [Event.Before ctx query (namedValueToInterface args),
              Event.StmtQuery values]) ctx1 e query (namedValueToInterface args)).getD e)),
            tr ++ [Event.Before ctx query (namedValueToInterface args),
              Event.StmtQuery values,
              Event.OnError ctx1 e query (namedValueToInterface args)])) ∧
      (∀ (r : Option Result) (e : Error) (tr2 : Trace),
        Conn.execContext ⟨dconn, hooks⟩ (tr ++ [Event.Before ctx query (namedValueToInterface args)])
            ctx1 query args = ((r, some e), tr2) →
        Conn.ExecContext ⟨dconn, hooks⟩ tr ctx query args =
          ((r, some ((onError tr2 ctx1 e query (namedValueToInterface args)).getD e)),
            tr2 ++ [Event.OnError ctx1 e query (namedValueToInterface args)])) ∧
      (∀ (r : Option Result) (e : Error) (tr2 : Trace),
        ExecerContext.execContext ⟨⟨dconn, hooks⟩⟩ (tr ++ [Event.Before ctx query (namedValueToInterface args)])
            ctx1 query args = ((r, some e), tr2) →
        ExecerContext.ExecContext ⟨⟨dconn, hooks⟩⟩ tr ctx query args =
          ((r, some ((onError tr2 ctx1 e query (namedValueToInterface args)).getD e)),
            tr2 ++ [Event.OnError ctx1 e query (namedValueToInterface args)])) ∧
      (∀ (r : Option Rows) (e : Error) (tr2 : Trace),
        QueryerContext.queryContext ⟨⟨dconn, hooks⟩⟩ (tr ++ [Event.Before ctx query (namedValueToInterface args)])
            ctx1 query args = ((r, some e), tr2) →
        QueryerContext.QueryContext ⟨⟨dconn, hooks⟩⟩ tr ctx query args =
          ((r, some ((onError tr2 ctx1 e query (namedValueToInterface args)).getD e)),
            tr2 ++ [Event.OnError ctx1 e query (namedValueToInterface args)])) ∧
      (∀ (r : Option Result) (e : Error) (tr2 : Trace),
        Stmt.execContext ⟨dstmt, hooks, query⟩ (tr ++ [Event.Before ctx query (namedValueToInterface args)])
            ctx1 args = (some (r, some e), tr2) →
        Stmt.ExecContext ⟨dstmt, hooks, query⟩ tr ctx args =
          (some (r, some ((onError tr2 ctx1 e query (namedValueToInterface args)).getD e)),
            tr2 ++ [Event.OnError ctx1 e query (namedValueToInterface args)])) ∧
      (∀ (r : Option Rows) (e : Error) (tr2 : Trace),
        Stmt.queryContext ⟨dstmt, hooks, query⟩ (tr ++ [Event.Before ctx query (namedValueToInterface args)])
            ctx1 args = (some (r, some e), tr2) →
        Stmt.QueryContext ⟨dstmt, hooks, query⟩ tr ctx args =
          (some (r, some ((onError tr2 ctx1 e query (namedValueToInterface args)).getD e)),
            tr2 ++ [Event.OnError ctx1 e query (namedValueToInterface args)])) := by
  refine ⟨fun e1 h => by simp only [handlerError, hE, h],
    fun h => by simp only [handlerError, hE, h], ?_,
    ?_, ?_, ?_, ?_, ?_, ?_, ?_, ?_, ?_, ?_, ?_, ?_, ?_, ?_, ?_⟩
  · cases h : onError t c err q cArgs <;> simp [handlerError, hE, h]
  · intro f r e hf hdrv
    have hstep := conn_execContext_of_ctx ⟨dconn, hooks⟩ (tr ++ [Event.Before ctx query (namedValueToInterface args)]) ctx1 query args f hf
    rw [hdrv] at hstep
    simp only [Conn.ExecContext, hB, hstep, handlerError, hE, List.append_assoc,
      List.singleton_append]
    cases (onError (tr ++ [Event.Before ctx query (namedValueToInterface args),
      Event.ConnExecContext ctx1 query args]) ctx1 e query (namedValueToInterface args)) <;> rfl
  · intro g r e hc hg hU hdrv
    have hstep := conn_execContext_of_legacy ⟨dconn, hooks⟩ (tr ++ [Event.Before ctx query (namedValueToInterface args)]) ctx1 query args g hc hg hU
    rw [hdrv] at hstep
    simp only [Conn.ExecContext, hB, hstep, handlerError, hE, List.append_assoc,
      List.singleton_append]
    cases (onError (tr ++ [Event.Before ctx query (namedValueToInterface args),
      Event.ConnExec query (args.map (fun n => n.Value))]) ctx1 e query (namedValueToInterface args)) <;> rfl
  · intro f r e hf hdrv
    have hstep := conn_execContext_of_ctx ⟨dconn, hooks⟩ (tr ++ [Event.Before ctx query (namedValueToInterface args)]) ctx1 query args f hf
    rw [hdrv] at hstep
    simp only [ExecerContext.ExecContext, ec_execContext_eq, hB, hstep, handlerError, hE, List.append_assoc,
      List.singleton_append]
    cases (onError (tr ++ [Event.Before ctx query (namedValueToInterface args),
      Event.ConnExecContext ctx1 query args]) ctx1 e query (namedValueToInterface args)) <;> rfl
  · intro g r e hc hg hU hdrv
    have hstep := conn_execContext_of_legacy ⟨dconn, hooks⟩ (tr ++ [Event.Before ctx query (namedValueToInterface args)]) ctx1 query args g hc hg hU
    rw [hdrv] at hstep
    simp only [ExecerContext.ExecContext, ec_execContext_eq, hB, hstep, handlerError, hE, List.append_assoc,
      List.singleton_append]
    cases (onError (tr ++ [Event.Before ctx query (namedValueToInterface args),
      Event.ConnExec query (args.map (fun n => n.Value))]) ctx1 e query (namedValueToInterface args)) <;> rfl
  · intro f r e hf hdrv
    have hstep := qc_queryContext_of_ctx ⟨⟨dconn, hooks⟩⟩ (tr ++ [Event.Before ctx query (namedValueToInterface args)]) ctx1 query args f hf
    rw [hdrv] at hstep
    simp only [QueryerContext.QueryContext, hB, hstep, handlerError, hE, List.append_assoc,
      List.singleton_append]
    cases (onError (tr ++ [Event.Before ctx query (namedValueToInterface args),
      Event.ConnQueryContext ctx1 query args]) ctx1 e query (namedValueToInterface args)) <;> rfl
  · intro g r e hc hg hU hdrv
    have hstep := qc_queryContext_of_legacy ⟨⟨dconn, hooks⟩⟩ (tr ++ [Event.Before ctx query (namedValueToInterface args)]) ctx1 query args g hc hg hU
    rw [hdrv] at hstep
    simp only [QueryerContext.QueryContext, hB, hstep, handlerError, hE, List.append_assoc,
      List.singleton_append]
    cases (onError (tr ++ [Event.Before ctx query (namedValueToInterface args),
      Event.ConnQuery query (args.map (fun n => n.Value))]) ctx1 e query (namedValueToInterface args)) <;> rfl
  · intro f r e hf hdrv
    have hstep := stmt_execContext_of_ctx ⟨dstmt, hooks, query⟩ (tr ++ [Event.Before ctx query (namedValueToInterface args)]) ctx1 args f hf
    rw [hdrv] at hstep
    simp only [Stmt.ExecContext, hB, hstep, handlerError, hE, List.append_assoc,
      List.singleton_append]
    cases (onError (tr ++ [Event.Before ctx query (namedValueToInterface args),
      Event.StmtExecContext ctx1 args]) ctx1 e query (namedValueToInterface args)) <;> rfl
  · intro values r e hc hv hdrv
    have hstep := stmt_execContext_of_legacy ⟨dstmt, hooks, query⟩ (tr ++ [Event.Before ctx query (namedValueToInterface args)]) ctx1 args values hc hv
    rw [hdrv] at hstep
    simp only [Stmt.ExecContext, hB, hstep, handlerError, hE, List.append_assoc,
      List.singleton_append]
    cases (onError (tr ++ [Event.Before ctx query (namedValueToInterface args),
      Event.StmtExec values]) ctx1 e query (namedValueToInterface args)) <;> rfl
  · intro f r e hf hdrv
    have hstep := stmt_queryContext_of_ctx ⟨dstmt, hooks, query⟩ (tr ++ [Event.Before ctx query (namedValueToInterface args)]) ctx1 args f hf
    rw [hdrv] at hstep
    simp only [Stmt.QueryContext, hB, hstep, handlerError, hE, List.append_assoc,
      List.singleton_append]
    cases (onError (tr ++ [Event.Before ctx query (namedValueToInterface args),
      Event.StmtQueryContext ctx1 args]) ctx1 e query (namedValueToInterface args)) <;> rfl
  · intro values r e hc hv hdrv
    have hstep := stmt_queryContext_of_legacy ⟨dstmt, hooks, query⟩ (tr ++ [Event.Before ctx query (namedValueToInterface args)]) ctx1 args values hc hv
    rw [hdrv] at hstep
    simp only [Stmt.QueryContext, hB, hstep, handlerError, hE, List.append_assoc,
      List.singleton_append]
    cases (onError (tr ++ [Event.Before ctx query (namedValueToInterface args),
      Event.StmtQuery values]) ctx1 e query (namedValueToInterface args)) <;> rfl
  · intro r e tr2 hd
    simp only [Conn.ExecContext, hB, hd, handlerError, hE]
    cases (onError tr2 ctx1 e query (namedValueToInterface args)) <;> rfl
  · intro r e tr2 hd
    simp only [ExecerContext.ExecContext, hB, hd, handlerError, hE]
    cases (onError tr2 ctx1 e query (namedValueToInterface args)) <;> rfl
  · intro r e tr2 hd
    simp only [QueryerContext.QueryContext, hB, hd, handlerError, hE]
    cases (onError tr2 ctx1 e query (namedValueToInterface args)) <;> rfl
  · intro r e tr2 hd
    simp only [Stmt.ExecContext, hB, hd, handlerError, hE]
    cases (onError tr2 ctx1 e query (namedValueToInterface args)) <;> rfl
  · intro r e tr2 hd
    simp only [Stmt.QueryContext, hB, hd, handlerError, hE]
    cases (onError tr2 ctx1 e query (namedValueToInterface args)) <;> rfl

theorem handlerError_with_onError_witness :
    handlerError [] 1 wrapHooks "boom" "SELECT 1" [] =
        (some "wrapped: boom", [] ++ [Event.OnError 1 "boom" "SELECT 1" []]) ∧
      handlerError [] 1 suppressHooks "boom" "SELECT 1" [] =
        (some "boom", [] ++ [Event.OnError 1 "boom" "SELECT 1" []]) ∧
      Stmt.ExecContext ⟨failStmt, suppressHooks, "SELECT 1"⟩ [] 0 twoArgs =
        (some (some 3, some "boom"),
          [] ++ [Event.Before 0 "SELECT 1" (namedValueToInterface twoArgs),
            Event.StmtExecContext 1 twoArgs,
            Event.OnError 1 "boom" "SELECT 1" (namedValueToInterface twoArgs)]) :=
  ⟨(handlerError_with_onError wrapHooks (fun _ _ err _ _ => some ("wrapped: " ++ err)) rfl
      [] 1 "boom" "SELECT 1" [] failConn failStmt [] 0 "SELECT 1" twoArgs 1 rfl).1
      "wrapped: boom" rfl,
    (handlerError_with_onError suppressHooks (fun _ _ _ _ _ => none) rfl
      [] 1 "boom" "SELECT 1" [] failConn failStmt [] 0 "SELECT 1" twoArgs 1 rfl).2.1 rfl,
    (handlerError_with_onError suppressHooks (fun _ _ _ _ _ => none) rfl
      [] 1 "boom" "SELECT 1" [] failConn failStmt [] 0 "SELECT 1" twoArgs 1
      rfl).2.2.2.2.2.2.2.2.2.1 _ (some 3) "boom" rfl rfl⟩

/-- C3 as stated fails: an `OnError` that answers nil does not make
`handlerError` return nil; the original error comes back and the failing
operation reports it to its caller. -/
theorem onError_nil_keeps_error :
    suppressHooks.OnError.map (fun f => f [] 1 "boom" "SELECT 1" []) = some none ∧
      (handlerError [] 1 suppressHooks "boom" "SELECT 1" []).1 = some "boom" ∧
      (handlerError [] 1 suppressHooks "boom" "SELECT 1" []).1 ≠ none ∧
      (ExecerContext.ExecContext ⟨⟨failConn, suppressHooks⟩⟩ [] 0 "SELECT 1" []).1 =
        (some 7, some "boom") := by
  refine ⟨rfl, rfl, ?_, rfl⟩
  decide

/-- C4: in each of the five instrumented operations, on the context-aware and on
the legacy path alike, when `Before` lets the operation through, the driver
primitive answers result `r` with error `e`, and the hooks have no `OnError`,
the caller receives exactly the driver's `(r, e)`; the calls made are `Before`
and the primitive, so `After` is not invoked. -/
theorem failure_passthrough (hooks : Hooks) (dconn : DriverConn) (dstmt : DriverStmt)
    (tr : Trace) (ctx : Context) (query : String) (args : List NamedValue) (ctx1 : Context)
    (hB : hooks.Before tr ctx query (namedValueToInterface args) = (ctx1, none))
    (hE : hooks.OnError = none) :
    (∀ f (r : Option Result) (e : Error), dconn.ExecerContext = some f →
        f (tr ++ [Event.Before ctx query (namedValueToInterface args)]) ctx1 query args = (r, some e) →
        Conn.ExecContext ⟨dconn, hooks⟩ tr ctx query args =
          ((r, some e),
            tr ++ [Event.Before ctx query (namedValueToInterface args),
              Event.ConnExecContext ctx1 query args])) ∧
      (∀ g (r : Option Result) (e : Error), dconn.ExecerContext = none →
          dconn.Execer = some g →
          (∀ n ∈ args, n.Name = "") →
        g (tr ++ [Event.Before ctx query (namedValueToInterface args)]) query (args.map (fun n => n.Value)) = (r, some e) →
        Conn.ExecContext ⟨dconn, hooks⟩ tr ctx query args =
          ((r, some e),
            tr ++ [Event.Before ctx query (namedValueToInterface args),
              Event.ConnExec query (args.map (fun n => n.Value))])) ∧
      (∀ f (r : Option Result) (e : Error), dconn.ExecerContext = some f →
        f (tr ++ [Event.Before ctx query (namedValueToInterface args)]) ctx1 query args = (r, some e) →
        ExecerContext.ExecContext ⟨⟨dconn, hooks⟩⟩ tr ctx query args =
          ((r, some e),
            tr ++ [Event.Before ctx query (namedValueToInterface args),
              Event.ConnExecContext ctx1 query args])) ∧
      (∀ g (r : Option Result) (e : Error), dconn.ExecerContext = none →
          dconn.Execer = some g →
          (∀ n ∈ args, n.Name = "") →
        g (tr ++ [Event.Before ctx query (namedValueToInterface args)]) query (args.map (fun n => n.Value)) = (r, some e) →
        ExecerContext.ExecContext ⟨⟨dconn, hooks⟩⟩ tr ctx query args =
          ((r, some e),
            tr ++ [Event.Before ctx query (namedValueToInterface args),
              Event.ConnExec query (args.map (fun n => n.Value))])) ∧
      (∀ f (r : Option Rows) (e : Error), dconn.QueryerContext = some f →
        f (tr ++ [Event.Before ctx query (namedValueToInterface args)]) ctx1 query args = (r, some e) →
        QueryerContext.QueryContext ⟨⟨dconn, hooks⟩⟩ tr ctx query args =
          ((r, some e),
            tr ++ [Event.Before ctx query (namedValueToInterface args),
              Event.ConnQueryContext ctx1 query args])) ∧
      (∀ g (r : Option Rows) (e : Error), dconn.QueryerContext = none →
          dconn.Queryer = some g →
          (∀ n ∈ args, n.Name = "") →
        g (tr ++ [Event.Before ctx query (namedValueToInterface args)]) query (args.map (fun n => n.Value)) = (r, some e) →
        QueryerContext.QueryContext ⟨⟨dconn, hooks⟩⟩ tr ctx query args =
          ((r, some e),
            tr ++ [Event.Before ctx query (namedValueToInterface args),
              Event.ConnQuery query (args.map (fun n => n.Value))])) ∧
      (∀ f (r : Option Result) (e : Error), dstmt.StmtExecContext = some f →
        f (tr ++ [Event.Before ctx query (namedValueToInterface args)]) ctx1 args = (r, some e) →
        Stmt.ExecContext ⟨dstmt, hooks, query⟩ tr ctx args =
          (some (r, some e),
            tr ++ [Event.Before ctx query (namedValueToInterface args),
              Event.StmtExecContext ctx1 args])) ∧
      (∀ values (r : Option Result) (e : Error), dstmt.StmtExecContext = none →
          ordinalLoop (List.replicate args.length Value.nil) args = some values →
        dstmt.Exec (tr ++ [Event.Before ctx query (namedValueToInterface args)]) values = (r, some e) →
        Stmt.ExecContext ⟨dstmt, hooks, query⟩ tr ctx args =
          (some (r, some e),
            tr ++ [Event.Before ctx query (namedValueToInterface args),
              Event.StmtExec values])) ∧
      (∀ f (r : Option Rows) (e : Error), dstmt.StmtQueryContext = some f →
        f (tr ++ [Event.Before ctx query (namedValueToInterface args)]) ctx1 args = (r, some e) →
        Stmt.QueryContext ⟨dstmt, hooks, query⟩ tr ctx args =
          (some (r, some e),
            tr ++ [Event.Before ctx query (namedValueToInterface args),
              Event.StmtQueryContext ctx1 args])) ∧
      (∀ values (r : Option Rows) (e : Error), dstmt.StmtQueryContext = none →
          ordinalLoop (List.replicate args.length Value.nil) args = some values →
        dstmt.Query (tr ++ [Event.Before ctx query (namedValueToInterface args)]) values = (r, some e) →
        Stmt.QueryContext ⟨dstmt, hooks, query⟩ tr ctx args =
          (some (r, some e),
            tr ++ [Event.Before ctx query (namedValueToInterface args),
              Event.StmtQuery values])) := by
  refine ⟨?_, ?_, ?_, ?_, ?_, ?_, ?_, ?_, ?_, ?_⟩
  · intro f r e hf hdrv
    have hstep := conn_execContext_of_ctx ⟨dconn, hooks⟩ (tr ++ [Event.Before ctx query (namedValueToInterface args)]) ctx1 query args f hf
    rw [hdrv] at hstep
    simp only [Conn.ExecContext, hB, hstep, handlerError, hE, List.append_assoc,
      List.singleton_append]
  · intro g r e hc hg hU hdrv
    have hstep := conn_execContext_of_legacy ⟨dconn, hooks⟩ (tr ++ [Event.Before ctx query (namedValueToInterface args)]) ctx1 query args g hc hg hU
    rw [hdrv] at hstep
    simp only [Conn.ExecContext, hB, hstep, handlerError, hE, List.append_assoc,
      List.singleton_append]
  · intro f r e hf hdrv
    have hstep := conn_execContext_of_ctx ⟨dconn, hooks⟩ (tr ++ [Event.Before ctx query (namedValueToInterface args)]) ctx1 query args f hf
    rw [hdrv] at hstep
    simp only [ExecerContext.ExecContext, ec_execContext_eq, hB, hstep, handlerError, hE, List.append_assoc,
      List.singleton_append]
  · intro g r e hc hg hU hdrv
    have hstep := conn_execContext_of_legacy ⟨dconn, hooks⟩ (tr ++ [Event.Before ctx query (namedValueToInterface args)]) ctx1 query args g hc hg hU
    rw [hdrv] at hstep
    simp only [ExecerContext.ExecContext, ec_execContext_eq, hB, hstep, handlerError, hE, List.append_assoc,
      List.singleton_append]
  · intro f r e hf hdrv
    have hstep := qc_queryContext_of_ctx ⟨⟨dconn, hooks⟩⟩ (tr ++ [Event.Before ctx query (namedValueToInterface args)]) ctx1 query args f hf
    rw [hdrv] at hstep
    simp only [QueryerContext.QueryContext, hB, hstep, handlerError, hE, List.append_assoc,
      List.singleton_append]
  · intro g r e hc hg hU hdrv
    have hstep := qc_queryContext_of_legacy ⟨⟨dconn, hooks⟩⟩ (tr ++ [Event.Before ctx query (namedValueToInterface args)]) ctx1 query args g hc hg hU
    rw [hdrv] at hstep
    simp only [QueryerContext.QueryContext, hB, hstep, handlerError, hE, List.append_assoc,
      List.singleton_append]
  · intro f r e hf hdrv
    have hstep := stmt_execContext_of_ctx ⟨dstmt, hooks, query⟩ (tr ++ [Event.Before ctx query (namedValueToInterface args)]) ctx1 args f hf
    rw [hdrv] at hstep
    simp only [Stmt.ExecContext, hB, hstep, handlerError, hE, List.append_assoc,
      List.singleton_append]
  · intro values r e hc hv hdrv
    have hstep := stmt_execContext_of_legacy ⟨dstmt, hooks, query⟩ (tr ++ [Event.Before ctx query (namedValueToInterface args)]) ctx1 args values hc hv
    rw [hdrv] at hstep
    simp only [Stmt.ExecContext, hB, hstep, handlerError, hE, List.append_assoc,
      List.singleton_append]
  · intro f r e hf hdrv
    have hstep := stmt_queryContext_of_ctx ⟨dstmt, hooks, query⟩ (tr ++ [Event.Before ctx query (namedValueToInterface args)]) ctx1 args f hf
    rw [hdrv] at hstep
    simp only [Stmt.QueryContext, hB, hstep, handlerError, hE, List.append_assoc,
      List.singleton_append]
  · intro values r e hc hv hdrv
    have hstep := stmt_queryContext_of_legacy ⟨dstmt, hooks, query⟩ (tr ++ [Event.Before ctx query (namedValueToInterface args)]) ctx1 args values hc hv
    rw [hdrv] at hstep
    simp only [Stmt.QueryContext, hB, hstep, handlerError, hE, List.append_assoc,
      List.singleton_append]

theorem failure_passthrough_witness :
    Conn.ExecContext ⟨failConn, okHooks⟩ [] 0 "SELECT 1" twoArgs =
        ((some 7, some "boom"),
          [] ++ [Event.Before 0 "SELECT 1" (namedValueToInterface twoArgs),
            Event.ConnExecContext 1 "SELECT 1" twoArgs]) ∧
      Stmt.ExecContext ⟨failStmt, okHooks, "SELECT 1"⟩ [] 0 twoArgs =
        (some (some 3, some "boom"),
          [] ++ [Event.Before 0 "SELECT 1" (namedValueToInterface twoArgs),
            Event.StmtExecContext 1 twoArgs]) :=
  ⟨(failure_passthrough okHooks failConn failStmt [] 0 "SELECT 1" twoArgs 1 rfl rfl).1
      _ (some 7) "boom" rfl rfl,
    (failure_passthrough okHooks failConn failStmt [] 0 "SELECT 1" twoArgs 1 rfl rfl).2.2.2.2.2.2.1
      _ (some 3) "boom" rfl rfl⟩

/-! ## Ordering of the calls of one operation -/

/-- C5, as the code has it, for every operation whose underlying step returns:
every connection-level operation, and a statement-level operation exactly when
the statement is context-aware or every ordinal lies in `1..n`.  `Before` is
called exactly once and first.  When it vetoes, nothing else is called.  When
it lets the operation through, the underlying step follows and calls a driver
primitive at most once: exactly once when the step succeeds, while a step that
the wrapper fails by itself makes no driver call.  The step then ended either
without an error or with one, and exactly one of the two paths runs, never
both and never neither: `After`, once, when the step succeeded; error
escalation when it failed, whose answer is the error returned and which calls
`OnError` once when the hooks have it.  Path by path: where the driver
primitive is reached (context-aware, or legacy with convertible arguments) the
calls are `Before`, that primitive, and then `After` when the driver answered
no error or `OnError` (for hooks that have it) when it answered one; where the
wrapper fails the step itself (a named argument on the connection-level legacy
path, or a connection without the primitive) they are `Before` and then
`OnError` (for hooks that have it). -/
theorem ordered_calls (hooks : Hooks) (dconn : DriverConn) (dstmt : DriverStmt)
    (tr : Trace) (ctx : Context) (query : String) (args : List NamedValue) (ctx1 : Context)
    (veto : Option Error)
    (hB : hooks.Before tr ctx query (namedValueToInterface args) = (ctx1, veto)) :
    ((veto ≠ none → (Conn.ExecContext ⟨dconn, hooks⟩ tr ctx query args).2 = tr ++ [Event.Before ctx query (namedValueToInterface args)]) ∧
        (veto = none →
          ((∃ r, (Conn.execContext ⟨dconn, hooks⟩ (tr ++ [Event.Before ctx query (namedValueToInterface args)]) ctx1 query args).1 = (r, none)) ∨
              ∃ r e, (Conn.execContext ⟨dconn, hooks⟩ (tr ++ [Event.Before ctx query (namedValueToInterface args)]) ctx1 query args).1 = (r, some e)) ∧
          ∃ evs : List Event, evs.length ≤ 1 ∧ (∀ ev ∈ evs, ev.isDriverCall = true) ∧
            (∀ r, (Conn.execContext ⟨dconn, hooks⟩ (tr ++ [Event.Before ctx query (namedValueToInterface args)]) ctx1 query args).1 = (r, none) →
              evs.length = 1 ∧
              (Conn.ExecContext ⟨dconn, hooks⟩ tr ctx query args).2 =
                tr ++ Event.Before ctx query (namedValueToInterface args) :: evs ++
                  [Event.After ctx1 query (namedValueToInterface args)]) ∧
            (∀ r e, (Conn.execContext ⟨dconn, hooks⟩ (tr ++ [Event.Before ctx query (namedValueToInterface args)]) ctx1 query args).1 = (r, some e) →
              Conn.ExecContext ⟨dconn, hooks⟩ tr ctx query args =
                ((r, (handlerError (tr ++ Event.Before ctx query (namedValueToInterface args) :: evs) ctx1 hooks e query (namedValueToInterface args)).1),
                  (handlerError (tr ++ Event.Before ctx query (namedValueToInterface args) :: evs) ctx1 hooks e query (namedValueToInterface args)).2) ∧
              (Conn.ExecContext ⟨dconn, hooks⟩ tr ctx query args).2 =
                tr ++ Event.Before ctx query (namedValueToInterface args) :: evs ++
                  (match hooks.OnError with
                    | some _ => [Event.OnError ctx1 e query (namedValueToInterface args)]
                    | none => [])))) ∧
      ((veto ≠ none → (ExecerContext.ExecContext ⟨⟨dconn, hooks⟩⟩ tr ctx query args).2 = tr ++ [Event.Before ctx query (namedValueToInterface args)]) ∧
        (veto = none →
          ((∃ r, (ExecerContext.execContext ⟨⟨dconn, hooks⟩⟩ (tr ++ [Event.Before ctx query (namedValueToInterface args)]) ctx1 query args).1 = (r, none)) ∨
              ∃ r e, (ExecerContext.execContext ⟨⟨dconn, hooks⟩⟩ (tr ++ [Event.Before ctx query (namedValueToInterface args)]) ctx1 query args).1 = (r, some e)) ∧
          ∃ evs : List Event, evs.length ≤ 1 ∧ (∀ ev ∈ evs, ev.isDriverCall = true) ∧
            (∀ r, (ExecerContext.execContext ⟨⟨dconn, hooks⟩⟩ (tr ++ [Event.Before ctx query (namedValueToInterface args)]) ctx1 query args).1 = (r, none) →
              evs.length = 1 ∧
              (ExecerContext.ExecContext ⟨⟨dconn, hooks⟩⟩ tr ctx query args).2 =
                tr ++ Event.Before ctx query (namedValueToInterface args) :: evs ++
                  [Event.After ctx1 query (namedValueToInterface args)]) ∧
            (∀ r e, (ExecerContext.execContext ⟨⟨dconn, hooks⟩⟩ (tr ++ [Event.Before ctx query (namedValueToInterface args)]) ctx1 query args).1 = (r, some e) →
              ExecerContext.ExecContext ⟨⟨dconn, hooks⟩⟩ tr ctx query args =
                ((r, (handlerError (tr ++ Event.Before ctx query (namedValueToInterface args) :: evs) ctx1 hooks e query (namedValueToInterface args)).1),
                  (handlerError (tr ++ Event.Before ctx query (namedValueToInterface args) :: evs) ctx1 hooks e query (namedValueToInterface args)).2) ∧
              (ExecerContext.ExecContext ⟨⟨dconn, hooks⟩⟩ tr ctx query args).2 =
                tr ++ Event.Before ctx query (namedValueToInterface args) :: evs ++
                  (match hooks.OnError with
                    | some _ => [Event.OnError ctx1 e query (namedValueToInterface args)]
                    | none => [])))) ∧
      ((veto ≠ none → (QueryerContext.QueryContext ⟨⟨dconn, hooks⟩⟩ tr ctx query args).2 = tr ++ [Event.Before ctx query (namedValueToInterface args)]) ∧
        (veto = none →
          ((∃ r, (QueryerContext.queryContext ⟨⟨dconn, hooks⟩⟩ (tr ++ [Event.Before ctx query (namedValueToInterface args)]) ctx1 query args).1 = (r, none)) ∨
              ∃ r e, (QueryerContext.queryContext ⟨⟨dconn, hooks⟩⟩ (tr ++ [Event.Before ctx query (namedValueToInterface args)]) ctx1 query args).1 = (r, some e)) ∧
          ∃ evs : List Event, evs.length ≤ 1 ∧ (∀ ev ∈ evs, ev.isDriverCall = true) ∧
            (∀ r, (QueryerContext.queryContext ⟨⟨dconn, hooks⟩⟩ (tr ++ [Event.Before ctx query (namedValueToInterface args)]) ctx1 query args).1 = (r, none) →
              evs.length = 1 ∧
              (QueryerContext.QueryContext ⟨⟨dconn, hooks⟩⟩ tr ctx query args).2 =
                tr ++ Event.Before ctx query (namedValueToInterface args) :: evs ++
                  [Event.After ctx1 query (namedValueToInterface args)]) ∧
            (∀ r e, (QueryerContext.queryContext ⟨⟨dconn, hooks⟩⟩ (tr ++ [Event.Before ctx query (namedValueToInterface args)]) ctx1 query args).1 = (r, some e) →
              QueryerContext.QueryContext ⟨⟨dconn, hooks⟩⟩ tr ctx query args =
                ((r, (handlerError (tr ++ Event.Before ctx query (namedValueToInterface args) :: evs) ctx1 hooks e query (namedValueToInterface args)).1),
                  (handlerError (tr ++ Event.Before ctx query (namedValueToInterface args) :: evs) ctx1 hooks e query (namedValueToInterface args)).2) ∧
              (QueryerContext.QueryContext ⟨⟨dconn, hooks⟩⟩ tr ctx query args).2 =
                tr ++ Event.Before ctx query (namedValueToInterface args) :: evs ++
                  (match hooks.OnError with
                    | some _ => [Event.OnError ctx1 e query (namedValueToInterface args)]
                    | none => [])))) ∧
      ((veto ≠ none → (Stmt.ExecContext ⟨dstmt, hooks, query⟩ tr ctx args).2 = tr ++ [Event.Before ctx query (namedValueToInterface args)]) ∧
        (veto = none →
          (((Stmt.execContext ⟨dstmt, hooks, query⟩ (tr ++ [Event.Before ctx query (namedValueToInterface args)]) ctx1 args).1 ≠ none ↔
              dstmt.StmtExecContext.isSome = true ∨
                ∀ a ∈ args, 1 ≤ a.Ordinal ∧ a.Ordinal ≤ (args.length : Int)) ∧
            ((Stmt.execContext ⟨dstmt, hooks, query⟩ (tr ++ [Event.Before ctx query (namedValueToInterface args)]) ctx1 args).1 ≠ none →
              (∃ r, (Stmt.execContext ⟨dstmt, hooks, query⟩ (tr ++ [Event.Before ctx query (namedValueToInterface args)]) ctx1 args).1 = some (r, none)) ∨
                ∃ r e, (Stmt.execContext ⟨dstmt, hooks, query⟩ (tr ++ [Event.Before ctx query (namedValueToInterface args)]) ctx1 args).1 = some (r, some e))) ∧
          ∃ evs : List Event, evs.length ≤ 1 ∧ (∀ ev ∈ evs, ev.isDriverCall = true) ∧
            (∀ r, (Stmt.execContext ⟨dstmt, hooks, query⟩ (tr ++ [Event.Before ctx query (namedValueToInterface args)]) ctx1 args).1 = some (r, none) →
              evs.length = 1 ∧
              (Stmt.ExecContext ⟨dstmt, hooks, query⟩ tr ctx args).2 =
                tr ++ Event.Before ctx query (namedValueToInterface args) :: evs ++
                  [Event.After ctx1 query (namedValueToInterface args)]) ∧
            (∀ r e, (Stmt.execContext ⟨dstmt, hooks, query⟩ (tr ++ [Event.Before ctx query (namedValueToInterface args)]) ctx1 args).1 = some (r, some e) →
              Stmt.ExecContext ⟨dstmt, hooks, query⟩ tr ctx args =
                (some (r, (handlerError (tr ++ Event.Before ctx query (namedValueToInterface args) :: evs) ctx1 hooks e query (namedValueToInterface args)).1),
                  (handlerError (tr ++ Event.Before ctx query (namedValueToInterface args) :: evs) ctx1 hooks e query (namedValueToInterface args)).2) ∧
              (Stmt.ExecContext ⟨dstmt, hooks, query⟩ tr ctx args).2 =
                tr ++ Event.Before ctx query (namedValueToInterface args) :: evs ++
                  (match hooks.OnError with
                    | some _ => [Event.OnError ctx1 e query (namedValueToInterface args)]
                    | none => [])))) ∧
      ((veto ≠ none → (Stmt.QueryContext ⟨dstmt, hooks, query⟩ tr ctx args).2 = tr ++ [Event.Before ctx query (namedValueToInterface args)]) ∧
        (veto = none →
          (((Stmt.queryContext ⟨dstmt, hooks, query⟩ (tr ++ [Event.Before ctx query (namedValueToInterface args)]) ctx1 args).1 ≠ none ↔
              dstmt.StmtQueryContext.isSome = true ∨
                ∀ a ∈ args, 1 ≤ a.Ordinal ∧ a.Ordinal ≤ (args.length : Int)) ∧
            ((Stmt.queryContext ⟨dstmt, hooks, query⟩ (tr ++ [Event.Before ctx query (namedValueToInterface args)]) ctx1 args).1 ≠ none →
              (∃ r, (Stmt.queryContext ⟨dstmt, hooks, query⟩ (tr ++ [Event.Before ctx query (namedValueToInterface args)]) ctx1 args).1 = some (r, none)) ∨
                ∃ r e, (Stmt.queryContext ⟨dstmt, hooks, query⟩ (tr ++ [Event.Before ctx query (namedValueToInterface args)]) ctx1 args).1 = some (r, some e))) ∧
          ∃ evs : List Event, evs.length ≤ 1 ∧ (∀ ev ∈ evs, ev.isDriverCall = true) ∧
            (∀ r, (Stmt.queryContext ⟨dstmt, hooks, query⟩ (tr ++ [Event.Before ctx query (namedValueToInterface args)]) ctx1 args).1 = some (r, none) →
              evs.length = 1 ∧
              (Stmt.QueryContext ⟨dstmt, hooks, query⟩ tr ctx args).2 =
                tr ++ Event.Before ctx query (namedValueToInterface args) :: evs ++
                  [Event.After ctx1 query (namedValueToInterface args)]) ∧
            (∀ r e, (Stmt.queryContext ⟨dstmt, hooks, query⟩ (tr ++ [Event.Before ctx query (namedValueToInterface args)]) ctx1 args).1 = some (r, some e) →
              Stmt.QueryContext ⟨dstmt, hooks, query⟩ tr ctx args =
                (some (r, (handlerError (tr ++ Event.Before ctx query (namedValueToInterface args) :: evs) ctx1 hooks e query (namedValueToInterface args)).1),
                  (handlerError (tr ++ Event.Before ctx query (namedValueToInterface args) :: evs) ctx1 hooks e query (namedValueToInterface args)).2) ∧
              (Stmt.QueryContext ⟨dstmt, hooks, query⟩ tr ctx args).2 =
                tr ++ Event.Before ctx query (namedValueToInterface args) :: evs ++
                  (match hooks.OnError with
                    | some _ => [Event.OnError ctx1 e query (namedValueToInterface args)]
                    | none => [])))) ∧
      (veto = none →
        (∀ f (r : Option Result) (oe : Option Error), dconn.ExecerContext = some f →
        f (tr ++ [Event.Before ctx query (namedValueToInterface args)]) ctx1 query args = (r, oe) →
        (Conn.ExecContext ⟨dconn, hooks⟩ tr ctx query args).2 =
          tr ++ [Event.Before ctx query (namedValueToInterface args),
            Event.ConnExecContext ctx1 query args] ++
            (match oe with
            | none => [Event.After ctx1 query (namedValueToInterface args)]
            | some e =>
              (match hooks.OnError with
              | some _ => [Event.OnError ctx1 e query (namedValueToInterface args)]
              | none => []))) ∧
        (∀ g (r : Option Result) (oe : Option Error), dconn.ExecerContext = none →
          dconn.Execer = some g →
          (∀ n ∈ args, n.Name = "") →
        g (tr ++ [Event.Before ctx query (namedValueToInterface args)]) query (args.map (fun n => n.Value)) = (r, oe) →
        (Conn.ExecContext ⟨dconn, hooks⟩ tr ctx query args).2 =
          tr ++ [Event.Before ctx query (namedValueToInterface args),
            Event.ConnExec query (args.map (fun n => n.Value))] ++
            (match oe with
            | none => [Event.After ctx1 query (namedValueToInterface args)]
            | some e =>
              (match hooks.OnError with
              | some _ => [Event.OnError ctx1 e query (namedValueToInterface args)]
              | none => []))) ∧
        (∀ f (r : Option Result) (oe : Option Error), dconn.ExecerContext = some f →
        f (tr ++ [Event.Before ctx query (namedValueToInterface args)]) ctx1 query args = (r, oe) →
        (ExecerContext.ExecContext ⟨⟨dconn, hooks⟩⟩ tr ctx query args).2 =
          tr ++ [Event.Before ctx query (namedValueToInterface args),
            Event.ConnExecContext ctx1 query args] ++
            (match oe with
            | none => [Event.After ctx1 query (namedValueToInterface args)]
            | some e =>
              (match hooks.OnError with
              | some _ => [Event.OnError ctx1 e query (namedValueToInterface args)]
              | none => []))) ∧
        (∀ g (r : Option Result) (oe : Option Error), dconn.ExecerContext = none →
          dconn.Execer = some g →
          (∀ n ∈ args, n.Name = "") →
        g (tr ++ [Event.Before ctx query (namedValueToInterface args)]) query (args.map (fun n => n.Value)) = (r, oe) →
        (ExecerContext.ExecContext ⟨⟨dconn, hooks⟩⟩ tr ctx query args).2 =
          tr ++ [Event.Before ctx query (namedValueToInterface args),
            Event.ConnExec query (args.map (fun n => n.Value))] ++
            (match oe with
            | none => [Event.After ctx1 query (namedValueToInterface args)]
            | some e =>
              (match hooks.OnError with
              | some _ => [Event.OnError ctx1 e query (namedValueToInterface args)]
              | none => []))) ∧
        (∀ f (r : Option Rows) (oe : Option Error), dconn.QueryerContext = some f →
        f (tr ++ [Event.Before ctx query (namedValueToInterface args)]) ctx1 query args = (r, oe) →
        (QueryerContext.QueryContext ⟨⟨dconn, hooks⟩⟩ tr ctx query args).2 =
          tr ++ [Event.Before ctx query (namedValueToInterface args),
            Event.ConnQueryContext ctx1 query args] ++
            (match oe with
            | none => [Event.After ctx1 query (namedValueToInterface args)]
            | some e =>
              (match hooks.OnError with
              | some _ => [Event.OnError ctx1 e query (namedValueToInterface args)]
              | none => []))) ∧
        (∀ g (r : Option Rows) (oe : Option Error), dconn.QueryerContext = none →
          dconn.Queryer = some g →
          (∀ n ∈ args, n.Name = "") →
        g (tr ++ [Event.Before ctx query (namedValueToInterface args)]) query (args.map (fun n => n.Value)) = (r, oe) →
        (QueryerContext.QueryContext ⟨⟨dconn, hooks⟩⟩ tr ctx query args).2 =
          tr ++ [Event.Before ctx query (namedValueToInterface args),
            Event.ConnQuery query (args.map (fun n => n.Value))] ++
            (match oe with
            | none => [Event.After ctx1 query (namedValueToInterface args)]
            | some e =>
              (match hooks.OnError with
              | some _ => [Event.OnError ctx1 e query (namedValueToInterface args)]
              | none => []))) ∧
        (∀ f (r : Option Result) (oe : Option Error), dstmt.StmtExecContext = some f →
        f (tr ++ [Event.Before ctx query (namedValueToInterface args)]) ctx1 args = (r, oe) →
        (Stmt.ExecContext ⟨dstmt, hooks, query⟩ tr ctx args).2 =
          tr ++ [Event.Before ctx query (namedValueToInterface args),
            Event.StmtExecContext ctx1 args] ++
            (match oe with
            | none => [Event.After ctx1 query (namedValueToInterface args)]
            | some e =>
              (match hooks.OnError with
              | some _ => [Event.OnError ctx1 e query (namedValueToInterface args)]
              | none => []))) ∧
        (∀ values (r : Option Result) (oe : Option Error), dstmt.StmtExecContext = none →
          ordinalLoop (List.replicate args.length Value.nil) args = some values →
        dstmt.Exec (tr ++ [Event.Before ctx query (namedValueToInterface args)]) values = (r, oe) →
        (Stmt.ExecContext ⟨dstmt, hooks, query⟩ tr ctx args).2 =
          tr ++ [Event.Before ctx query (namedValueToInterface args),
            Event.StmtExec values] ++
            (match oe with
            | none => [Event.After ctx1 query (namedValueToInterface args)]
            | some e =>
              (match hooks.OnError with
              | some _ => [Event.OnError ctx1 e query (namedValueToInterface args)]
              | none => []))) ∧
        (∀ f (r : Option Rows) (oe : Option Error), dstmt.StmtQueryContext = some f →
        f (tr ++ [Event.Before ctx query (namedValueToInterface args)]) ctx1 args = (r, oe) →
        (Stmt.QueryContext ⟨dstmt, hooks, query⟩ tr ctx args).2 =
          tr ++ [Event.Before ctx query (namedValueToInterface args),
            Event.StmtQueryContext ctx1 args] ++
            (match oe with
            | none => [Event.After ctx1 query (namedValueToInterface args)]
            | some e =>
              (match hooks.OnError with
              | some _ => [Event.OnError ctx1 e query (namedValueToInterface args)]
              | none => []))) ∧
        (∀ values (r : Option Rows) (oe : Option Error), dstmt.StmtQueryContext = none →
          ordinalLoop (List.replicate args.length Value.nil) args = some values →
        dstmt.Query (tr ++ [Event.Before ctx query (namedValueToInterface args)]) values = (r, oe) →
        (Stmt.QueryContext ⟨dstmt, hooks, query⟩ tr ctx args).2 =
          tr ++ [Event.Before ctx query (namedValueToInterface args),
            Event.StmtQuery values] ++
            (match oe with
            | none => [Event.After ctx1 query (namedValueToInterface args)]
            | some e =>
              (match hooks.OnError with
              | some _ => [Event.OnError ctx1 e query (namedValueToInterface args)]
              | none => []))) ∧
        (dconn.ExecerContext = none → dconn.Execer.isSome = true → (∃ n ∈ args, n.Name ≠ "") →
        (Conn.ExecContext ⟨dconn, hooks⟩ tr ctx query args).2 =
          tr ++ [Event.Before ctx query (namedValueToInterface args)] ++
            (match hooks.OnError with
              | some _ => [Event.OnError ctx1 errNamedParameter query (namedValueToInterface args)]
              | none => [])) ∧
        (dconn.ExecerContext = none → dconn.Execer = none →
        (Conn.ExecContext ⟨dconn, hooks⟩ tr ctx query args).2 =
          tr ++ [Event.Before ctx query (namedValueToInterface args)] ++
            (match hooks.OnError with
              | some _ => [Event.OnError ctx1 errExecContext query (namedValueToInterface args)]
              | none => [])) ∧
        (dconn.ExecerContext = none → dconn.Execer.isSome = true → (∃ n ∈ args, n.Name ≠ "") →
        (ExecerContext.ExecContext ⟨⟨dconn, hooks⟩⟩ tr ctx query args).2 =
          tr ++ [Event.Before ctx query (namedValueToInterface args)] ++
            (match hooks.OnError with
              | some _ => [Event.OnError ctx1 errNamedParameter query (namedValueToInterface args)]
              | none => [])) ∧
        (dconn.ExecerContext = none → dconn.Execer = none →
        (ExecerContext.ExecContext ⟨⟨dconn, hooks⟩⟩ tr ctx query args).2 =
          tr ++ [Event.Before ctx query (namedValueToInterface args)] ++
            (match hooks.OnError with
              | some _ => [Event.OnError ctx1 errExecContext query (namedValueToInterface args)]
              | none => [])) ∧
        (dconn.QueryerContext = none → dconn.Queryer.isSome = true → (∃ n ∈ args, n.Name ≠ "") →
        (QueryerContext.QueryContext ⟨⟨dconn, hooks⟩⟩ tr ctx query args).2 =
          tr ++ [Event.Before ctx query (namedValueToInterface args)] ++
            (match hooks.OnError with
              | some _ => [Event.OnError ctx1 errNamedParameter query (namedValueToInterface args)]
              | none => [])) ∧
        (dconn.QueryerContext = none → dconn.Queryer = none →
        (QueryerContext.QueryContext ⟨⟨dconn, hooks⟩⟩ tr ctx query args).2 =
          tr ++ [Event.Before ctx query (namedValueToInterface args)] ++
            (match hooks.OnError with
              | some _ => [Event.OnError ctx1 errQueryContext query (namedValueToInterface args)]
              | none => []))) := by
  refine ⟨?_, ?_, ?_, ?_, ?_, fun hveto => ?_⟩
  · cases veto with
    | some e => exact ⟨fun _ => by simp only [Conn.ExecContext, hB], fun h => by simp at h⟩
    | none =>
      refine ⟨fun h => absurd rfl h, fun _ => ?_⟩
      refine ⟨?_, ?_⟩
      · rcases hd : (Conn.execContext ⟨dconn, hooks⟩ (tr ++ [Event.Before ctx query (namedValueToInterface args)]) ctx1 query args).1 with ⟨r, _ | e⟩
        · exact Or.inl ⟨r, rfl⟩
        · exact Or.inr ⟨r, e, rfl⟩
      obtain ⟨evs, hl, hev, htr, hfail⟩ := conn_execContext_trace ⟨dconn, hooks⟩ (tr ++ [Event.Before ctx query (namedValueToInterface args)]) ctx1 query args
      refine ⟨evs, hl, fun ev h => (hev ev h).1, ?_, ?_⟩
      · intro r hd
        refine ⟨?_, by simp only [Conn.ExecContext, hB, hd, htr]; split <;> simp⟩
        rcases evs with _ | ⟨a, _ | ⟨b, t⟩⟩
        · exact absurd (hfail rfl) (by simp [hd])
        · rfl
        · simp at hl
      · intro r e hd
        have htr2 : (Conn.execContext ⟨dconn, hooks⟩ (tr ++ [Event.Before ctx query (namedValueToInterface args)]) ctx1 query args).2 =
            tr ++ Event.Before ctx query (namedValueToInterface args) :: evs := by
          rw [htr]
          simp
        refine ⟨by simp only [Conn.ExecContext, hB, hd, htr2], ?_⟩
        cases hE : hooks.OnError with
        | none => simp [Conn.ExecContext, hB, hd, htr, handlerError, hE]
        | some f =>
          cases hf : f (tr ++ Event.Before ctx query (namedValueToInterface args) :: evs) ctx1 e query (namedValueToInterface args) <;>
            simp [Conn.ExecContext, hB, hd, htr, handlerError, hE, hf]
  · cases veto with
    | some e => exact ⟨fun _ => by simp only [ExecerContext.ExecContext, hB], fun h => by simp at h⟩
    | none =>
      refine ⟨fun h => absurd rfl h, fun _ => ?_⟩
      refine ⟨?_, ?_⟩
      · rcases hd : (ExecerContext.execContext ⟨⟨dconn, hooks⟩⟩ (tr ++ [Event.Before ctx query (namedValueToInterface args)]) ctx1 query args).1 with ⟨r, _ | e⟩
        · exact Or.inl ⟨r, rfl⟩
        · exact Or.inr ⟨r, e, rfl⟩
      obtain ⟨evs, hl, hev, htr, hfail⟩ := conn_execContext_trace ⟨dconn, hooks⟩ (tr ++ [Event.Before ctx query (namedValueToInterface args)]) ctx1 query args
      refine ⟨evs, hl, fun ev h => (hev ev h).1, ?_, ?_⟩
      · intro r hd
        simp only [ec_execContext_eq] at hd
        refine ⟨?_, by simp only [ExecerContext.ExecContext, ec_execContext_eq, hB, hd, htr]; split <;> simp⟩
        rcases evs with _ | ⟨a, _ | ⟨b, t⟩⟩
        · exact absurd (hfail rfl) (by simp [hd])
        · rfl
        · simp at hl
      · intro r e hd
        simp only [ec_execContext_eq] at hd
        have htr2 : (Conn.execContext ⟨dconn, hooks⟩ (tr ++ [Event.Before ctx query (namedValueToInterface args)]) ctx1 query args).2 =
            tr ++ Event.Before ctx query (namedValueToInterface args) :: evs := by
          rw [htr]
          simp
        refine ⟨by simp only [ExecerContext.ExecContext, ec_execContext_eq, hB, hd, htr2], ?_⟩
        cases hE : hooks.OnError with
        | none => simp [ExecerContext.ExecContext, ec_execContext_eq, hB, hd, htr, handlerError, hE]
        | some f =>
          cases hf : f (tr ++ Event.Before ctx query (namedValueToInterface args) :: evs) ctx1 e query (namedValueToInterface args) <;>
            simp [ExecerContext.ExecContext, ec_execContext_eq, hB, hd, htr, handlerError, hE, hf]
  · cases veto with
    | some e => exact ⟨fun _ => by simp only [QueryerContext.QueryContext, hB], fun h => by simp at h⟩
    | none =>
      refine ⟨fun h => absurd rfl h, fun _ => ?_⟩
      refine ⟨?_, ?_⟩
      · rcases hd : (QueryerContext.queryContext ⟨⟨dconn, hooks⟩⟩ (tr ++ [Event.Before ctx query (namedValueToInterface args)]) ctx1 query args).1 with ⟨r, _ | e⟩
        · exact Or.inl ⟨r, rfl⟩
        · exact Or.inr ⟨r, e, rfl⟩
      obtain ⟨evs, hl, hev, htr, hfail⟩ := qc_queryContext_trace ⟨⟨dconn, hooks⟩⟩ (tr ++ [Event.Before ctx query (namedValueToInterface args)]) ctx1 query args
      refine ⟨evs, hl, fun ev h => (hev ev h).1, ?_, ?_⟩
      · intro r hd
        refine ⟨?_, by simp only [QueryerContext.QueryContext, hB, hd, htr]; split <;> simp⟩
        rcases evs with _ | ⟨a, _ | ⟨b, t⟩⟩
        · exact absurd (hfail rfl) (by simp [hd])
        · rfl
        · simp at hl
      · intro r e hd
        have htr2 : (QueryerContext.queryContext ⟨⟨dconn, hooks⟩⟩ (tr ++ [Event.Before ctx query (namedValueToInterface args)]) ctx1 query args).2 =
            tr ++ Event.Before ctx query (namedValueToInterface args) :: evs := by
          rw [htr]
          simp
        refine ⟨by simp only [QueryerContext.QueryContext, hB, hd, htr2], ?_⟩
        cases hE : hooks.OnError with
        | none => simp [QueryerContext.QueryContext, hB, hd, htr, handlerError, hE]
        | some f =>
          cases hf : f (tr ++ Event.Before ctx query (namedValueToInterface args) :: evs) ctx1 e query (namedValueToInterface args) <;>
            simp [QueryerContext.QueryContext, hB, hd, htr, handlerError, hE, hf]
  · cases veto with
    | some e => exact ⟨fun _ => by simp only [Stmt.ExecContext, hB], fun h => by simp at h⟩
    | none =>
      refine ⟨fun h => absurd rfl h, fun _ => ?_⟩
      refine ⟨⟨?_, ?_⟩, ?_⟩
      · cases hcap : dstmt.StmtExecContext with
        | some f => simp [Stmt.execContext, hcap]
        | none =>
          have hiff := ordinalLoop_isSome_iff args (List.replicate args.length Value.nil)
          simp only [List.length_replicate] at hiff
          rw [← hiff]
          cases hl : ordinalLoop (List.replicate args.length Value.nil) args <;>
            simp [Stmt.execContext, hcap, hl]
      · intro hne
        rcases hd : (Stmt.execContext ⟨dstmt, hooks, query⟩ (tr ++ [Event.Before ctx query (namedValueToInterface args)]) ctx1 args).1 with _ | ⟨r, _ | e⟩
        · exact absurd hd hne
        · exact Or.inl ⟨r, rfl⟩
        · exact Or.inr ⟨r, e, rfl⟩
      obtain ⟨evs, hl, hev, htr, hfail⟩ := stmt_execContext_trace ⟨dstmt, hooks, query⟩ (tr ++ [Event.Before ctx query (namedValueToInterface args)]) ctx1 args
      refine ⟨evs, hl, fun ev h => (hev ev h).1, ?_, ?_⟩
      · intro r hd
        refine ⟨?_, by simp only [Stmt.ExecContext, hB, hd, htr]; split <;> simp⟩
        rcases evs with _ | ⟨a, _ | ⟨b, t⟩⟩
        · exact absurd (hfail rfl) (by simp [hd])
        · rfl
        · simp at hl
      · intro r e hd
        have htr2 : (Stmt.execContext ⟨dstmt, hooks, query⟩ (tr ++ [Event.Before ctx query (namedValueToInterface args)]) ctx1 args).2 =
            tr ++ Event.Before ctx query (namedValueToInterface args) :: evs := by
          rw [htr]
          simp
        refine ⟨by simp only [Stmt.ExecContext, hB, hd, htr2], ?_⟩
        cases hE : hooks.OnError with
        | none => simp [Stmt.ExecContext, hB, hd, htr, handlerError, hE]
        | some f =>
          cases hf : f (tr ++ Event.Before ctx query (namedValueToInterface args) :: evs) ctx1 e query (namedValueToInterface args) <;>
            simp [Stmt.ExecContext, hB, hd, htr, handlerError, hE, hf]
  · cases veto with
    | some e => exact ⟨fun _ => by simp only [Stmt.QueryContext, hB], fun h => by simp at h⟩
    | none =>
      refine ⟨fun h => absurd rfl h, fun _ => ?_⟩
      refine ⟨⟨?_, ?_⟩, ?_⟩
      · cases hcap : dstmt.StmtQueryContext with
        | some f => simp [Stmt.queryContext, hcap]
        | none =>
          have hiff := ordinalLoop_isSome_iff args (List.replicate args.length Value.nil)
          simp only [List.length_replicate] at hiff
          rw [← hiff]
          cases hl : ordinalLoop (List.replicate args.length Value.nil) args <;>
            simp [Stmt.queryContext, hcap, hl]
      · intro hne
        rcases hd : (Stmt.queryContext ⟨dstmt, hooks, query⟩ (tr ++ [Event.Before ctx query (namedValueToInterface args)]) ctx1 args).1 with _ | ⟨r, _ | e⟩
        · exact absurd hd hne
        · exact Or.inl ⟨r, rfl⟩
        · exact Or.inr ⟨r, e, rfl⟩
      obtain ⟨evs, hl, hev, htr, hfail⟩ := stmt_queryContext_trace ⟨dstmt, hooks, query⟩ (tr ++ [Event.Before ctx query (namedValueToInterface args)]) ctx1 args
      refine ⟨evs, hl, fun ev h => (hev ev h).1, ?_, ?_⟩
      · intro r hd
        refine ⟨?_, by simp only [Stmt.QueryContext, hB, hd, htr]; split <;> simp⟩
        rcases evs with _ | ⟨a, _ | ⟨b, t⟩⟩
        · exact absurd (hfail rfl) (by simp [hd])
        · rfl
        · simp at hl
      · intro r e hd
        have htr2 : (Stmt.queryContext ⟨dstmt, hooks, query⟩ (tr ++ [Event.Before ctx query (namedValueToInterface args)]) ctx1 args).2 =
            tr ++ Event.Before ctx query (namedValueToInterface args) :: evs := by
          rw [htr]
          simp
        refine ⟨by simp only [Stmt.QueryContext, hB, hd, htr2], ?_⟩
        cases hE : hooks.OnError with
        | none => simp [Stmt.QueryContext, hB, hd, htr, handlerError, hE]
        | some f =>
          cases hf : f (tr ++ Event.Before ctx query (namedValueToInterface args) :: evs) ctx1 e query (namedValueToInterface args) <;>
            simp [Stmt.QueryContext, hB, hd, htr, handlerError, hE, hf]
  · subst hveto
    have hB0 := hB
    refine ⟨?_, ?_, ?_, ?_, ?_, ?_, ?_, ?_, ?_, ?_, ?_, ?_, ?_, ?_, ?_, ?_⟩
    · intro f r oe hf hdrv
      have hstep := conn_execContext_of_ctx ⟨dconn, hooks⟩ (tr ++ [Event.Before ctx query (namedValueToInterface args)]) ctx1 query args f hf
      rw [hdrv] at hstep
      have hs := conn_ExecContext_shape ⟨dconn, hooks⟩ tr ctx query args ctx1 hB0
      rw [hs, hstep]
      cases oe <;> cases hO : hooks.OnError <;> simp [closingCalls, hO]
    · intro g r oe hc hg hU hdrv
      have hstep := conn_execContext_of_legacy ⟨dconn, hooks⟩ (tr ++ [Event.Before ctx query (namedValueToInterface args)]) ctx1 query args g hc hg hU
      rw [hdrv] at hstep
      have hs := conn_ExecContext_shape ⟨dconn, hooks⟩ tr ctx query args ctx1 hB0
      rw [hs, hstep]
      cases oe <;> cases hO : hooks.OnError <;> simp [closingCalls, hO]
    · intro f r oe hf hdrv
      have hstep := conn_execContext_of_ctx ⟨dconn, hooks⟩ (tr ++ [Event.Before ctx query (namedValueToInterface args)]) ctx1 query args f hf
      rw [hdrv] at hstep
      have hs := ec_ExecContext_shape ⟨⟨dconn, hooks⟩⟩ tr ctx query args ctx1 hB0
      simp only [ec_execContext_eq] at hs
      rw [hs, hstep]
      cases oe <;> cases hO : hooks.OnError <;> simp [closingCalls, hO]
    · intro g r oe hc hg hU hdrv
      have hstep := conn_execContext_of_legacy ⟨dconn, hooks⟩ (tr ++ [Event.Before ctx query (namedValueToInterface args)]) ctx1 query args g hc hg hU
      rw [hdrv] at hstep
      have hs := ec_ExecContext_shape ⟨⟨dconn, hooks⟩⟩ tr ctx query args ctx1 hB0
      simp only [ec_execContext_eq] at hs
      rw [hs, hstep]
      cases oe <;> cases hO : hooks.OnError <;> simp [closingCalls, hO]
    · intro f r oe hf hdrv
      have hstep := qc_queryContext_of_ctx ⟨⟨dconn, hooks⟩⟩ (tr ++ [Event.Before ctx query (namedValueToInterface args)]) ctx1 query args f hf
      rw [hdrv] at hstep
      have hs := qc_QueryContext_shape ⟨⟨dconn, hooks⟩⟩ tr ctx query args ctx1 hB0
      rw [hs, hstep]
      cases oe <;> cases hO : hooks.OnError <;> simp [closingCalls, hO]
    · intro g r oe hc hg hU hdrv
      have hstep := qc_queryContext_of_legacy ⟨⟨dconn, hooks⟩⟩ (tr ++ [Event.Before ctx query (namedValueToInterface args)]) ctx1 query args g hc hg hU
      rw [hdrv] at hstep
      have hs := qc_QueryContext_shape ⟨⟨dconn, hooks⟩⟩ tr ctx query args ctx1 hB0
      rw [hs, hstep]
      cases oe <;> cases hO : hooks.OnError <;> simp [closingCalls, hO]
    · intro f r oe hf hdrv
      have hstep := stmt_execContext_of_ctx ⟨dstmt, hooks, query⟩ (tr ++ [Event.Before ctx query (namedValueToInterface args)]) ctx1 args f hf
      rw [hdrv] at hstep
      have hs := stmt_ExecContext_shape ⟨dstmt, hooks, query⟩ tr ctx args ctx1 hB0
      rw [hs, hstep]
      cases oe <;> cases hO : hooks.OnError <;> simp [closingCalls, hO]
    · intro values r oe hc hv hdrv
      have hstep := stmt_execContext_of_legacy ⟨dstmt, hooks, query⟩ (tr ++ [Event.Before ctx query (namedValueToInterface args)]) ctx1 args values hc hv
      rw [hdrv] at hstep
      have hs := stmt_ExecContext_shape ⟨dstmt, hooks, query⟩ tr ctx args ctx1 hB0
      rw [hs, hstep]
      cases oe <;> cases hO : hooks.OnError <;> simp [closingCalls, hO]
    · intro f r oe hf hdrv
      have hstep := stmt_queryContext_of_ctx ⟨dstmt, hooks, query⟩ (tr ++ [Event.Before ctx query (namedValueToInterface args)]) ctx1 args f hf
      rw [hdrv] at hstep
      have hs := stmt_QueryContext_shape ⟨dstmt, hooks, query⟩ tr ctx args ctx1 hB0
      rw [hs, hstep]
      cases oe <;> cases hO : hooks.OnError <;> simp [closingCalls, hO]
    · intro values r oe hc hv hdrv
      have hstep := stmt_queryContext_of_legacy ⟨dstmt, hooks, query⟩ (tr ++ [Event.Before ctx query (namedValueToInterface args)]) ctx1 args values hc hv
      rw [hdrv] at hstep
      have hs := stmt_QueryContext_shape ⟨dstmt, hooks, query⟩ tr ctx args ctx1 hB0
      rw [hs, hstep]
      cases oe <;> cases hO : hooks.OnError <;> simp [closingCalls, hO]
    · intro hc hl hN
      have hstep := conn_execContext_named_legacy ⟨dconn, hooks⟩ (tr ++ [Event.Before ctx query (namedValueToInterface args)]) ctx1 query args hN hc hl
      have hs := conn_ExecContext_shape ⟨dconn, hooks⟩ tr ctx query args ctx1 hB0
      rw [hs, hstep]
      cases hO : hooks.OnError <;> simp [closingCalls, hO]
    · intro hc hl
      have hstep : Conn.execContext ⟨dconn, hooks⟩ (tr ++ [Event.Before ctx query (namedValueToInterface args)]) ctx1 query args =
          ((none, some errExecContext), (tr ++ [Event.Before ctx query (namedValueToInterface args)])) := by
        simp only [Conn.execContext, hc, hl]
      have hs := conn_ExecContext_shape ⟨dconn, hooks⟩ tr ctx query args ctx1 hB0
      rw [hs, hstep]
      cases hO : hooks.OnError <;> simp [closingCalls, hO]
    · intro hc hl hN
      have hstep := conn_execContext_named_legacy ⟨dconn, hooks⟩ (tr ++ [Event.Before ctx query (namedValueToInterface args)]) ctx1 query args hN hc hl
      have hs := ec_ExecContext_shape ⟨⟨dconn, hooks⟩⟩ tr ctx query args ctx1 hB0
      simp only [ec_execContext_eq] at hs
      rw [hs, hstep]
      cases hO : hooks.OnError <;> simp [closingCalls, hO]
    · intro hc hl
      have hstep : Conn.execContext ⟨dconn, hooks⟩ (tr ++ [Event.Before ctx query (namedValueToInterface args)]) ctx1 query args =
          ((none, some errExecContext), (tr ++ [Event.Before ctx query (namedValueToInterface args)])) := by
        simp only [Conn.execContext, hc, hl]
      have hs := ec_ExecContext_shape ⟨⟨dconn, hooks⟩⟩ tr ctx query args ctx1 hB0
      simp only [ec_execContext_eq] at hs
      rw [hs, hstep]
      cases hO : hooks.OnError <;> simp [closingCalls, hO]
    · intro hc hl hN
      have hstep := qc_queryContext_named_legacy ⟨⟨dconn, hooks⟩⟩ (tr ++ [Event.Before ctx query (namedValueToInterface args)]) ctx1 query args hN hc hl
      have hs := qc_QueryContext_shape ⟨⟨dconn, hooks⟩⟩ tr ctx query args ctx1 hB0
      rw [hs, hstep]
      cases hO : hooks.OnError <;> simp [closingCalls, hO]
    · intro hc hl
      have hstep : QueryerContext.queryContext ⟨⟨dconn, hooks⟩⟩ (tr ++ [Event.Before ctx query (namedValueToInterface args)]) ctx1 query args =
          ((none, some errQueryContext), (tr ++ [Event.Before ctx query (namedValueToInterface args)])) := by
        simp only [QueryerContext.queryContext, hc, hl]
      have hs := qc_QueryContext_shape ⟨⟨dconn, hooks⟩⟩ tr ctx query args ctx1 hB0
      rw [hs, hstep]
      cases hO : hooks.OnError <;> simp [closingCalls, hO]

theorem ordered_calls_witness :
    (Conn.ExecContext ⟨ctxConn, vetoHooks⟩ [] 0 "SELECT 1" twoArgs).2 =
        [] ++ [Event.Before 0 "SELECT 1" (namedValueToInterface twoArgs)] ∧
      ∃ evs : List Event, evs.length = 1 ∧
        (Stmt.ExecContext ⟨legacyStmt, okHooks, "SELECT 1"⟩ [] 0 twoArgs).2 =
          [] ++ Event.Before 0 "SELECT 1" (namedValueToInterface twoArgs) :: evs ++
            [Event.After 1 "SELECT 1" (namedValueToInterface twoArgs)] := by
  refine ⟨(ordered_calls vetoHooks ctxConn ctxStmt [] 0 "SELECT 1" twoArgs 0 (some "veto")
    rfl).1.1 (by simp), ?_⟩
  obtain ⟨_, evs, _, _, hs, _⟩ :=
    (ordered_calls okHooks ctxConn legacyStmt [] 0 "SELECT 1" twoArgs 1 none rfl).2.2.2.1.2 rfl
  exact ⟨evs, hs (some 1) rfl⟩

/-- C5 as stated fails twice.  `Before` lets the operation through, yet no driver
primitive is called, because the wrapper itself fails the step on a named
argument of the legacy path.  And on the statement-level legacy path with an
ordinal out of range the step panics after `Before`: neither `After` nor the
error path runs and nothing is returned. -/
theorem named_legacy_makes_no_driver_call :
    (okHooks.Before [] 0 "SELECT 1" (namedValueToInterface namedArgs)).2 = none ∧
      (ExecerContext.ExecContext ⟨⟨legacyConn, okHooks⟩⟩ [] 0 "SELECT 1" namedArgs).2 =
        [Event.Before 0 "SELECT 1" (namedValueToInterface namedArgs)] ∧
      (ExecerContext.ExecContext ⟨⟨legacyConn, okHooks⟩⟩ [] 0 "SELECT 1" namedArgs).2.countP
        Event.isDriverCall = 0 ∧
      (okHooks.Before [] 0 "SELECT 1" (namedValueToInterface zeroOrdinalArgs)).2 = none ∧
      Stmt.ExecContext ⟨legacyStmt, okHooks, "SELECT 1"⟩ [] 0 zeroOrdinalArgs =
        (none, [Event.Before 0 "SELECT 1" (namedValueToInterface zeroOrdinalArgs)]) := by
  refine ⟨rfl, rfl, ?_, rfl, rfl⟩
  decide

/-! ## Context threading -/

/-- C6: in each of the five instrumented operations that `Before` lets through,
the context `ctx1` that `Before` returned is the context of every later call
that takes one: the caller's context `ctx` goes to `Before` only, the
context-aware driver primitive (when the underlying handle has it) is called
with `ctx1`, and so is `After` on success or `OnError` on failure. -/
theorem before_context_threaded (hooks : Hooks) (dconn : DriverConn) (dstmt : DriverStmt)
    (tr : Trace) (ctx : Context) (query : String) (args : List NamedValue) (ctx1 : Context)
    (hB : hooks.Before tr ctx query (namedValueToInterface args) = (ctx1, none)) :
    (∃ rest : List Event,
        (Conn.ExecContext ⟨dconn, hooks⟩ tr ctx query args).2 = tr ++ Event.Before ctx query (namedValueToInterface args) :: rest ∧
        (∀ ev ∈ rest, ev.context = none ∨ ev.context = some ctx1) ∧
        (dconn.ExecerContext.isSome = true → Event.ConnExecContext ctx1 query args ∈ rest) ∧
        (∀ r, (Conn.execContext ⟨dconn, hooks⟩ (tr ++ [Event.Before ctx query (namedValueToInterface args)]) ctx1 query args).1 = (r, none) →
          Event.After ctx1 query (namedValueToInterface args) ∈ rest) ∧
        (∀ r e, (Conn.execContext ⟨dconn, hooks⟩ (tr ++ [Event.Before ctx query (namedValueToInterface args)]) ctx1 query args).1 = (r, some e) →
          hooks.OnError.isSome = true →
          Event.OnError ctx1 e query (namedValueToInterface args) ∈ rest)) ∧
      (∃ rest : List Event,
        (ExecerContext.ExecContext ⟨⟨dconn, hooks⟩⟩ tr ctx query args).2 = tr ++ Event.Before ctx query (namedValueToInterface args) :: rest ∧
        (∀ ev ∈ rest, ev.context = none ∨ ev.context = some ctx1) ∧
        (dconn.ExecerContext.isSome = true → Event.ConnExecContext ctx1 query args ∈ rest) ∧
        (∀ r, (ExecerContext.execContext ⟨⟨dconn, hooks⟩⟩ (tr ++ [Event.Before ctx query (namedValueToInterface args)]) ctx1 query args).1 = (r, none) →
          Event.After ctx1 query (namedValueToInterface args) ∈ rest) ∧
        (∀ r e, (ExecerContext.execContext ⟨⟨dconn, hooks⟩⟩ (tr ++ [Event.Before ctx query (namedValueToInterface args)]) ctx1 query args).1 = (r, some e) →
          hooks.OnError.isSome = true →
          Event.OnError ctx1 e query (namedValueToInterface args) ∈ rest)) ∧
      (∃ rest : List Event,
        (QueryerContext.QueryContext ⟨⟨dconn, hooks⟩⟩ tr ctx query args).2 = tr ++ Event.Before ctx query (namedValueToInterface args) :: rest ∧
        (∀ ev ∈ rest, ev.context = none ∨ ev.context = some ctx1) ∧
        (dconn.QueryerContext.isSome = true → Event.ConnQueryContext ctx1 query args ∈ rest) ∧
        (∀ r, (QueryerContext.queryContext ⟨⟨dconn, hooks⟩⟩ (tr ++ [Event.Before ctx query (namedValueToInterface args)]) ctx1 query args).1 = (r, none) →
          Event.After ctx1 query (namedValueToInterface args) ∈ rest) ∧
        (∀ r e, (QueryerContext.queryContext ⟨⟨dconn, hooks⟩⟩ (tr ++ [Event.Before ctx query (namedValueToInterface args)]) ctx1 query args).1 = (r, some e) →
          hooks.OnError.isSome = true →
          Event.OnError ctx1 e query (namedValueToInterface args) ∈ rest)) ∧
      (∃ rest : List Event,
        (Stmt.ExecContext ⟨dstmt, hooks, query⟩ tr ctx args).2 = tr ++ Event.Before ctx query (namedValueToInterface args) :: rest ∧
        (∀ ev ∈ rest, ev.context = none ∨ ev.context = some ctx1) ∧
        (dstmt.StmtExecContext.isSome = true → Event.StmtExecContext ctx1 args ∈ rest) ∧
        (∀ r, (Stmt.execContext ⟨dstmt, hooks, query⟩ (tr ++ [Event.Before ctx query (namedValueToInterface args)]) ctx1 args).1 = some (r, none) →
          Event.After ctx1 query (namedValueToInterface args) ∈ rest) ∧
        (∀ r e, (Stmt.execContext ⟨dstmt, hooks, query⟩ (tr ++ [Event.Before ctx query (namedValueToInterface args)]) ctx1 args).1 = some (r, some e) →
          hooks.OnError.isSome = true →
          Event.OnError ctx1 e query (namedValueToInterface args) ∈ rest)) ∧
      (∃ rest : List Event,
        (Stmt.QueryContext ⟨dstmt, hooks, query⟩ tr ctx args).2 = tr ++ Event.Before ctx query (namedValueToInterface args) :: rest ∧
        (∀ ev ∈ rest, ev.context = none ∨ ev.context = some ctx1) ∧
        (dstmt.StmtQueryContext.isSome = true → Event.StmtQueryContext ctx1 args ∈ rest) ∧
        (∀ r, (Stmt.queryContext ⟨dstmt, hooks, query⟩ (tr ++ [Event.Before ctx query (namedValueToInterface args)]) ctx1 args).1 = some (r, none) →
          Event.After ctx1 query (namedValueToInterface args) ∈ rest) ∧
        (∀ r e, (Stmt.queryContext ⟨dstmt, hooks, query⟩ (tr ++ [Event.Before ctx query (namedValueToInterface args)]) ctx1 args).1 = some (r, some e) →
          hooks.OnError.isSome = true →
          Event.OnError ctx1 e query (namedValueToInterface args) ∈ rest)) := by
  refine ⟨?_, ?_, ?_, ?_, ?_⟩
  · obtain ⟨evs, _, hev, htr, _⟩ := conn_execContext_trace ⟨dconn, hooks⟩ (tr ++ [Event.Before ctx query (namedValueToInterface args)]) ctx1 query args
    have hs := conn_ExecContext_shape ⟨dconn, hooks⟩ tr ctx query args ctx1 hB
    refine ⟨evs ++ closingCalls hooks ctx1 query (namedValueToInterface args)
      (some (Conn.execContext ⟨dconn, hooks⟩ (tr ++ [Event.Before ctx query (namedValueToInterface args)]) ctx1 query args).1.2), ?_, ?_, ?_, ?_, ?_⟩
    · rw [hs, htr]
      simp
    · intro ev hmem
      rcases List.mem_append.1 hmem with h | h
      · exact (hev ev h).2
      · exact Or.inr (closingCalls_context _ _ _ _ _ ev h)
    · intro hcap
      have ha := conn_execContext_aware ⟨dconn, hooks⟩ (tr ++ [Event.Before ctx query (namedValueToInterface args)]) ctx1 query args hcap
      rw [htr] at ha
      rw [List.append_cancel_left ha]
      simp
    · intro r hd
      simp [hd, closingCalls]
    · intro r e hd hE
      cases hO : hooks.OnError with
      | none => simp [hO] at hE
      | some f => simp [hd, closingCalls, hO]
  · obtain ⟨evs, _, hev, htr, _⟩ := conn_execContext_trace ⟨dconn, hooks⟩ (tr ++ [Event.Before ctx query (namedValueToInterface args)]) ctx1 query args
    have hs := ec_ExecContext_shape ⟨⟨dconn, hooks⟩⟩ tr ctx query args ctx1 hB
    simp only [ec_execContext_eq] at hs ⊢
    refine ⟨evs ++ closingCalls hooks ctx1 query (namedValueToInterface args)
      (some (Conn.execContext ⟨dconn, hooks⟩ (tr ++ [Event.Before ctx query (namedValueToInterface args)]) ctx1 query args).1.2), ?_, ?_, ?_, ?_, ?_⟩
    · rw [hs, htr]
      simp
    · intro ev hmem
      rcases List.mem_append.1 hmem with h | h
      · exact (hev ev h).2
      · exact Or.inr (closingCalls_context _ _ _ _ _ ev h)
    · intro hcap
      have ha := conn_execContext_aware ⟨dconn, hooks⟩ (tr ++ [Event.Before ctx query (namedValueToInterface args)]) ctx1 query args hcap
      rw [htr] at ha
      rw [List.append_cancel_left ha]
      simp
    · intro r hd
      simp [hd, closingCalls]
    · intro r e hd hE
      cases hO : hooks.OnError with
      | none => simp [hO] at hE
      | some f => simp [hd, closingCalls, hO]
  · obtain ⟨evs, _, hev, htr, _⟩ := qc_queryContext_trace ⟨⟨dconn, hooks⟩⟩ (tr ++ [Event.Before ctx query (namedValueToInterface args)]) ctx1 query args
    have hs := qc_QueryContext_shape ⟨⟨dconn, hooks⟩⟩ tr ctx query args ctx1 hB
    refine ⟨evs ++ closingCalls hooks ctx1 query (namedValueToInterface args)
      (some (QueryerContext.queryContext ⟨⟨dconn, hooks⟩⟩ (tr ++ [Event.Before ctx query (namedValueToInterface args)]) ctx1 query args).1.2), ?_, ?_, ?_, ?_, ?_⟩
    · rw [hs, htr]
      simp
    · intro ev hmem
      rcases List.mem_append.1 hmem with h | h
      · exact (hev ev h).2
      · exact Or.inr (closingCalls_context _ _ _ _ _ ev h)
    · intro hcap
      have ha := qc_queryContext_aware ⟨⟨dconn, hooks⟩⟩ (tr ++ [Event.Before ctx query (namedValueToInterface args)]) ctx1 query args hcap
      rw [htr] at ha
      rw [List.append_cancel_left ha]
      simp
    · intro r hd
      simp [hd, closingCalls]
    · intro r e hd hE
      cases hO : hooks.OnError with
      | none => simp [hO] at hE
      | some f => simp [hd, closingCalls, hO]
  · obtain ⟨evs, _, hev, htr, _⟩ := stmt_execContext_trace ⟨dstmt, hooks, query⟩ (tr ++ [Event.Before ctx query (namedValueToInterface args)]) ctx1 args
    have hs := stmt_ExecContext_shape ⟨dstmt, hooks, query⟩ tr ctx args ctx1 hB
    refine ⟨evs ++ closingCalls hooks ctx1 query (namedValueToInterface args)
      ((Stmt.execContext ⟨dstmt, hooks, query⟩ (tr ++ [Event.Before ctx query (namedValueToInterface args)]) ctx1 args).1.map Prod.snd), ?_, ?_, ?_, ?_, ?_⟩
    · rw [hs, htr]
      simp
    · intro ev hmem
      rcases List.mem_append.1 hmem with h | h
      · exact (hev ev h).2
      · exact Or.inr (closingCalls_context _ _ _ _ _ ev h)
    · intro hcap
      have ha := stmt_execContext_aware ⟨dstmt, hooks, query⟩ (tr ++ [Event.Before ctx query (namedValueToInterface args)]) ctx1 args hcap
      rw [htr] at ha
      rw [List.append_cancel_left ha]
      simp
    · intro r hd
      simp [hd, closingCalls]
    · intro r e hd hE
      cases hO : hooks.OnError with
      | none => simp [hO] at hE
      | some f => simp [hd, closingCalls, hO]
  · obtain ⟨evs, _, hev, htr, _⟩ := stmt_queryContext_trace ⟨dstmt, hooks, query⟩ (tr ++ [Event.Before ctx query (namedValueToInterface args)]) ctx1 args
    have hs := stmt_QueryContext_shape ⟨dstmt, hooks, query⟩ tr ctx args ctx1 hB
    refine ⟨evs ++ closingCalls hooks ctx1 query (namedValueToInterface args)
      ((Stmt.queryContext ⟨dstmt, hooks, query⟩ (tr ++ [Event.Before ctx query (namedValueToInterface args)]) ctx1 args).1.map Prod.snd), ?_, ?_, ?_, ?_, ?_⟩
    · rw [hs, htr]
      simp
    · intro ev hmem
      rcases List.mem_append.1 hmem with h | h
      · exact (hev ev h).2
      · exact Or.inr (closingCalls_context _ _ _ _ _ ev h)
    · intro hcap
      have ha := stmt_queryContext_aware ⟨dstmt, hooks, query⟩ (tr ++ [Event.Before ctx query (namedValueToInterface args)]) ctx1 args hcap
      rw [htr] at ha
      rw [List.append_cancel_left ha]
      simp
    · intro r hd
      simp [hd, closingCalls]
    · intro r e hd hE
      cases hO : hooks.OnError with
      | none => simp [hO] at hE
      | some f => simp [hd, closingCalls, hO]

theorem before_context_threaded_witness :
    ∃ rest : List Event,
      (Conn.ExecContext ⟨ctxConn, okHooks⟩ [] 0 "SELECT 1" twoArgs).2 =
        [] ++ Event.Before 0 "SELECT 1" (namedValueToInterface twoArgs) :: rest ∧
      Event.ConnExecContext 1 "SELECT 1" twoArgs ∈ rest ∧
      Event.After 1 "SELECT 1" (namedValueToInterface twoArgs) ∈ rest := by
  obtain ⟨rest, h1, _, h3, h4, _⟩ :=
    (before_context_threaded okHooks ctxConn ctxStmt [] 0 "SELECT 1" twoArgs 1 rfl).1
  exact ⟨rest, h1, h3 rfl, h4 (some 7) rfl⟩

/-! ## Capabilities exposed by the wrapper that `Driver.Open` returns -/

/-- C7 on the code: the query capability follows the probe, the execute
capability does not.  Over a connection with neither capability `Driver.Open`
returns the base `Conn`, whose own `ExecContext` method exposes direct
execute; over a query-only connection the `QueryerContext` variant exposes
direct execute too, promoted from the embedded `Conn`; over a connection with
both, `ExecContext` is declared twice at depth one of `ExecerQueryerContext`
(on `Conn` and on `ExecerContext`), so the selector is ambiguous and direct
execute is not exposed. -/
theorem exec_capability_not_preserved :
    (isExecer bareConn = false ∧ isQueryer bareConn = false ∧
        (Driver.Open (Wrap (driverOf bareConn) okHooks) [] "dsn").1.1.goType =
          some GoType.Conn ∧
        (Driver.Open (Wrap (driverOf bareConn) okHooks) [] "dsn").1.1.exposesExec = true ∧
        (Driver.Open (Wrap (driverOf bareConn) okHooks) [] "dsn").1.1.exposesQuery = false) ∧
      (isExecer queryOnlyConn = false ∧ isQueryer queryOnlyConn = true ∧
        (Driver.Open (Wrap (driverOf queryOnlyConn) okHooks) [] "dsn").1.1.goType =
          some GoType.QueryerContext ∧
        (Driver.Open (Wrap (driverOf queryOnlyConn) okHooks) [] "dsn").1.1.exposesExec = true ∧
        (Driver.Open (Wrap (driverOf queryOnlyConn) okHooks) [] "dsn").1.1.exposesQuery = true) ∧
      (isExecer ctxConn = true ∧ isQueryer ctxConn = true ∧
        (Driver.Open (Wrap (driverOf ctxConn) okHooks) [] "dsn").1.1.goType =
          some GoType.ExecerQueryerContext ∧
        GoType.ExecerQueryerContext.countAt "ExecContext" 1 = 2 ∧
        (Driver.Open (Wrap (driverOf ctxConn) okHooks) [] "dsn").1.1.exposesExec = false ∧
        (Driver.Open (Wrap (driverOf ctxConn) okHooks) [] "dsn").1.1.exposesQuery = true) ∧
      (isExecer legacyConn = true ∧
        (Driver.Open (Wrap (driverOf { legacyConn with Queryer := none }) okHooks) [] "dsn").1.1.goType
          = some GoType.ExecerContext ∧
        (Driver.Open (Wrap (driverOf { legacyConn with Queryer := none }) okHooks) [] "dsn").1.1.exposesExec
          = true ∧
        (Driver.Open (Wrap (driverOf { legacyConn with Queryer := none }) okHooks) [] "dsn").1.1.exposesQuery
          = false) := by
  refine ⟨⟨rfl, rfl, rfl, ?_, ?_⟩, ⟨rfl, rfl, rfl, ?_, ?_⟩, ⟨rfl, rfl, rfl, ?_, ?_, ?_⟩,
    ⟨rfl, rfl, ?_, ?_⟩⟩ <;> decide

/-- C8 on the code: over a connection with neither direct execute nor direct
query, whose prepare and statement execution succeed, `Driver.Open` returns the
base `Conn`; it exposes direct execute, and its `ExecContext` fails with the
wrapper's own error after calling `Before` only: no prepare, no statement, no
`After`.  The statement path itself would have succeeded with `Before` and
`After` called once each. -/
theorem bare_conn_exec_fails :
    isExecer bareConn = false ∧ isQueryer bareConn = false ∧
      (Driver.Open (Wrap (driverOf bareConn) okHooks) [] "dsn").1 =
        (ConnHandle.conn ⟨bareConn, okHooks⟩, none) ∧
      (ConnHandle.conn ⟨bareConn, okHooks⟩).exposesExec = true ∧
      Conn.ExecContext ⟨bareConn, okHooks⟩ [] 0 "CREATE TABLE T(x int)" [] =
        ((none, some errExecContext), [Event.Before 0 "CREATE TABLE T(x int)" []]) ∧
      (Conn.PrepareContext ⟨bareConn, okHooks⟩ [] 0 "CREATE TABLE T(x int)").1 =
        (StmtHandle.wrapper ⟨legacyStmt, okHooks, "CREATE TABLE T(x int)"⟩, none) ∧
      Stmt.ExecContext ⟨legacyStmt, okHooks, "CREATE TABLE T(x int)"⟩ [] 0 [] =
        (some (some 1, none),
          [Event.Before 0 "CREATE TABLE T(x int)" [], Event.StmtExec [],
            Event.After 1 "CREATE TABLE T(x int)" []]) := by
  refine ⟨rfl, rfl, rfl, ?_, rfl, rfl, rfl⟩
  decide

/-! ## Prepare -/

/-- C9, as the code has it: `Conn.PrepareContext` returns a `Stmt` wrapper that
holds the statement the underlying connection prepared (by its context-aware
prepare when it has one, else by its plain prepare), the connection's hooks and
exactly the query text, and the hook calls of that wrapper's `ExecContext` and
`QueryContext` report this query text; `Conn.Prepare` hands the underlying
statement through without a wrapper; a failing underlying prepare has its
handle and error returned unchanged by both. -/
theorem prepareContext_wraps_statement (conn : Conn) (tr : Trace) (ctx : Context)
    (query : String) :
    (∀ f s, conn.Conn.ConnPrepareContext = some f → f tr ctx query = Opened.ok s →
        conn.PrepareContext tr ctx query =
          ((StmtHandle.wrapper ⟨s, conn.Hooks, query⟩, none),
            tr ++ [Event.ConnPrepareContext ctx query])) ∧
      (∀ s, conn.Conn.ConnPrepareContext = none → conn.Conn.Prepare tr query = Opened.ok s →
        conn.PrepareContext tr ctx query =
          ((StmtHandle.wrapper ⟨s, conn.Hooks, query⟩, none), tr ++ [Event.ConnPrepare query])) ∧
      (∀ f h err, conn.Conn.ConnPrepareContext = some f →
        f tr ctx query = Opened.failed h err →
        conn.PrepareContext tr ctx query =
          ((StmtHandle.ofDriver h, some err), tr ++ [Event.ConnPrepareContext ctx query])) ∧
      (∀ h err, conn.Conn.ConnPrepareContext = none →
        conn.Conn.Prepare tr query = Opened.failed h err →
        conn.PrepareContext tr ctx query =
          ((StmtHandle.ofDriver h, some err), tr ++ [Event.ConnPrepare query])) ∧
      (∀ s, conn.Conn.Prepare tr query = Opened.ok s →
        (conn.Prepare tr query).1.toHandle = (StmtHandle.underlying s, none) ∧
        (conn.Prepare tr query).2 = tr ++ [Event.ConnPrepare query]) ∧
      (∀ h err, conn.Conn.Prepare tr query = Opened.failed h err →
        (conn.Prepare tr query).1.toHandle = (StmtHandle.ofDriver h, some err)) ∧
      (∀ (s : DriverStmt) (tr1 : Trace) (ctx1 : Context) (args : List NamedValue),
        (∃ rest : List Event,
          (Stmt.ExecContext ⟨s, conn.Hooks, query⟩ tr1 ctx1 args).2 =
            tr1 ++ Event.Before ctx1 query (namedValueToInterface args) :: rest ∧
          ∀ ev ∈ rest, ev.hookQuery = none ∨ ev.hookQuery = some query) ∧
        (∃ rest : List Event,
          (Stmt.QueryContext ⟨s, conn.Hooks, query⟩ tr1 ctx1 args).2 =
            tr1 ++ Event.Before ctx1 query (namedValueToInterface args) :: rest ∧
          ∀ ev ∈ rest, ev.hookQuery = none ∨ ev.hookQuery = some query)) := by
  refine ⟨?_, ?_, ?_, ?_, ?_, ?_, ?_⟩
  · intro f s hf hs
    simp only [Conn.PrepareContext, hf, hs]
  · intro s hf hs
    simp only [Conn.PrepareContext, Conn.Prepare, hf, hs]
  · intro f h err hf hs
    simp only [Conn.PrepareContext, hf, hs]
  · intro h err hf hs
    simp only [Conn.PrepareContext, Conn.Prepare, hf, hs]
  · intro s hs
    simp only [Conn.Prepare, hs, Opened.toHandle, and_self]
  · intro h err hs
    simp only [Conn.Prepare, hs, Opened.toHandle]
  · intro s tr1 ctx1 args
    exact ⟨stmt_ExecContext_queries ⟨s, conn.Hooks, query⟩ tr1 ctx1 args,
      stmt_QueryContext_queries ⟨s, conn.Hooks, query⟩ tr1 ctx1 args⟩

theorem prepareContext_wraps_statement_witness :
    Conn.PrepareContext ⟨bareConn, okHooks⟩ [] 0 "SELECT 1" =
        ((StmtHandle.wrapper ⟨legacyStmt, okHooks, "SELECT 1"⟩, none),
          [] ++ [Event.ConnPrepare "SELECT 1"]) ∧
      Conn.PrepareContext ⟨noPrepareConn, okHooks⟩ [] 0 "SELEC 1" =
        ((StmtHandle.ofDriver none, some "bad sql"), [] ++ [Event.ConnPrepare "SELEC 1"]) :=
  ⟨(prepareContext_wraps_statement ⟨bareConn, okHooks⟩ [] 0 "SELECT 1").2.1 legacyStmt rfl rfl,
    (prepareContext_wraps_statement ⟨noPrepareConn, okHooks⟩ [] 0 "SELEC 1").2.2.2.1
      none "bad sql" rfl rfl⟩

/-- C9 as stated fails for `Conn.Prepare`: what it returns for a query the
underlying connection prepares is the underlying statement itself, not a `Stmt`
wrapper. -/
theorem prepare_returns_underlying_statement :
    (Conn.Prepare ⟨bareConn, okHooks⟩ [] "SELECT 1").1.toHandle =
        (StmtHandle.underlying legacyStmt, none) ∧
      ¬ ∃ s : Stmt,
        (Conn.Prepare ⟨bareConn, okHooks⟩ [] "SELECT 1").1.toHandle.1 = StmtHandle.wrapper s := by
  refine ⟨rfl, ?_⟩
  rintro ⟨s, hs⟩
  cases hs

/-! ## Named parameters on the legacy path -/

/-- C10, as the code has it: a connection-level exec or query with at least one
named parameter, over a connection that has only the legacy primitive, calls
`Before` first; when `Before` lets it through, the legacy primitive is not
called and `After` is not called, and the named-parameter error goes through
error escalation: without `OnError` the caller receives a nil result and the
named-parameter error, with `OnError` that hook is called once and the caller
receives its answer, or the named-parameter error when it answers nil. -/
theorem named_parameter_on_legacy_path (hooks : Hooks) (dconn : DriverConn) (tr : Trace)
    (ctx : Context) (query : String) (args : List NamedValue) (ctx1 : Context)
    (hN : ∃ n ∈ args, n.Name ≠ "")
    (hB : hooks.Before tr ctx query (namedValueToInterface args) = (ctx1, none)) :
    (dconn.ExecerContext = none → dconn.Execer.isSome = true →
        ((hooks.OnError = none →
            Conn.ExecContext ⟨dconn, hooks⟩ tr ctx query args =
              ((none, some errNamedParameter), tr ++ [Event.Before ctx query (namedValueToInterface args)])) ∧
          (∀ f, hooks.OnError = some f →
            Conn.ExecContext ⟨dconn, hooks⟩ tr ctx query args =
              ((none,
                  some ((f (tr ++ [Event.Before ctx query (namedValueToInterface args)]) ctx1
                    errNamedParameter query (namedValueToInterface args)).getD errNamedParameter)),
                tr ++ [Event.Before ctx query (namedValueToInterface args),
                  Event.OnError ctx1 errNamedParameter query (namedValueToInterface args)]))) ∧
        ((hooks.OnError = none →
            ExecerContext.ExecContext ⟨⟨dconn, hooks⟩⟩ tr ctx query args =
              ((none, some errNamedParameter), tr ++ [Event.Before ctx query (namedValueToInterface args)])) ∧
          (∀ f, hooks.OnError = some f →
            ExecerContext.ExecContext ⟨⟨dconn, hooks⟩⟩ tr ctx query args =
              ((none,
                  some ((f (tr ++ [Event.Before ctx query (namedValueToInterface args)]) ctx1
                    errNamedParameter query (namedValueToInterface args)).getD errNamedParameter)),
                tr ++ [Event.Before ctx query (namedValueToInterface args),
                  Event.OnError ctx1 errNamedParameter query (namedValueToInterface args)])))) ∧
      (dconn.QueryerContext = none → dconn.Queryer.isSome = true →
        ((hooks.OnError = none →
            QueryerContext.QueryContext ⟨⟨dconn, hooks⟩⟩ tr ctx query args =
              ((none, some errNamedParameter), tr ++ [Event.Before ctx query (namedValueToInterface args)])) ∧
          (∀ f, hooks.OnError = some f →
            QueryerContext.QueryContext ⟨⟨dconn, hooks⟩⟩ tr ctx query args =
              ((none,
                  some ((f (tr ++ [Event.Before ctx query (namedValueToInterface args)]) ctx1
                    errNamedParameter query (namedValueToInterface args)).getD errNamedParameter)),
                tr ++ [Event.Before ctx query (namedValueToInterface args),
                  Event.OnError ctx1 errNamedParameter query (namedValueToInterface args)])))) := by
  refine ⟨fun hC hL => ⟨?_, ?_⟩, fun hC hL => ?_⟩
  ·
    have hd := conn_execContext_named_legacy ⟨dconn, hooks⟩ (tr ++ [Event.Before ctx query (namedValueToInterface args)]) ctx1 query args hN hC hL
    refine ⟨fun hO => by simp [Conn.ExecContext, hB, hd, handlerError, hO], fun f hO => ?_⟩
    cases hf : f (tr ++ [Event.Before ctx query (namedValueToInterface args)]) ctx1 errNamedParameter query (namedValueToInterface args) <;>
      simp [Conn.ExecContext, hB, hd, handlerError, hO, hf]
  ·
    have hd := conn_execContext_named_legacy ⟨dconn, hooks⟩ (tr ++ [Event.Before ctx query (namedValueToInterface args)]) ctx1 query args hN hC hL
    refine ⟨fun hO => by simp [ExecerContext.ExecContext, ec_execContext_eq, hB, hd, handlerError, hO], fun f hO => ?_⟩
    cases hf : f (tr ++ [Event.Before ctx query (namedValueToInterface args)]) ctx1 errNamedParameter query (namedValueToInterface args) <;>
      simp [ExecerContext.ExecContext, ec_execContext_eq, hB, hd, handlerError, hO, hf]
  ·
    have hd := qc_queryContext_named_legacy ⟨⟨dconn, hooks⟩⟩ (tr ++ [Event.Before ctx query (namedValueToInterface args)]) ctx1 query args hN hC hL
    refine ⟨fun hO => by simp [QueryerContext.QueryContext, hB, hd, handlerError, hO], fun f hO => ?_⟩
    cases hf : f (tr ++ [Event.Before ctx query (namedValueToInterface args)]) ctx1 errNamedParameter query (namedValueToInterface args) <;>
      simp [QueryerContext.QueryContext, hB, hd, handlerError, hO, hf]

theorem named_parameter_on_legacy_path_witness :
    ExecerContext.ExecContext ⟨⟨legacyConn, okHooks⟩⟩ [] 0 "SELECT 1" namedArgs =
        ((none, some errNamedParameter),
          [] ++ [Event.Before 0 "SELECT 1" (namedValueToInterface namedArgs)]) ∧
      QueryerContext.QueryContext ⟨⟨legacyConn, okHooks⟩⟩ [] 0 "SELECT 1" namedArgs =
        ((none, some errNamedParameter),
          [] ++ [Event.Before 0 "SELECT 1" (namedValueToInterface namedArgs)]) :=
  ⟨((named_parameter_on_legacy_path okHooks legacyConn [] 0 "SELECT 1" namedArgs 1
      ⟨⟨"id", 2, Value.int 9⟩, by decide, by decide⟩ rfl).1 rfl rfl).2.1 rfl,
    ((named_parameter_on_legacy_path okHooks legacyConn [] 0 "SELECT 1" namedArgs 1
      ⟨⟨"id", 2, Value.int 9⟩, by decide, by decide⟩ rfl).2 rfl rfl).1 rfl⟩

/-- C10 as stated fails: on a named parameter over a legacy-only connection the
hooks are invoked, `Before` first and then `OnError`, and with an `OnError` that
rewrites the error the caller does not even receive the named-parameter error. -/
theorem named_legacy_invokes_hooks :
    QueryerContext.QueryContext ⟨⟨legacyConn, wrapHooks⟩⟩ [] 0 "SELECT 1" namedArgs =
        ((none, some ("wrapped: " ++ errNamedParameter)),
          [Event.Before 0 "SELECT 1" (namedValueToInterface namedArgs),
            Event.OnError 1 errNamedParameter "SELECT 1" (namedValueToInterface namedArgs)]) ∧
      (QueryerContext.QueryContext ⟨⟨legacyConn, wrapHooks⟩⟩ [] 0 "SELECT 1" namedArgs).2.countP
        Event.isBefore = 1 ∧
      (QueryerContext.QueryContext ⟨⟨legacyConn, wrapHooks⟩⟩ [] 0 "SELECT 1" namedArgs).2.countP
        Event.isOnError = 1 := by
  refine ⟨rfl, ?_, ?_⟩ <;> decide

/-! ## Denormalization -/

/-- C11: `namedValueToValue` fails exactly when some argument has a non-empty
name, wherever it stands; a failure returns no array and the named-parameter
error; a success, which includes the empty list, returns an array as long as
the input and no error. -/
theorem denormalize_fails_iff_named (named : List NamedValue) :
    ((namedValueToValue named).2 ≠ none ↔ ∃ n ∈ named, n.Name ≠ "") ∧
      ((∃ n ∈ named, n.Name ≠ "") →
        namedValueToValue named = (none, some errNamedParameter)) ∧
      ((∀ n ∈ named, n.Name = "") →
        ∃ values : List Value, namedValueToValue named = (some values, none) ∧
          values.length = named.length) ∧
      namedValueToValue [] = (some [], none) := by
  have hfail := namedValueToValue_named named
  have hok := namedValueToValue_unnamed named
  refine ⟨⟨?_, fun h => by simp [hfail h]⟩, hfail,
    fun h => ⟨_, hok h, by simp⟩, rfl⟩
  intro hne
  by_contra hcon
  exact hne (by rw [hok (fun n hn => by_contra fun hx => hcon ⟨n, hn, hx⟩)])

theorem denormalize_fails_iff_named_witness :
    namedValueToValue namedArgs = (none, some errNamedParameter) ∧
      ∃ values : List Value, namedValueToValue twoArgs = (some values, none) ∧
        values.length = twoArgs.length :=
  ⟨(denormalize_fails_iff_named namedArgs).2.1 ⟨⟨"id", 2, Value.int 9⟩, by decide, by decide⟩,
    (denormalize_fails_iff_named twoArgs).2.2.1 (by decide)⟩

/-! ## Transactions -/

/-- C12: on an underlying connection without `ConnBeginTx`, `Conn.BeginTx` returns
a nil transaction and the isolation-level error for every context and options
and leaves the trace as it was: neither the underlying connection nor any hook
is called.  On a connection that has it, `BeginTx` returns what the underlying
`BeginTx` returns for the same context and options, and that call is the only
one made. -/
theorem beginTx_forwards_or_fails (conn : Conn) (tr : Trace) (ctx : Context)
    (opts : TxOptions) :
    (conn.Conn.ConnBeginTx = none →
        conn.BeginTx tr ctx opts = ((none, some errIsolationLevel), tr)) ∧
      (∀ f, conn.Conn.ConnBeginTx = some f →
        conn.BeginTx tr ctx opts = (f tr ctx opts, tr ++ [Event.ConnBeginTx ctx opts])) := by
  refine ⟨fun h => ?_, fun f h => ?_⟩
  · simp only [Conn.BeginTx, h]
  · simp only [Conn.BeginTx, h]

theorem beginTx_forwards_or_fails_witness :
    Conn.BeginTx ⟨bareConn, okHooks⟩ [] 3 ⟨4, true⟩ = ((none, some errIsolationLevel), []) ∧
      Conn.BeginTx ⟨txConn, vetoHooks⟩ [] 3 ⟨4, true⟩ =
        ((some 43, none), [] ++ [Event.ConnBeginTx 3 ⟨4, true⟩]) :=
  ⟨(beginTx_forwards_or_fails ⟨bareConn, okHooks⟩ [] 3 ⟨4, true⟩).1 rfl,
    (beginTx_forwards_or_fails ⟨txConn, vetoHooks⟩ [] 3 ⟨4, true⟩).2 _ rfl⟩

/-! ## Variant selection at open time -/

/-- C13: when the underlying driver opens `c`, `Driver.Open` returns the variant
fixed by the two probes, each built over the one wrapper of `c` with the
driver's hooks: the both-variant when `isExecer c` and `isQueryer c`, the
direct-execute variant when only `isExecer c`, the direct-query variant when
only `isQueryer c`, the base wrapper when neither; the probes are true exactly
when `c` has the context-aware or the legacy primitive.  When the underlying
open fails, its handle and error are returned and the handle is no wrapper. -/
theorem open_selects_variant (drv : Driver) (tr : Trace) (name : String) :
    (∀ c, drv.Driver.Open tr name = Opened.ok c →
        (drv.Open tr name).2 = tr ++ [Event.DriverOpen name] ∧
        (drv.Open tr name).1 =
          ((match isExecer c, isQueryer c with
            | true, true =>
              ConnHandle.execerQueryerContext
                ⟨⟨c, drv.Hooks⟩, ⟨⟨c, drv.Hooks⟩⟩, ⟨⟨c, drv.Hooks⟩⟩⟩
            | true, false => ConnHandle.execerContext ⟨⟨c, drv.Hooks⟩⟩
            | false, true => ConnHandle.queryerContext ⟨⟨c, drv.Hooks⟩⟩
            | false, false => ConnHandle.conn ⟨c, drv.Hooks⟩), none) ∧
        ((drv.Open tr name).1.1.goType = some GoType.ExecerQueryerContext ↔
          isExecer c = true ∧ isQueryer c = true) ∧
        ((drv.Open tr name).1.1.goType = some GoType.ExecerContext ↔
          isExecer c = true ∧ isQueryer c = false) ∧
        ((drv.Open tr name).1.1.goType = some GoType.QueryerContext ↔
          isQueryer c = true ∧ isExecer c = false) ∧
        ((drv.Open tr name).1.1.goType = some GoType.Conn ↔
          isExecer c = false ∧ isQueryer c = false) ∧
        (isExecer c = true ↔ c.ExecerContext.isSome = true ∨ c.Execer.isSome = true) ∧
        (isQueryer c = true ↔ c.QueryerContext.isSome = true ∨ c.Queryer.isSome = true)) ∧
      (∀ h err, drv.Driver.Open tr name = Opened.failed h err →
        drv.Open tr name = ((ConnHandle.ofDriver h, some err), tr ++ [Event.DriverOpen name]) ∧
        (drv.Open tr name).1.1.goType = none) := by
  refine ⟨fun c hc => ?_, fun h err hc => ?_⟩
  · have hE : (isExecer c = true ↔ c.ExecerContext.isSome = true ∨ c.Execer.isSome = true) := by
      unfold isExecer
      split <;> simp_all
    have hQ : (isQueryer c = true ↔
        c.QueryerContext.isSome = true ∨ c.Queryer.isSome = true) := by
      unfold isQueryer
      split <;> simp_all
    refine ⟨?_, ?_, ?_, ?_, ?_, ?_, hE, hQ⟩ <;>
      cases hiE : isExecer c <;> cases hiQ : isQueryer c <;>
        simp [Driver.Open, hc, hiE, hiQ, ConnHandle.goType]
  · refine ⟨by simp only [Driver.Open, hc], ?_⟩
    simp only [Driver.Open, hc]
    cases h <;> rfl

theorem open_selects_variant_witness :
    (Driver.Open (Wrap (driverOf legacyConn) okHooks) [] "dsn").1.1.goType =
        some GoType.ExecerQueryerContext ∧
      (Driver.Open (Wrap (driverOf queryOnlyConn) okHooks) [] "dsn").1.1.goType =
        some GoType.QueryerContext ∧
      (Driver.Open (Wrap (driverOf bareConn) okHooks) [] "dsn").1.1.goType =
        some GoType.Conn ∧
      Driver.Open (Wrap ⟨fun _ _ => Opened.failed none "refused"⟩ okHooks) [] "dsn" =
        ((ConnHandle.ofDriver none, some "refused"), [] ++ [Event.DriverOpen "dsn"]) :=
  ⟨((open_selects_variant (Wrap (driverOf legacyConn) okHooks) [] "dsn").1 legacyConn
      rfl).2.2.1.2 ⟨rfl, rfl⟩,
    ((open_selects_variant (Wrap (driverOf queryOnlyConn) okHooks) [] "dsn").1 queryOnlyConn
      rfl).2.2.2.2.1.2 ⟨rfl, rfl⟩,
    ((open_selects_variant (Wrap (driverOf bareConn) okHooks) [] "dsn").1 bareConn
      rfl).2.2.2.2.2.1.2 ⟨rfl, rfl⟩,
    ((open_selects_variant (Wrap ⟨fun _ _ => Opened.failed none "refused"⟩ okHooks) [] "dsn").2
      none "refused" rfl).1⟩

/-! ## The argument list the hooks receive -/

theorem closingCalls_args (hooks : Hooks) (ctx : Context) (query : String)
    (cArgs : List Interface) (o : Option (Option Error)) :
    ∀ ev ∈ closingCalls hooks ctx query cArgs o, ev.hookArgs = some cArgs := by
  intro ev h
  rcases o with _ | _ | e
  · simp [closingCalls] at h
  · simp [closingCalls] at h
    subst h
    rfl
  · cases hE : hooks.OnError <;> simp [closingCalls, hE] at h
    subst h
    rfl

theorem hookArgs_of_driverCall (ev : Event) (h : ev.isDriverCall = true) :
    ev.hookArgs = none := by
  cases ev <;> simp_all [Event.isDriverCall, Event.hookArgs]

theorem conn_ExecContext_hookArgs (conn : Conn) (tr : Trace) (ctx : Context) (query : String)
    (args : List NamedValue) :
    ∃ rest : List Event,
      (Conn.ExecContext conn tr ctx query args).2 = tr ++ Event.Before ctx query (namedValueToInterface args) :: rest ∧
      ∀ ev ∈ rest, ev.hookArgs = none ∨ ev.hookArgs = some (namedValueToInterface args) := by
  rcases hB : conn.Hooks.Before tr ctx query (namedValueToInterface args) with ⟨c, _ | e⟩
  · obtain ⟨evs, _, hev, htr, _⟩ := conn_execContext_trace conn
      (tr ++ [Event.Before ctx query (namedValueToInterface args)]) c query args
    have hs := conn_ExecContext_shape conn tr ctx query args c hB
    refine ⟨evs ++ closingCalls conn.Hooks c query (namedValueToInterface args)
      (some (Conn.execContext conn (tr ++ [Event.Before ctx query (namedValueToInterface args)]) c query args).1.2), ?_, ?_⟩
    · rw [hs, htr]
      simp
    · intro ev hmem
      rcases List.mem_append.1 hmem with h | h
      · exact Or.inl (hookArgs_of_driverCall ev (hev ev h).1)
      · exact Or.inr (closingCalls_args _ _ _ _ _ ev h)
  · exact ⟨[], by simp only [Conn.ExecContext, hB], by simp⟩

theorem ec_ExecContext_hookArgs (ec : ExecerContext) (tr : Trace) (ctx : Context) (query : String)
    (args : List NamedValue) :
    ∃ rest : List Event,
      (ExecerContext.ExecContext ec tr ctx query args).2 = tr ++ Event.Before ctx query (namedValueToInterface args) :: rest ∧
      ∀ ev ∈ rest, ev.hookArgs = none ∨ ev.hookArgs = some (namedValueToInterface args) := by
  rcases hB : ec.Conn.Hooks.Before tr ctx query (namedValueToInterface args) with ⟨c, _ | e⟩
  · obtain ⟨evs, _, hev, htr, _⟩ := conn_execContext_trace ec.Conn
      (tr ++ [Event.Before ctx query (namedValueToInterface args)]) c query args
    have hs := ec_ExecContext_shape ec tr ctx query args c hB
    simp only [ec_execContext_eq] at hs
    refine ⟨evs ++ closingCalls ec.Conn.Hooks c query (namedValueToInterface args)
      (some (Conn.execContext ec.Conn (tr ++ [Event.Before ctx query (namedValueToInterface args)]) c query args).1.2), ?_, ?_⟩
    · rw [hs, htr]
      simp
    · intro ev hmem
      rcases List.mem_append.1 hmem with h | h
      · exact Or.inl (hookArgs_of_driverCall ev (hev ev h).1)
      · exact Or.inr (closingCalls_args _ _ _ _ _ ev h)
  · exact ⟨[], by simp only [ExecerContext.ExecContext, hB], by simp⟩

theorem qc_QueryContext_hookArgs (qc : QueryerContext) (tr : Trace) (ctx : Context) (query : String)
    (args : List NamedValue) :
    ∃ rest : List Event,
      (QueryerContext.QueryContext qc tr ctx query args).2 = tr ++ Event.Before ctx query (namedValueToInterface args) :: rest ∧
      ∀ ev ∈ rest, ev.hookArgs = none ∨ ev.hookArgs = some (namedValueToInterface args) := by
  rcases hB : qc.Conn.Hooks.Before tr ctx query (namedValueToInterface args) with ⟨c, _ | e⟩
  · obtain ⟨evs, _, hev, htr, _⟩ := qc_queryContext_trace qc
      (tr ++ [Event.Before ctx query (namedValueToInterface args)]) c query args
    have hs := qc_QueryContext_shape qc tr ctx query args c hB
    refine ⟨evs ++ closingCalls qc.Conn.Hooks c query (namedValueToInterface args)
      (some (QueryerContext.queryContext qc (tr ++ [Event.Before ctx query (namedValueToInterface args)]) c query args).1.2), ?_, ?_⟩
    · rw [hs, htr]
      simp
    · intro ev hmem
      rcases List.mem_append.1 hmem with h | h
      · exact Or.inl (hookArgs_of_driverCall ev (hev ev h).1)
      · exact Or.inr (closingCalls_args _ _ _ _ _ ev h)
  · exact ⟨[], by simp only [QueryerContext.QueryContext, hB], by simp⟩

theorem stmt_ExecContext_hookArgs (stmt : Stmt) (tr : Trace) (ctx : Context)
    (args : List NamedValue) :
    ∃ rest : List Event,
      (Stmt.ExecContext stmt tr ctx args).2 = tr ++ Event.Before ctx stmt.query (namedValueToInterface args) :: rest ∧
      ∀ ev ∈ rest, ev.hookArgs = none ∨ ev.hookArgs = some (namedValueToInterface args) := by
  rcases hB : stmt.Hooks.Before tr ctx stmt.query (namedValueToInterface args) with ⟨c, _ | e⟩
  · obtain ⟨evs, _, hev, htr, _⟩ := stmt_execContext_trace stmt
      (tr ++ [Event.Before ctx stmt.query (namedValueToInterface args)]) c args
    have hs := stmt_ExecContext_shape stmt tr ctx args c hB
    refine ⟨evs ++ closingCalls stmt.Hooks c stmt.query (namedValueToInterface args)
      ((Stmt.execContext stmt (tr ++ [Event.Before ctx stmt.query (namedValueToInterface args)]) c args).1.map Prod.snd), ?_, ?_⟩
    · rw [hs, htr]
      simp
    · intro ev hmem
      rcases List.mem_append.1 hmem with h | h
      · exact Or.inl (hookArgs_of_driverCall ev (hev ev h).1)
      · exact Or.inr (closingCalls_args _ _ _ _ _ ev h)
  · exact ⟨[], by simp only [Stmt.ExecContext, hB], by simp⟩

theorem stmt_QueryContext_hookArgs (stmt : Stmt) (tr : Trace) (ctx : Context)
    (args : List NamedValue) :
    ∃ rest : List Event,
      (Stmt.QueryContext stmt tr ctx args).2 = tr ++ Event.Before ctx stmt.query (namedValueToInterface args) :: rest ∧
      ∀ ev ∈ rest, ev.hookArgs = none ∨ ev.hookArgs = some (namedValueToInterface args) := by
  rcases hB : stmt.Hooks.Before tr ctx stmt.query (namedValueToInterface args) with ⟨c, _ | e⟩
  · obtain ⟨evs, _, hev, htr, _⟩ := stmt_queryContext_trace stmt
      (tr ++ [Event.Before ctx stmt.query (namedValueToInterface args)]) c args
    have hs := stmt_QueryContext_shape stmt tr ctx args c hB
    refine ⟨evs ++ closingCalls stmt.Hooks c stmt.query (namedValueToInterface args)
      ((Stmt.queryContext stmt (tr ++ [Event.Before ctx stmt.query (namedValueToInterface args)]) c args).1.map Prod.snd), ?_, ?_⟩
    · rw [hs, htr]
      simp
    · intro ev hmem
      rcases List.mem_append.1 hmem with h | h
      · exact Or.inl (hookArgs_of_driverCall ev (hev ev h).1)
      · exact Or.inr (closingCalls_args _ _ _ _ _ ev h)
  · exact ⟨[], by simp only [Stmt.QueryContext, hB], by simp⟩

/-- C14: `namedValueToInterface` returns, for every argument list, a sequence of
the same length whose `i`-th element is the `i`-th native argument boxed as it
is; the empty list gives the empty sequence and the two positional arguments
`(1, "a")` give the two elements carrying `1` then `"a"`; and in each of the
five operations every hook call (`Before`, `After`, `OnError`) receives this
one sequence. -/
theorem normalize_preserves_arguments (hooks : Hooks) (dconn : DriverConn)
    (dstmt : DriverStmt) (tr : Trace) (ctx : Context) (query : String)
    (args : List NamedValue) :
    namedValueToInterface args = args.map Interface.namedValue ∧
      (namedValueToInterface args).length = args.length ∧
      (∀ i : Nat, (namedValueToInterface args)[i]? = args[i]?.map Interface.namedValue) ∧
      namedValueToInterface [] = [] ∧
      namedValueToInterface twoArgs =
        [Interface.namedValue ⟨"", 1, Value.int 1⟩,
          Interface.namedValue ⟨"", 2, Value.str "a"⟩] ∧
      (∃ rest : List Event,
        (Conn.ExecContext ⟨dconn, hooks⟩ tr ctx query args).2 =
          tr ++ Event.Before ctx query (args.map Interface.namedValue) :: rest ∧
        ∀ ev ∈ rest, ev.hookArgs = none ∨
          ev.hookArgs = some (args.map Interface.namedValue)) ∧
      (∃ rest : List Event,
        (ExecerContext.ExecContext ⟨⟨dconn, hooks⟩⟩ tr ctx query args).2 =
          tr ++ Event.Before ctx query (args.map Interface.namedValue) :: rest ∧
        ∀ ev ∈ rest, ev.hookArgs = none ∨
          ev.hookArgs = some (args.map Interface.namedValue)) ∧
      (∃ rest : List Event,
        (QueryerContext.QueryContext ⟨⟨dconn, hooks⟩⟩ tr ctx query args).2 =
          tr ++ Event.Before ctx query (args.map Interface.namedValue) :: rest ∧
        ∀ ev ∈ rest, ev.hookArgs = none ∨
          ev.hookArgs = some (args.map Interface.namedValue)) ∧
      (∃ rest : List Event,
        (Stmt.ExecContext ⟨dstmt, hooks, query⟩ tr ctx args).2 =
          tr ++ Event.Before ctx query (args.map Interface.namedValue) :: rest ∧
        ∀ ev ∈ rest, ev.hookArgs = none ∨
          ev.hookArgs = some (args.map Interface.namedValue)) ∧
      (∃ rest : List Event,
        (Stmt.QueryContext ⟨dstmt, hooks, query⟩ tr ctx args).2 =
          tr ++ Event.Before ctx query (args.map Interface.namedValue) :: rest ∧
        ∀ ev ∈ rest, ev.hookArgs = none ∨
          ev.hookArgs = some (args.map Interface.namedValue)) := by
  have hmap := namedValueToInterface_eq_map args
  refine ⟨hmap, by simp [hmap], fun i => by simp [hmap], rfl, rfl, ?_, ?_, ?_, ?_, ?_⟩
  · simpa only [hmap] using conn_ExecContext_hookArgs ⟨dconn, hooks⟩ tr ctx query args
  · simpa only [hmap] using ec_ExecContext_hookArgs ⟨⟨dconn, hooks⟩⟩ tr ctx query args
  · simpa only [hmap] using qc_QueryContext_hookArgs ⟨⟨dconn, hooks⟩⟩ tr ctx query args
  · simpa only [hmap] using stmt_ExecContext_hookArgs ⟨dstmt, hooks, query⟩ tr ctx args
  · simpa only [hmap] using stmt_QueryContext_hookArgs ⟨dstmt, hooks, query⟩ tr ctx args

/-! ## Round trip on unnamed arguments -/

theorem rebuild_unnamed (values : List Value) : ∀ n ∈ rebuild values, n.Name = "" := by
  intro n hn
  simp only [rebuild, List.mem_map] at hn
  obtain ⟨_, _, rfl⟩ := hn
  rfl

theorem rebuild_values (values : List Value) :
    (rebuild values).map (fun n => n.Value) = values := by
  simp only [rebuild, List.map_map]
  have : ((fun n : NamedValue => n.Value) ∘
      fun p : Nat × Value => (⟨"", (p.1 : Int) + 1, p.2⟩ : NamedValue)) = Prod.snd := rfl
  rw [this, List.enum_map_snd]

/-- C15: for an argument list in which every name is empty, `namedValueToValue`
succeeds, and the value sequence it returns is, in the same order, the sequence
of the values carried by the elements of `namedValueToInterface` of that list;
denormalizing the list rebuilt from that value sequence (ordinals `1..n`, no
names) returns the same value sequence. -/
theorem unnamed_round_trip (named : List NamedValue) (h : ∀ n ∈ named, n.Name = "") :
    ∃ values : List Value,
      namedValueToValue named = (some values, none) ∧
      values = (namedValueToInterface named).map Interface.value ∧
      values = named.map (fun n => n.Value) ∧
      namedValueToValue (rebuild values) = (some values, none) := by
  refine ⟨named.map (fun n => n.Value), namedValueToValue_unnamed named h, ?_, rfl, ?_⟩
  · rw [namedValueToInterface_eq_map, List.map_map]
    rfl
  · rw [namedValueToValue_unnamed _ (rebuild_unnamed _), rebuild_values]

theorem unnamed_round_trip_witness :
    ∃ values : List Value,
      namedValueToValue twoArgs = (some values, none) ∧
      values = (namedValueToInterface twoArgs).map Interface.value ∧
      values = twoArgs.map (fun n => n.Value) ∧
      namedValueToValue (rebuild values) = (some values, none) :=
  unnamed_round_trip twoArgs (by decide)

/-! ## The ordinal-indexed conversion of the statement path -/

theorem ordinalLoop_slots (args : List NamedValue) (acc res : List Value)
    (h : ordinalLoop acc args = some res) :
    res.length = acc.length ∧
      ∀ j : Nat, res[j]? = ((lastAt args j).map (fun a => a.Value)).or acc[j]? := by
  induction args generalizing acc with
  | nil =>
    simp only [ordinalLoop, Option.some.injEq] at h
    subst h
    simp [lastAt]
  | cons a rest ih =>
    unfold ordinalLoop at h
    by_cases hr : 0 ≤ a.Ordinal - 1 ∧ a.Ordinal - 1 < (acc.length : Int)
    · rw [if_pos hr] at h
      obtain ⟨hlen, hslot⟩ := ih _ h
      refine ⟨by simpa using hlen, fun j => ?_⟩
      rw [hslot j]
      have hlast : lastAt (a :: rest) j =
          (lastAt rest j).or (if a.Ordinal = (j : Int) + 1 then some a else none) := by
        simp only [lastAt, List.reverse_cons, List.find?_append, List.find?_cons,
          List.find?_nil]
        by_cases hj : a.Ordinal = (j : Int) + 1 <;> simp [hj]
      rw [hlast]
      cases hl : lastAt rest j with
      | some b => simp
      | none =>
        simp only [Option.map_none', Option.none_or, List.getElem?_set]
        by_cases hj : a.Ordinal = (j : Int) + 1
        · have hk : (a.Ordinal - 1).toNat = j := by omega
          have hlt : j < acc.length := by omega
          simp [hj, hk, hlt]
        · have hk : ¬ (a.Ordinal - 1).toNat = j := by omega
          rw [if_neg hk]
          simp [hj]
    · rw [if_neg hr] at h
      exact absurd h (by simp)

theorem perm_ordinals_in_range (args : List NamedValue)
    (hperm : (args.map (fun a => a.Ordinal)).Perm
      ((List.range args.length).map (fun i : Nat => (i : Int) + 1))) :
    ∀ a ∈ args, 1 ≤ a.Ordinal ∧ a.Ordinal ≤ (args.length : Int) := by
  intro a ha
  have hmem : a.Ordinal ∈ (List.range args.length).map (fun i : Nat => (i : Int) + 1) :=
    hperm.subset (List.mem_map_of_mem _ ha)
  simp only [List.mem_map, List.mem_range] at hmem
  obtain ⟨i, hi, hio⟩ := hmem
  omega

theorem perm_ordinals_nodup (args : List NamedValue)
    (hperm : (args.map (fun a => a.Ordinal)).Perm
      ((List.range args.length).map (fun i : Nat => (i : Int) + 1))) :
    (args.map (fun a => a.Ordinal)).Nodup := by
  rw [hperm.nodup_iff]
  exact List.Nodup.map (f := fun i : Nat => (i : Int) + 1)
    (fun i j hij => by simpa using hij) (List.nodup_range _)

theorem lastAt_of_nodup (args : List NamedValue)
    (hnd : (args.map (fun a => a.Ordinal)).Nodup) (a : NamedValue) (ha : a ∈ args)
    (j : Nat) (hj : a.Ordinal = (j : Int) + 1) :
    lastAt args j = some a := by
  have hsome : (lastAt args j).isSome = true := by
    simp only [lastAt, List.find?_isSome, List.mem_reverse]
    exact ⟨a, ha, by simp [hj]⟩
  obtain ⟨b, hb⟩ := Option.isSome_iff_exists.1 hsome
  have hbmem : b ∈ args := by
    have := List.mem_of_find?_eq_some hb
    simpa using this
  have hbord : b.Ordinal = (j : Int) + 1 := by
    have := List.find?_some hb
    simpa using this
  have : b = a := List.inj_on_of_nodup_map hnd hbmem ha (by simp only [hbord, hj])
  rw [hb, this]

theorem ordinalLoop_of_perm (args : List NamedValue)
    (hperm : (args.map (fun a => a.Ordinal)).Perm
      ((List.range args.length).map (fun i : Nat => (i : Int) + 1))) :
    ∃ values : List Value,
      ordinalLoop (List.replicate args.length Value.nil) args = some values ∧
      values.length = args.length ∧
      ∀ a ∈ args, values[(a.Ordinal - 1).toNat]? = some a.Value := by
  have hrange := perm_ordinals_in_range args hperm
  have hne : ordinalLoop (List.replicate args.length Value.nil) args ≠ none :=
    (ordinalLoop_isSome_iff args _).2 (by simpa using hrange)
  obtain ⟨values, hv⟩ := Option.ne_none_iff_exists'.1 hne
  obtain ⟨hlen, hslot⟩ := ordinalLoop_slots args _ values hv
  refine ⟨values, hv, by simpa using hlen, fun a ha => ?_⟩
  have hr := hrange a ha
  have hj : a.Ordinal = (((a.Ordinal - 1).toNat : Nat) : Int) + 1 := by omega
  rw [hslot, lastAt_of_nodup args (perm_ordinals_nodup args hperm) a ha _ hj]
  simp

/-- C16: on the statement-level legacy path, for an argument list whose ordinals
are a permutation of `1..n`, `Stmt.execContext` and `Stmt.queryContext` build an
array of length `n` whose slot `ordinal - 1` holds the value of each argument,
and hand exactly this array to the underlying `Exec` / `Query`; a context-aware
underlying statement receives the native arguments unchanged. -/
theorem stmt_legacy_ordinal_array (dstmt : DriverStmt) (hooks : Hooks) (query : String)
    (tr : Trace) (ctx : Context) (args : List NamedValue)
    (hperm : (args.map (fun a => a.Ordinal)).Perm
      ((List.range args.length).map (fun i : Nat => (i : Int) + 1))) :
    ∃ values : List Value, values.length = args.length ∧
      (∀ a ∈ args, values[(a.Ordinal - 1).toNat]? = some a.Value) ∧
      (dstmt.StmtExecContext = none →
        Stmt.execContext ⟨dstmt, hooks, query⟩ tr ctx args =
          (some (dstmt.Exec tr values), tr ++ [Event.StmtExec values])) ∧
      (dstmt.StmtQueryContext = none →
        Stmt.queryContext ⟨dstmt, hooks, query⟩ tr ctx args =
          (some (dstmt.Query tr values), tr ++ [Event.StmtQuery values])) ∧
      (∀ f, dstmt.StmtExecContext = some f →
        Stmt.execContext ⟨dstmt, hooks, query⟩ tr ctx args =
          (some (f tr ctx args), tr ++ [Event.StmtExecContext ctx args])) ∧
      (∀ f, dstmt.StmtQueryContext = some f →
        Stmt.queryContext ⟨dstmt, hooks, query⟩ tr ctx args =
          (some (f tr ctx args), tr ++ [Event.StmtQueryContext ctx args])) := by
  obtain ⟨values, hv, hlen, hslot⟩ := ordinalLoop_of_perm args hperm
  refine ⟨values, hlen, hslot, fun h => ?_, fun h => ?_, fun f h => ?_, fun f h => ?_⟩
  · simp only [Stmt.execContext, h, hv, Stmt.Exec]
  · simp only [Stmt.queryContext, h, hv, Stmt.Query]
  · simp only [Stmt.execContext, h]
  · simp only [Stmt.queryContext, h]

theorem stmt_legacy_ordinal_array_witness :
    ∃ values : List Value, values.length = 2 ∧
      values[1]? = some (Value.int 10) ∧ values[0]? = some (Value.int 20) ∧
      Stmt.execContext ⟨legacyStmt, okHooks, "SELECT 1"⟩ [] 0 swappedArgs =
        (some (legacyStmt.Exec [] values), [] ++ [Event.StmtExec values]) := by
  obtain ⟨values, hl, hs, he, _⟩ :=
    stmt_legacy_ordinal_array legacyStmt okHooks "SELECT 1" [] 0 swappedArgs
      (List.Perm.swap 1 2 [])
  exact ⟨values, hl, hs ⟨"", 2, Value.int 10⟩ (by decide), hs ⟨"", 1, Value.int 20⟩ (by decide),
    he rfl⟩

/-- C17, as the code has it: for an all-unnamed argument list `namedValueToValue`
returns an array of the input's length that holds the value of the `i`-th
argument at index `i`; the ordinal is not read.  When the ordinals are `1..n` in
input order this index is `ordinal - 1` for every argument. -/
theorem denormalize_by_position (named : List NamedValue) (h : ∀ n ∈ named, n.Name = "") :
    ∃ values : List Value,
      namedValueToValue named = (some values, none) ∧
      values.length = named.length ∧
      (∀ i : Nat, values[i]? = named[i]?.map (fun n => n.Value)) ∧
      (named.map (fun a => a.Ordinal) =
          (List.range named.length).map (fun i : Nat => (i : Int) + 1) →
        ∀ a ∈ named, values[(a.Ordinal - 1).toNat]? = some a.Value) := by
  refine ⟨named.map (fun n => n.Value), namedValueToValue_unnamed named h, by simp,
    fun i => by simp, fun hord a ha => ?_⟩
  obtain ⟨i, hi, rfl⟩ := List.mem_iff_getElem.1 ha
  have hget : (named.map (fun a => a.Ordinal))[i]? =
      ((List.range named.length).map (fun i : Nat => (i : Int) + 1))[i]? := by rw [hord]
  simp only [List.getElem?_map, List.getElem?_eq_getElem hi, Option.map_some',
    List.getElem?_range hi, Option.some.injEq] at hget
  have hk : (named[i].Ordinal - 1).toNat = i := by omega
  rw [hk]
  simp [hi]

theorem denormalize_by_position_witness :
    ∃ values : List Value,
      namedValueToValue twoArgs = (some values, none) ∧
      values.length = twoArgs.length ∧
      values[((1 : Int) - 1).toNat]? = some (Value.int 1) ∧
      values[((2 : Int) - 1).toNat]? = some (Value.str "a") := by
  obtain ⟨values, hv, hl, _, ho⟩ := denormalize_by_position twoArgs (by decide)
  exact ⟨values, hv, hl, ho rfl ⟨"", 1, Value.int 1⟩ (by decide),
    ho rfl ⟨"", 2, Value.str "a"⟩ (by decide)⟩

/-- C17 as stated fails: `namedValueToValue` copies by input position and never
reads the ordinal.  For two unnamed arguments given with ordinals 2 then 1 (a
permutation of `1..2`) it returns the values in input order, so slot
`ordinal - 1 = 1` of the argument that carries `10` holds `20`; the statement
path puts the same arguments in ordinal order; and the legacy `Exec` of the
connection receives the input-order array. -/
theorem denormalize_copies_by_position :
    (swappedArgs.map (fun a => a.Ordinal)).Perm
        ((List.range swappedArgs.length).map (fun i : Nat => (i : Int) + 1)) ∧
      namedValueToValue swappedArgs = (some [Value.int 10, Value.int 20], none) ∧
      ((namedValueToValue swappedArgs).1.getD [])[((2 : Int) - 1).toNat]? =
        some (Value.int 20) ∧
      ((namedValueToValue swappedArgs).1.getD [])[((2 : Int) - 1).toNat]? ≠
        some (Value.int 10) ∧
      ordinalLoop (List.replicate swappedArgs.length Value.nil) swappedArgs =
        some [Value.int 20, Value.int 10] ∧
      ExecerContext.execContext ⟨⟨legacyConn, okHooks⟩⟩ [] 0 "SELECT 1" swappedArgs =
        ((some 5, none), [Event.ConnExec "SELECT 1" [Value.int 10, Value.int 20]]) :=
  ⟨List.Perm.swap 1 2 [], rfl, rfl, by decide, rfl, rfl⟩

theorem missing_ordinal (args : List NamedValue)
    (hrange : ∀ a ∈ args, 1 ≤ a.Ordinal ∧ a.Ordinal ≤ (args.length : Int))
    (hdup : ¬ (args.map (fun a => a.Ordinal)).Nodup) :
    ∃ j : Nat, j < args.length ∧ ∀ a ∈ args, a.Ordinal ≠ (j : Int) + 1 := by
  by_contra hcon
  apply hdup
  have hsub : (List.range args.length).map (fun i : Nat => (i : Int) + 1) ⊆
      args.map (fun a => a.Ordinal) := by
    intro o ho
    simp only [List.mem_map, List.mem_range] at ho
    obtain ⟨j, hj, rfl⟩ := ho
    by_contra hmem
    exact hcon ⟨j, hj, fun a ha hao => hmem (List.mem_map.2 ⟨a, ha, hao⟩)⟩
  have hnd : ((List.range args.length).map (fun i : Nat => (i : Int) + 1)).Nodup :=
    List.Nodup.map (f := fun i : Nat => (i : Int) + 1)
      (fun i j hij => by simpa using hij) (List.nodup_range _)
  have hperm := (List.subperm_of_subset hnd hsub).perm_of_length_le (by simp)
  exact hperm.nodup_iff.1 hnd

theorem lastAt_none (args : List NamedValue) (j : Nat)
    (h : ∀ a ∈ args, a.Ordinal ≠ (j : Int) + 1) : lastAt args j = none := by
  simp only [lastAt, List.find?_eq_none, List.mem_reverse, decide_eq_true_eq]
  exact h

/-- C18: the statement-level legacy conversion has no guard on the ordinals.
The loop runs through exactly when every ordinal lies in `1..n`; with an
ordinal outside that range (for instance `0`, or one above the number of
arguments) `Stmt.execContext` and `Stmt.queryContext` panic on the index, call
no driver primitive and return nothing, no error either.  With the ordinals in
range but duplicated, each slot holds the value of the last argument carrying
its ordinal, and some slot that no ordinal names is left nil. -/
theorem stmt_legacy_ordinals_unguarded (dstmt : DriverStmt) (hooks : Hooks) (query : String)
    (tr : Trace) (ctx : Context) (args : List NamedValue) :
    (ordinalLoop (List.replicate args.length Value.nil) args ≠ none ↔
        ∀ a ∈ args, 1 ≤ a.Ordinal ∧ a.Ordinal ≤ (args.length : Int)) ∧
      ((∃ a ∈ args, a.Ordinal < 1 ∨ (args.length : Int) < a.Ordinal) →
        (dstmt.StmtExecContext = none →
          Stmt.execContext ⟨dstmt, hooks, query⟩ tr ctx args = (none, tr)) ∧
        (dstmt.StmtQueryContext = none →
          Stmt.queryContext ⟨dstmt, hooks, query⟩ tr ctx args = (none, tr))) ∧
      Stmt.execContext ⟨legacyStmt, okHooks, "SELECT 1"⟩ [] 0 zeroOrdinalArgs = (none, []) ∧
      Stmt.queryContext ⟨legacyStmt, okHooks, "SELECT 1"⟩ [] 0 highOrdinalArgs = (none, []) ∧
      Stmt.ExecContext ⟨legacyStmt, okHooks, "SELECT 1"⟩ [] 0 zeroOrdinalArgs =
        (none, [Event.Before 0 "SELECT 1" (namedValueToInterface zeroOrdinalArgs)]) ∧
      ((∀ a ∈ args, 1 ≤ a.Ordinal ∧ a.Ordinal ≤ (args.length : Int)) →
        ¬ (args.map (fun a => a.Ordinal)).Nodup →
        ∃ values : List Value,
          ordinalLoop (List.replicate args.length Value.nil) args = some values ∧
          (∀ j : Nat, j < args.length →
            values[j]? = some (((lastAt args j).map (fun a => a.Value)).getD Value.nil)) ∧
          ∃ j : Nat, j < args.length ∧ (∀ a ∈ args, a.Ordinal ≠ (j : Int) + 1) ∧
            values[j]? = some Value.nil) ∧
      ordinalLoop (List.replicate dupArgs.length Value.nil) dupArgs =
        some [Value.int 20, Value.nil] := by
  have hiff := ordinalLoop_isSome_iff args (List.replicate args.length Value.nil)
  simp only [List.length_replicate] at hiff
  refine ⟨hiff, ?_, rfl, rfl, rfl, ?_, rfl⟩
  · rintro ⟨a, ha, hout⟩
    have hnone : ordinalLoop (List.replicate args.length Value.nil) args = none := by
      by_contra hne
      have := hiff.1 hne a ha
      omega
    exact ⟨fun h => by simp only [Stmt.execContext, h, hnone],
      fun h => by simp only [Stmt.queryContext, h, hnone]⟩
  · intro hrange hdup
    obtain ⟨values, hv⟩ := Option.ne_none_iff_exists'.1 (hiff.2 hrange)
    obtain ⟨_, hslot⟩ := ordinalLoop_slots args _ values hv
    refine ⟨values, hv, fun j hj => ?_, ?_⟩
    · rw [hslot j]
      cases lastAt args j <;> simp [hj]
    · obtain ⟨j, hj, hmiss⟩ := missing_ordinal args hrange hdup
      refine ⟨j, hj, hmiss, ?_⟩
      rw [hslot j, lastAt_none args j hmiss]
      simp [hj]

theorem stmt_legacy_ordinals_unguarded_witness :
    (Stmt.execContext ⟨legacyStmt, okHooks, "SELECT 1"⟩ [] 0 highOrdinalArgs = (none, [])) ∧
      ∃ values : List Value,
        ordinalLoop (List.replicate dupArgs.length Value.nil) dupArgs = some values ∧
        ∃ j : Nat, j < dupArgs.length ∧ (∀ a ∈ dupArgs, a.Ordinal ≠ (j : Int) + 1) ∧
          values[j]? = some Value.nil := by
  have h := stmt_legacy_ordinals_unguarded legacyStmt okHooks "SELECT 1" [] 0
  refine ⟨((h highOrdinalArgs).2.1 ⟨⟨"", 2, Value.int 1⟩, by decide, by decide⟩).1 rfl, ?_⟩
  obtain ⟨values, hv, _, hj⟩ := (h dupArgs).2.2.2.2.2.1 (by decide) (by decide)
  exact ⟨values, hv, hj⟩

/-! ## The two connection-level exec implementations -/

theorem conn_execContext_eq_choose (conn : Conn) (tr : Trace) (ctx : Context)
    (query : String) (args : List NamedValue) :
    conn.execContext tr ctx query args = chooseExec conn.Conn query args tr ctx := by
  unfold Conn.execContext chooseExec
  cases conn.Conn.ExecerContext <;> cases conn.Conn.Execer <;> rfl

theorem conn_ExecContext_eq_dispatch (conn : Conn) (tr : Trace) (ctx : Context)
    (query : String) (args : List NamedValue) :
    conn.ExecContext tr ctx query args =
      hookDispatch conn.Hooks (chooseExec conn.Conn query args) tr ctx query
        (namedValueToInterface args) := by
  have hstep : ∀ t c, chooseExec conn.Conn query args t c = conn.execContext t c query args :=
    fun t c => (conn_execContext_eq_choose conn t c query args).symm
  simp only [Conn.ExecContext, hookDispatch, hstep]
  rcases hooks_before : conn.Hooks.Before tr ctx query (namedValueToInterface args) with
    ⟨c, _ | e⟩
  · simp only []
    rcases hd : conn.execContext
      (tr ++ [Event.Before ctx query (namedValueToInterface args)]) c query args with
      ⟨⟨r, _ | e⟩, tr2⟩
    · simp only []
      rcases ha : conn.Hooks.After tr2 c query (namedValueToInterface args) with ⟨c2, _ | e⟩ <;>
        rfl
    · rfl
  · rfl

/-- C19: `Conn.ExecContext` on a base wrapper and `ExecerContext.ExecContext` on
the direct-execute variant over that same wrapper are the same function of the
trace, context, query and arguments: same calls in the same order with the same
arguments, same result and error.  Both are the four-step protocol around the
same choice of primitive: the context-aware `ExecContext` first, else the
legacy `Exec` on the denormalized arguments, else an error. -/
theorem exec_implementations_agree (conn : Conn) (tr : Trace) (ctx : Context)
    (query : String) (args : List NamedValue) :
    ExecerContext.ExecContext ⟨conn⟩ tr ctx query args =
        Conn.ExecContext conn tr ctx query args ∧
      ExecerContext.execContext ⟨conn⟩ tr ctx query args =
        Conn.execContext conn tr ctx query args ∧
      Conn.execContext conn tr ctx query args = chooseExec conn.Conn query args tr ctx ∧
      Conn.ExecContext conn tr ctx query args =
        hookDispatch conn.Hooks (chooseExec conn.Conn query args) tr ctx query
          (namedValueToInterface args) ∧
      ExecerContext.ExecContext ⟨conn⟩ tr ctx query args =
        hookDispatch conn.Hooks (chooseExec conn.Conn query args) tr ctx query
          (namedValueToInterface args) := by
  have hsame : ExecerContext.ExecContext ⟨conn⟩ tr ctx query args =
      Conn.ExecContext conn tr ctx query args := by
    simp only [ExecerContext.ExecContext, Conn.ExecContext, ec_execContext_eq]
  exact ⟨hsame, ec_execContext_eq ⟨conn⟩ tr ctx query args,
    conn_execContext_eq_choose conn tr ctx query args,
    conn_ExecContext_eq_dispatch conn tr ctx query args,
    hsame.trans (conn_ExecContext_eq_dispatch conn tr ctx query args)⟩

end Sqlhooks
